import Mathlib

/-!
Verification development for the aquatab tank-simulation engine.

The definitions below are a shallow embedding of the World simulation
container (world.js, the revision carrying reproduction, eggs, play
sessions and the water-filter state machine) together with its
configuration constants (config.js).  Scalars are embedded as rationals;
the injectable random source (Math.random) is threaded explicitly as a
stream of rationals; distance tests written with Math.hypot in the source
are embedded as comparisons of squared distances, which is equivalent for
every use site (the source only ever compares a hypot value against a
nonnegative bound).  Per-fish entity methods that live in fish.js are
abstracted as parameters where that file is not part of the sources
(see the Ext structure), and the few small fish play-state helpers the
World calls are modelled from the specification, as marked.
-/

namespace Aquatab

/-- clamp from world.js: Math.max(min, Math.min(max, v)). -/
def clampQ (v lo hi : ℚ) : ℚ := max lo (min hi v)

/-- clamp01 from world.js. -/
def clamp01Q (v : ℚ) : ℚ := clampQ v 0 1

/-- Explicit random source: a stream of draws together with a cursor,
standing in for the injectable Math.random seam the spec requires. -/
structure RS where
  g : ℕ → ℚ
  i : ℕ

/-- Draw the next random sample (the value Math.random would return). -/
def RS.next (r : RS) : ℚ × RS := (r.g r.i, ⟨r.g, r.i + 1⟩)

/-- rand(min, max) from world.js: min + Math.random() * (max - min). -/
def randQ (lo hi : ℚ) (r : RS) : ℚ × RS :=
  let (u, r2) := r.next
  (lo + u * (hi - lo), r2)

/-- randRange from world.js (both range ends finite in every use site):
rand over the sorted pair. -/
def randRangeQ (a b : ℚ) (r : RS) : ℚ × RS :=
  randQ (min a b) (max a b) r

/-- randIntInclusive from world.js: Math.floor(rand(low, high + 1)) over the
rounded, sorted range. -/
def randIntInclusiveQ (a b : ℤ) (r : RS) : ℤ × RS :=
  let lo : ℚ := (min a b : ℤ)
  let hi : ℚ := (max a b : ℤ)
  let (v, r2) := randQ lo (hi + 1) r
  (⌊v⌋, r2)

/-- Squared-distance comparison standing in for Math.hypot(dx, dy) <= bound
(the source compares hypot results only against nonnegative bounds, where
this is equivalent). -/
def sqDistLe (dx dy bound : ℚ) : Prop := dx ^ 2 + dy ^ 2 ≤ bound ^ 2

instance (dx dy bound : ℚ) : Decidable (sqDistLe dx dy bound) := by
  unfold sqDistLe; infer_instance

/-- Life state of a fish (ALIVE | DEAD) in this world.js revision. -/
inductive LState where
  | ALIVE
  | DEAD
deriving DecidableEq

/-- Age-derived life stage. -/
inductive LifeStage where
  | BABY
  | JUVENILE
  | ADULT
  | OLD
deriving DecidableEq

/-- Discrete hunger state. -/
inductive HState where
  | FED
  | HUNGRY
  | STARVING
deriving DecidableEq

/-- Fish sex. -/
inductive Sex where
  | male
  | female
deriving DecidableEq

/-- Reproduction state machine value. -/
inductive RState where
  | READY
  | GRAVID
  | LAYING
  | COOLDOWN
deriving DecidableEq

/-- Egg life-state tag. -/
inductive EggState where
  | INCUBATING
  | HATCHED
  | FAILED
deriving DecidableEq

/-- Play-session role. -/
inductive PlayRole where
  | RUNNER
  | CHASER
deriving DecidableEq

/-- Reproduction sub-record of a fish, as read and written by world.js. -/
structure Repro where
  state : RState
  fatherId : Option ℕ
  pregnancyStartSec : Option ℚ
  dueAtSec : Option ℚ
  layingStartedAtSec : Option ℚ
  layTargetX : Option ℚ
  layTargetY : Option ℚ
  cooldownUntilSec : ℚ
deriving DecidableEq

/-- Play sub-record of a fish. Modelled from the spec: the fish.js file
holding the Fish class is not among the sources; the spec lists session id,
role, target-fish reference and an eligibility-cooldown timestamp. -/
structure PlayRec where
  sessionId : Option ℕ
  role : Option PlayRole
  targetFishId : Option ℕ
  untilSec : ℚ
  eligibleAtSec : ℚ
deriving DecidableEq

/-- Heritable trait values snapshotted into eggs; the numeric keys clamped
by inheritTraits in world.js. -/
structure Traits where
  colorHue : ℚ
  sizeFactor : ℚ
  growthRate : ℚ
  speedFactor : ℚ
  lifespanSec : ℚ
deriving DecidableEq

/-- Mating animation marker set by tryMatePair. -/
structure MatingAnim where
  startSec : ℚ
  durationSec : ℚ
  partnerId : ℕ
  bubbleBurstDone : Bool
deriving DecidableEq

/-- Fish entity state, restricted to the fields world.js reads or writes. -/
structure Fish where
  id : ℕ
  name : String
  sex : Sex
  x : ℚ
  y : ℚ
  headingAngle : ℚ
  speedFactor : ℚ
  size : ℚ
  sizeFactor : ℚ
  growthRate : ℚ
  lifespanSec : ℚ
  stageShiftBabySec : ℚ
  stageShiftJuvenileSec : ℚ
  spawnTimeSec : ℚ
  energy01 : ℚ
  hunger01 : ℚ
  wellbeing01 : ℚ
  hungerState : HState
  lifeStage : LifeStage
  lifeState : LState
  deadAtSec : Option ℚ
  corpseDirtApplied01 : ℚ
  corpseRemoved : Bool
  repro : Repro
  play : PlayRec
  matingAnim : Option MatingAnim
  traits : Traits
deriving DecidableEq

/-- Food pellet record from world.js (ttl is Option to model the
Number.isFinite(item.ttl) guards; spawnFood always stores a finite ttl). -/
structure Food where
  id : ℕ
  x : ℚ
  y : ℚ
  amount : ℚ
  ttl : Option ℚ
  vy : ℚ
deriving DecidableEq

/-- Egg record from world.js. -/
structure Egg where
  id : ℕ
  x : ℚ
  y : ℚ
  laidAtSec : ℚ
  hatchAtSec : ℚ
  motherId : Option ℕ
  fatherId : Option ℕ
  motherTraits : Traits
  fatherTraits : Traits
  state : EggState
  canBeEaten : Bool
  nutrition : ℚ
deriving DecidableEq

/-- Shared water state with the filter appliance sub-record. -/
structure Water where
  hygiene01 : ℚ
  dirt01 : ℚ
  filterInstalled : Bool
  filter01 : ℚ
  installProgress01 : ℚ
  maintenanceProgress01 : ℚ
  maintenanceCooldownSec : ℚ
  filterUnlocked : Bool
  filterEnabled : Bool
  effectiveFilter01 : ℚ
deriving DecidableEq

/-- Decorative bubble. -/
structure Bubble where
  x : ℚ
  y : ℚ
  radius : ℚ
  speed : ℚ
  swayPhase : ℚ
  swayAmplitude : ℚ
deriving DecidableEq

/-- Mating fx particle. -/
structure Fx where
  x : ℚ
  y : ℚ
  vx : ℚ
  vy : ℚ
  radius : ℚ
  lifeSec : ℚ
  ttlSec : ℚ
deriving DecidableEq

/-- Ground algae decoration (only x, y, radius feed back into simulation
via isNearGroundAlgae). -/
structure Algae where
  x : ℚ
  y : ℚ
  height : ℚ
  width : ℚ
  swayAmp : ℚ
  swayRate : ℚ
  phase : ℚ
  radius : ℚ
deriving DecidableEq

/-- Active play session record. -/
structure PlaySession where
  id : ℕ
  runnerFishId : ℕ
  chaserFishIds : List ℕ
  untilSec : ℚ
  startedNearAlgae : Bool
  originX : ℚ
  originY : ℚ
deriving DecidableEq

/-- Tank bounds. -/
structure Bounds where
  width : ℚ
  height : ℚ
  sandHeight : ℚ
deriving DecidableEq

/-- The World aggregate root, mirroring the constructor field list. -/
structure World where
  bounds : Bounds
  fish : List Fish
  food : List Food
  eggs : List Egg
  bubbles : List Bubble
  fxParticles : List Fx
  nextFoodId : ℕ
  nextFishId : ℕ
  nextPlaySessionId : ℕ
  nextEggId : ℕ
  simTimeSec : ℚ
  selectedFishId : Option ℕ
  initialFishCount : ℕ
  foodsConsumedCount : ℕ
  filterUnlockThreshold : ℕ
  filterUnlocked : Bool
  events : List (String × ℚ)
  playSessions : List PlaySession
  matePairNextTryAt : List ((ℕ × ℕ) × ℚ)
  groundAlgae : List Algae
  water : Water
  expiredFoodSinceLastWaterUpdate : ℕ
  paused : Bool
  speedMultiplier : ℚ
deriving DecidableEq

/-! Configuration constants from config.js (the revision with the
reproduction and water blocks) and the module-level constants of
world.js. -/

def FOOD_DEFAULT_AMOUNT : ℚ := 1
def FOOD_DEFAULT_TTL : ℚ := 120
def FOOD_FALL_ACCEL : ℚ := 8
def FOOD_FALL_DAMPING : ℚ := 0.15
def FOOD_MAX_FALL_SPEED : ℚ := 26
def INITIAL_MAX_AGE_SEC : ℚ := 1200
def MATE_ENCOUNTER_RADIUS_PX : ℚ := 70
def MATE_PAIR_RETRY_MIN_SEC : ℚ := 25
def MATE_BASE_CHANCE : ℚ := 0.08
def MATE_FATHER_COOLDOWN_LO : ℚ := 120
def MATE_FATHER_COOLDOWN_HI : ℚ := 240
def MATE_MIN_WELLBEING : ℚ := 0.80
def MATE_MIN_HYGIENE : ℚ := 0.60
def GESTATION_LO : ℚ := 360
def GESTATION_HI : ℚ := 600
def EGG_INCUBATION_LO : ℚ := 120
def EGG_INCUBATION_HI : ℚ := 300
def MOTHER_COOLDOWN_LO : ℚ := 600
def MOTHER_COOLDOWN_HI : ℚ := 1080
def CLUTCH_SIZE_LO : ℤ := 1
def CLUTCH_SIZE_HI : ℤ := 2
def TRAIT_MUTATION_PCT : ℚ := 0.05
def HATCH_FLOOR : ℚ := 0.02
def WATER_INITIAL_HYGIENE01 : ℚ := 1
def WATER_INITIAL_DIRT01 : ℚ := 0
def WATER_REFERENCE_FISH_COUNT : ℚ := 20
def WATER_BASELINE_DECAY_PER_SEC : ℚ := 0.0002
def WATER_BIOLOAD_DIRT_PER_SEC : ℚ := 0.00035
def WATER_DIRT_PER_EXPIRED_FOOD : ℚ := 0.015
def WATER_DIRT_TO_DECAY_MULTIPLIER : ℚ := 3
def FILTER_DIRT_REMOVE_PER_SEC : ℚ := 0.0006
def FILTER_WEAR_BASE_PER_SEC : ℚ := 0.00005
def FILTER_WEAR_BIOLOAD_FACTOR : ℚ := 1
def FILTER_WEAR_DIRT_FACTOR : ℚ := 2.5
def FILTER_BIOLOAD_MITIGATION_FACTOR : ℚ := 0.6
def FILTER_DEPLETED_THRESHOLD_01 : ℚ := 0.1
def FILTER_INSTALL_DURATION_SEC : ℚ := 12
def FILTER_MAINTENANCE_DURATION_SEC : ℚ := 12
def FILTER_MAINTENANCE_COOLDOWN_SEC : ℚ := 25
def FILTER_MAINTENANCE_RESTORE_TO_01 : ℚ := 1
def CORPSE_GRACE_SEC : ℚ := 120
def CORPSE_DIRT_STEP_SEC : ℚ := 60
def CORPSE_DIRT_INITIAL01 : ℚ := 0.07
def CORPSE_DIRT_STEP01 : ℚ := 0.01
def CORPSE_DIRT_MAX01 : ℚ := 0.12
def GROWTH_ADULT_RADIUS : ℚ := 22
def GROWTH_BIRTH_SCALE : ℚ := 0.28
def GROWTH_SIZE_FACTOR_MIN : ℚ := 0.9
def GROWTH_SIZE_FACTOR_MAX : ℚ := 1.1
def GROWTH_RATE_MIN : ℚ := 0.9
def GROWTH_RATE_MAX : ℚ := 1.1
def AGE_LIFESPAN_MEAN_SEC : ℚ := 5400
def AGE_LIFESPAN_JITTER_SEC : ℚ := 900
def AGE_STAGE_JITTER_SEC : ℚ := 180

/-- Modelled from the spec: base play-join chance used by the Fish method
playProbability in the missing fish.js; the spec fixes only the shape
(boosted near ground algae), so the two values are configuration. -/
def PLAY_JOIN_CHANCE_BASE : ℚ := 0.1

/-- Modelled from the spec: play-join chance near ground algae. -/
def PLAY_JOIN_CHANCE_NEAR_ALGAE : ℚ := 0.25

/-! Generic list helpers used to embed in-place array mutation. -/

/-- Apply h to the first element satisfying p (JS: mutate the object
returned by Array.prototype.find). -/
def modifyFirst (p : α → Bool) (h : α → α) : List α → List α
  | [] => []
  | a :: as => if p a then h a :: as else a :: modifyFirst p h as

/-- Remove the first element satisfying p (JS: splice at findIndex),
returning whether one was found. -/
def removeFirst (p : α → Bool) : List α → Bool × List α
  | [] => (false, [])
  | a :: as =>
      if p a then (true, as)
      else
        let (found, rest) := removeFirst p as
        (found, a :: rest)

/-- Association-list insert for the matePairNextTryAt map. -/
def alInsert (k : ℕ × ℕ) (v : ℚ) : List ((ℕ × ℕ) × ℚ) → List ((ℕ × ℕ) × ℚ)
  | [] => [(k, v)]
  | e :: es => if e.1 = k then (k, v) :: es else e :: alInsert k v es

/-- Association-list lookup with the source default of 0
(this.matePairNextTryAt.get(key) ?? 0). -/
def alGet (k : ℕ × ℕ) : List ((ℕ × ℕ) × ℚ) → ℚ
  | [] => 0
  | e :: es => if e.1 = k then e.2 else alGet k es

/-! Fish play-state helpers. Modelled from the spec: the Fish class lives
in fish.js, which is not among the sources; only the World call sites and
the spec description of the play sub-record fix their behavior (flagged
as playing while in a session and not expired; eligibility delay;
role/target assignment touches only the play sub-record). -/

/-- Modelled from the spec: a fish is playing while alive, in a session
and before the session expiry. -/
def Fish.isPlaying (f : Fish) (t : ℚ) : Bool :=
  f.lifeState = LState.ALIVE && f.play.sessionId.isSome && t < f.play.untilSec

/-- Modelled from the spec: leave the play session. -/
def Fish.stopPlay (f : Fish) : Fish :=
  { f with play := { f.play with sessionId := none, role := none, targetFishId := none } }

/-- Modelled from the spec: assign the play role. -/
def Fish.setPlayRole (f : Fish) (r : PlayRole) : Fish :=
  { f with play := { f.play with role := some r } }

/-- Modelled from the spec: assign the pursuit target. -/
def Fish.setPlayTargetFish (f : Fish) (tid : Option ℕ) : Fish :=
  { f with play := { f.play with targetFishId := tid } }

/-- Modelled from the spec: eligible to start playing while alive, not in
a session and past the personal eligibility delay. -/
def Fish.canStartPlay (f : Fish) (t : ℚ) : Bool :=
  f.lifeState = LState.ALIVE && f.play.sessionId.isNone && f.play.eligibleAtSec ≤ t

/-- Modelled from the spec: join probability, boosted near ground algae. -/
def Fish.playProbability (_f : Fish) (nearAlgae : Bool) : ℚ :=
  if nearAlgae then PLAY_JOIN_CHANCE_NEAR_ALGAE else PLAY_JOIN_CHANCE_BASE

/-- Modelled from the spec: enter a play session. -/
def Fish.startPlay (f : Fish) (sid : ℕ) (r : PlayRole) (untilSec : ℚ)
    (tid : ℕ) : Fish :=
  { f with play := { f.play with
      sessionId := some sid
      role := some r
      targetFishId := some tid
      untilSec := untilSec } }

/-- Modelled from the spec: push the personal play-eligibility delay. -/
def Fish.delayPlayEligibility (f : Fish) (t : ℚ) : Fish :=
  { f with play := { f.play with eligibleAtSec := t } }

/-! World geometry helpers and the event queue. -/

/-- swimHeight from world.js: Math.max(40, this.bounds.height). -/
def World.swimHeight (w : World) : ℚ := max 40 w.bounds.height

/-- spawnMargin from world.js. -/
def World.spawnMargin (w : World) : ℚ :=
  clampQ (min w.bounds.width w.bounds.height * 0.03) 10 20

/-- emit from world.js (payload omitted: no payload feeds back into the
simulation). -/
def World.emit (w : World) (type : String) : World :=
  { w with events := w.events ++ [(type, w.simTimeSec)] }

/-- flushEvents from world.js. -/
def World.flushEvents (w : World) : List (String × ℚ) × World :=
  (w.events, { w with events := [] })

/-! Public mutation operations of world.js. -/

/-- spawnFood from world.js. -/
def World.spawnFood (w : World) (x y amount ttl : ℚ) (r : RS) : World × RS :=
  let clampedX := clampQ x 0 w.bounds.width
  let clampedY := clampQ y 0 w.swimHeight
  let p := randQ 8 20 r
  let item : Food := { id := w.nextFoodId
                       x := clampedX
                       y := clampedY
                       amount := max 0.1 amount
                       ttl := some ttl
                       vy := p.1 }
  let w2 := { w with
              food := w.food ++ [item]
              nextFoodId := w.nextFoodId + 1 }
  (w2.emit "food:spawn", p.2)

/-- consumeFood from world.js: returns the consumed amount and the new
state. -/
def World.consumeFood (w : World) (foodId : ℕ) (amountToConsume : ℚ) :
    ℚ × World :=
  match w.food.find? (fun entry => entry.id = foodId) with
  | none => (0, w)
  | some food =>
      let consumed := min food.amount (max 0.05 amountToConsume)
      let food2 := modifyFirst (fun entry => entry.id = foodId)
        (fun entry => { entry with amount := entry.amount - consumed }) w.food
      let food3 := if food.amount - consumed ≤ 0.001
        then food2.filter (fun entry => entry.id ≠ foodId)
        else food2
      let w2 := { w with food := food3 }
      let w3 := if 0 < consumed then w2.emit "food:consume" else w2
      let w4 := if 0 < consumed then
          let w4a : World := { w3 with foodsConsumedCount := w3.foodsConsumedCount + 1 }
          if w4a.filterUnlocked = false ∧
              w4a.filterUnlockThreshold ≤ w4a.foodsConsumedCount
          then { w4a with filterUnlocked := true } else w4a
        else w3
      (consumed, w4)

/-- selectFish from world.js. -/
def World.selectFish (w : World) (fishId : ℕ) : Option ℕ × World :=
  match w.fish.find? (fun f => f.id = fishId) with
  | some f => (some f.id, { w with selectedFishId := some f.id })
  | none => (none, { w with selectedFishId := none })

/-- toggleFishSelection from world.js. -/
def World.toggleFishSelection (w : World) (fishId : ℕ) : Option ℕ × World :=
  if w.selectedFishId = some fishId then
    (none, { w with selectedFishId := none })
  else w.selectFish fishId

/-- Name normalization applied by renameFish:
String(name).trim().slice(0, 24). -/
def normalizeName (s : String) : String := s.trim.take 24

/-- renameFish from world.js: false when no fish has the id, otherwise
store the normalized name (no deduplication is performed by the source). -/
def World.renameFish (w : World) (fishId : ℕ) (name : String) : Bool × World :=
  match w.fish.find? (fun entry => entry.id = fishId) with
  | none => (false, w)
  | some _ =>
      let fish2 := modifyFirst (fun entry => entry.id = fishId)
        (fun entry => { entry with name := normalizeName name }) w.fish
      (true, { w with fish := fish2 })

/-- discardFish from world.js: only a non-ALIVE fish is discardable. -/
def World.discardFish (w : World) (fishId : ℕ) : Bool × World :=
  let (found, rest) := removeFirst
    (fun entry => entry.id = fishId && entry.lifeState ≠ LState.ALIVE) w.fish
  if found then
    (true, { w with
             fish := rest
             selectedFishId := if w.selectedFishId = some fishId then none
                               else w.selectedFishId })
  else (false, w)

/-- removeCorpse from world.js: only a DEAD fish is removable. -/
def World.removeCorpse (w : World) (fishId : ℕ) : Bool × World :=
  let (found, rest) := removeFirst
    (fun entry => entry.id = fishId && entry.lifeState = LState.DEAD) w.fish
  if found then
    (true, { w with
             fish := rest
             selectedFishId := if w.selectedFishId = some fishId then none
                               else w.selectedFishId })
  else (false, w)

/-- setSpeedMultiplier from world.js: clamped into [0.5, 3]. -/
def World.setSpeedMultiplier (w : World) (value : ℚ) : World :=
  { w with speedMultiplier := max 0.5 (min 3 value) }

/-- togglePause from world.js. -/
def World.togglePause (w : World) : Bool × World :=
  (!w.paused, { w with paused := !w.paused })

/-- installWaterFilter from world.js: guarded start of the install
transient. -/
def World.installWaterFilter (w : World) : Bool × World :=
  if ¬ w.water.filterUnlocked ∨ w.water.filterInstalled ∨
      0 < w.water.installProgress01 then (false, w)
  else (true, { w with water := { w.water with installProgress01 := 0.000001 } })

/-- toggleWaterFilterEnabled from world.js: no-op while not installed or
mid-transition. -/
def World.toggleWaterFilterEnabled (w : World) : Bool × World :=
  if ¬ w.water.filterInstalled ∨ 0 < w.water.installProgress01 ∨
      0 < w.water.maintenanceProgress01 then (w.water.filterEnabled, w)
  else
    (!w.water.filterEnabled,
     { w with water := { w.water with filterEnabled := !w.water.filterEnabled } })

/-- maintainWaterFilter from world.js: guarded start of the maintenance
transient. -/
def World.maintainWaterFilter (w : World) : Bool × World :=
  if ¬ w.water.filterInstalled then (false, w)
  else if 0 < w.water.installProgress01 ∨ 0 < w.water.maintenanceProgress01 ∨
      0 < w.water.maintenanceCooldownSec then (false, w)
  else (true, { w with water := { w.water with maintenanceProgress01 := 0.000001 } })

/-- Per-fish entity methods of the Fish class (fish.js), which is not
among the sources for this world.js revision; the World only invokes
them, so they are abstracted as parameters together with the
transcendental helpers (Math.PI, Math.sin) that have no exact rational
embedding. tryConsumeFood reports its world effect as the list of
consumeFood(foodId, amount) calls it makes, which is the only way the
source method mutates the World. -/
structure Ext where
  piQ : ℚ
  sinQ : ℚ → ℚ
  updateLifeCycle : ℚ → Fish → Fish
  updatePlayState : ℚ → Fish → Fish
  updateMetabolism : ℚ → World → Fish → Fish
  decideBehavior : World → ℚ → Fish → Fish
  applySteering : ℚ → Fish → Fish
  tryConsumeFood : World → Fish → Fish × List (ℕ × ℚ)

/-! updateFood from world.js: gravity integration, floor rest, ttl
countdown and expiry reporting. The source iterates from the last index
to the first, so the recursion below processes the tail before the
head. -/

/-- One food item motion/ttl step. -/
def foodStep (bottomY delta : ℚ) (item : Food) : Food :=
  let ttl2 := match item.ttl with
    | some t => some (t - delta)
    | none => none
  let vy2 := item.vy + FOOD_FALL_ACCEL * delta
  let y2 := item.y + vy2 * delta
  if bottomY ≤ y2 then { item with ttl := ttl2, y := bottomY, vy := vy2 * FOOD_FALL_DAMPING }
  else { item with ttl := ttl2, y := y2, vy := min vy2 FOOD_MAX_FALL_SPEED }

/-- Whether the stepped item expired this tick. -/
def foodExpired (item : Food) : Bool :=
  match item.ttl with
  | some t => t ≤ 0
  | none => false

/-- Tail-first walk matching the reverse index loop of updateFood. -/
def updateFoodGo (bottomY delta : ℚ) :
    List Food → List Food × ℕ × List String
  | [] => ([], 0, [])
  | item :: rest =>
      let (rest2, cnt, evs) := updateFoodGo bottomY delta rest
      let item2 := foodStep bottomY delta item
      if foodExpired item2 then (rest2, cnt + 1, evs ++ ["foodExpired"])
      else (item2 :: rest2, cnt, evs)

/-- updateFood from world.js. -/
def World.updateFood (w : World) (delta : ℚ) : World :=
  let p := updateFoodGo w.swimHeight delta w.food
  { w with
    food := p.1
    expiredFoodSinceLastWaterUpdate := w.expiredFoodSinceLastWaterUpdate + p.2.1
    events := w.events ++ p.2.2.map (fun t => (t, w.simTimeSec)) }

/-- One fx particle step of updateFxParticles. -/
def fxStep (width swimH dt : ℚ) (p : Fx) : Fx :=
  { p with
    ttlSec := p.ttlSec - dt
    x := clampQ (p.x + p.vx * dt) 0 width
    y := clampQ (p.y + p.vy * dt) 0 swimH }

/-- Tail-first walk matching the reverse index loop of
updateFxParticles. -/
def updateFxGo (width swimH dt : ℚ) : List Fx → List Fx
  | [] => []
  | p :: rest =>
      let rest2 := updateFxGo width swimH dt rest
      let p2 := fxStep width swimH dt p
      if p2.ttlSec ≤ 0 then rest2 else p2 :: rest2

/-- updateFxParticles from world.js. -/
def World.updateFxParticles (w : World) (dt : ℚ) : World :=
  if ¬ 0 < dt then w
  else { w with fxParticles := updateFxGo w.bounds.width w.swimHeight dt w.fxParticles }

/-- One bubble step of updateBubbles (Math.sin supplied through Ext). -/
def bubbleStep (sinQ : ℚ → ℚ) (width height delta : ℚ) (b : Bubble) (r : RS) :
    Bubble × RS :=
  let y2 := b.y - b.speed * delta
  let phase2 := b.swayPhase + delta
  let x2 := b.x + sinQ phase2 * b.swayAmplitude * delta
  let (b3, r3) :=
    if y2 < -10 then
      let (dy, r1) := randQ 8 80 r
      let (nx, r2) := randQ 0 width r1
      ({ b with y := height + dy, x := nx, swayPhase := phase2 }, r2)
    else ({ b with y := y2, x := x2, swayPhase := phase2 }, r)
  let b4 := if b3.x < 0 then { b3 with x := b3.x + width } else b3
  let b5 := if width < b4.x then { b4 with x := b4.x - width } else b4
  (b5, r3)

/-- Forward walk over the bubbles list. -/
def updateBubblesGo (sinQ : ℚ → ℚ) (width height delta : ℚ) :
    List Bubble → RS → List Bubble × RS
  | [], r => ([], r)
  | b :: rest, r =>
      let (b2, r2) := bubbleStep sinQ width height delta b r
      let (rest2, r3) := updateBubblesGo sinQ width height delta rest r2
      (b2 :: rest2, r3)

/-- updateBubbles from world.js (it also re-clamps food positions before
walking the bubbles). -/
def World.updateBubbles (w : World) (ext : Ext) (delta : ℚ) (r : RS) :
    World × RS :=
  let food2 := w.food.map (fun f =>
    { f with
      x := min (max 0 f.x) w.bounds.width
      y := min (max 0 f.y) (max 0 w.swimHeight) })
  let p := updateBubblesGo ext.sinQ w.bounds.width w.bounds.height delta w.bubbles r
  ({ w with food := food2, bubbles := p.1 }, p.2)

/-- updateFishLifeState from world.js: stamp the death time of any DEAD
fish that has none. -/
def World.updateFishLifeState (w : World) : World :=
  { w with fish := w.fish.map (fun f =>
      if f.lifeState = LState.DEAD ∧ f.deadAtSec = none
      then { f with deadAtSec := some w.simTimeSec } else f) }

/-! updateWaterHygiene from world.js: unattended-corpse dirt with
saturation eviction, the filter timer progression, and the
dirt/hygiene integration. -/

/-- Target corpse-dirt contribution for a corpse dead for ageDeadSec. -/
def corpseTargetContribution (ageDeadSec : ℚ) : ℚ :=
  if CORPSE_GRACE_SEC ≤ ageDeadSec then
    let minutesAfterGrace : ℤ := ⌊(ageDeadSec - CORPSE_GRACE_SEC) / CORPSE_DIRT_STEP_SEC⌋
    clampQ (CORPSE_DIRT_INITIAL01 + CORPSE_DIRT_STEP01 * (minutesAfterGrace : ℚ))
      0 CORPSE_DIRT_MAX01
  else 0

/-- Tail-first walk matching the reverse index loop over fish in
updateWaterHygiene: applies corpse dirt and evicts saturated corpses. -/
def corpseSweepGo (simT : ℚ) :
    List Fish → Water → Option ℕ → List Fish × Water × Option ℕ
  | [], water, sel => ([], water, sel)
  | f :: rest, water, sel =>
      let (rest2, water2, sel2) := corpseSweepGo simT rest water sel
      if f.lifeState ≠ LState.DEAD ∨ f.corpseRemoved then
        (f :: rest2, water2, sel2)
      else
        let f1 := if f.deadAtSec = none then { f with deadAtSec := some simT } else f
        let d := f1.deadAtSec.getD simT
        let ageDeadSec := max 0 (simT - d)
        let target := corpseTargetContribution ageDeadSec
        let already := clampQ f1.corpseDirtApplied01 0 CORPSE_DIRT_MAX01
        let delta := target - already
        let f2 := if 0 < delta then { f1 with corpseDirtApplied01 := target } else f1
        let water3 := if 0 < delta
          then { water2 with dirt01 := clampQ (water2.dirt01 + delta) 0 1 }
          else water2
        if CORPSE_DIRT_MAX01 ≤ f2.corpseDirtApplied01 then
          (rest2, water3, if sel2 = some f.id then none else sel2)
        else (f2 :: rest2, water3, sel2)

/-! Install/cooldown/maintenance timer progression of
updateWaterHygiene, including the filterUnlocked mirror. -/

/-- The install-progress leg of the timer progression. -/
def wtInstall (dt : ℚ) (w0 : Water) : Water :=
  if 0 < w0.installProgress01 ∧ w0.filterInstalled = false then
    let p := clampQ (w0.installProgress01 + dt / FILTER_INSTALL_DURATION_SEC) 0 1
    if 1 ≤ p then { w0 with
      filterInstalled := true
      filterEnabled := true
      filter01 := 1
      installProgress01 := 0 }
    else { w0 with installProgress01 := p }
  else w0

/-- The post-maintenance cooldown countdown leg. -/
def wtCooldown (dt : ℚ) (w1 : Water) : Water :=
  if 0 < w1.maintenanceCooldownSec
  then { w1 with maintenanceCooldownSec := max 0 (w1.maintenanceCooldownSec - dt) }
  else w1

/-- The maintenance-progress leg. -/
def wtMaint (dt : ℚ) (w2 : Water) : Water :=
  if 0 < w2.maintenanceProgress01 then
    let p := clampQ (w2.maintenanceProgress01 + dt / FILTER_MAINTENANCE_DURATION_SEC) 0 1
    if 1 ≤ p then { w2 with
      filter01 := FILTER_MAINTENANCE_RESTORE_TO_01
      maintenanceProgress01 := 0
      maintenanceCooldownSec := FILTER_MAINTENANCE_COOLDOWN_SEC }
    else { w2 with maintenanceProgress01 := p }
  else w2

def waterTimers (filterUnlocked : Bool) (dt : ℚ) (water : Water) : Water :=
  wtMaint dt (wtCooldown dt (wtInstall dt { water with filterUnlocked := filterUnlocked }))

/-- The hasWorkingFilter condition of updateWaterHygiene: installed,
user-enabled, not mid-maintenance and above the depletion threshold. -/
def HasWorkingFilter (water : Water) : Prop :=
  water.filterInstalled = true ∧ water.filterEnabled = true ∧
    ¬ 0 < water.maintenanceProgress01 ∧
    FILTER_DEPLETED_THRESHOLD_01 < water.filter01

instance : DecidablePred HasWorkingFilter := fun w => by
  unfold HasWorkingFilter; infer_instance

/-- effectiveFilter01 of updateWaterHygiene. -/
def effectiveFilterOf (water : Water) : ℚ :=
  if HasWorkingFilter water then water.filter01 else 0

/-- The effective bioload after filter mitigation. -/
def effectiveBioloadOf (bioload eff : ℚ) : ℚ :=
  clampQ (bioload * (1 - eff * FILTER_BIOLOAD_MITIGATION_FACTOR)) 0 (max 0 bioload)

/-- The dirt amount the filter removes this tick. -/
def filterDirtRemovedAmt (eff dt : ℚ) : ℚ :=
  FILTER_DIRT_REMOVE_PER_SEC * eff * dt

/-- updateWaterHygiene from world.js. -/
def World.updateWaterHygiene (w0 : World) (dt : ℚ) : World :=
  let expiredFoodCount := w0.expiredFoodSinceLastWaterUpdate
  let w := { w0 with expiredFoodSinceLastWaterUpdate := 0 }
  if ¬ 0 < dt then w else
  let sw := corpseSweepGo w.simTimeSec w.fish w.water w.selectedFishId
  let fish2 := sw.1
  let sel2 := sw.2.2
  let bioload := (fish2.length : ℚ) / WATER_REFERENCE_FISH_COUNT
  let water1 := waterTimers w.filterUnlocked dt sw.2.1
  let eff := effectiveFilterOf water1
  let water2 := { water1 with effectiveFilter01 := eff }
  let effBio := effectiveBioloadOf bioload eff
  let bioloadDirt := WATER_BIOLOAD_DIRT_PER_SEC * bioload * dt
  let expiredFoodDirt := (expiredFoodCount : ℚ) * WATER_DIRT_PER_EXPIRED_FOOD
  let water3 := { water2 with dirt01 := clampQ (water2.dirt01 + bioloadDirt + expiredFoodDirt) 0 1 }
  let water4 := { water3 with dirt01 := clampQ (water3.dirt01 - filterDirtRemovedAmt eff dt) 0 1 }
  let water5 := if water4.filterInstalled then
      let wearRate := FILTER_WEAR_BASE_PER_SEC
        * (1 + FILTER_WEAR_BIOLOAD_FACTOR * bioload)
        * (1 + FILTER_WEAR_DIRT_FACTOR * water4.dirt01)
      { water4 with filter01 := clampQ (water4.filter01 - wearRate * dt) 0 1 }
    else water4
  let dirtMultiplier := 1 + water5.dirt01 * WATER_DIRT_TO_DECAY_MULTIPLIER
  let baselineDecay := WATER_BASELINE_DECAY_PER_SEC * effBio * dirtMultiplier * dt
  let hygieneRecovery := WATER_BASELINE_DECAY_PER_SEC * max 0 (bioload - effBio) * dt
  let water6 := { water5 with hygiene01 := clampQ (water5.hygiene01 - baselineDecay + hygieneRecovery) 0 1 }
  { w with fish := fish2, water := water6, selectedFishId := sel2 }

/-! inheritTraits from world.js: per-key arithmetic-mean blend with a
symmetric mutation, then the hard clamps on the safety-critical keys. -/

/-- One numeric key of inheritTraits: mean of the parents plus
mean * (2u - 1) * mutationPct. -/
def mutateKey (mv fv pct : ℚ) (r : RS) : ℚ × RS :=
  let mean := (mv + fv) / 2
  let (u, r2) := r.next
  (mean + mean * (u * 2 - 1) * pct, r2)

/-- JS ((h % 360) + 360) % 360: wrap into [0, 360). -/
def hueWrap (h : ℚ) : ℚ := h - 360 * (⌊h / 360⌋ : ℤ)

/-- inheritTraits from world.js over the numeric trait keys. -/
def inheritTraits (m f : Traits) (pct : ℚ) (r : RS) : Traits × RS :=
  let (hue, r1) := mutateKey m.colorHue f.colorHue pct r
  let (sz, r2) := mutateKey m.sizeFactor f.sizeFactor pct r1
  let (gr, r3) := mutateKey m.growthRate f.growthRate pct r2
  let (sp, r4) := mutateKey m.speedFactor f.speedFactor pct r3
  let (ls, r5) := mutateKey m.lifespanSec f.lifespanSec pct r4
  ({ colorHue := hueWrap hue
     sizeFactor := clampQ sz 0.6 1.4
     growthRate := clampQ gr 0.5 1.8
     speedFactor := clampQ sp 0.6 1.6
     lifespanSec := max 30 ls }, r5)

/-- Modelled from the spec: the Fish constructor of the missing fish.js.
The World factory passes id, spawn time, growth parameters, position,
heading and speed factor; the constructor fills the remaining state with
its take-off defaults: alive, baby-sized at the birth fraction of the
adult radius, full energy, hunger state FED, reproduction state READY
with no pending timers, empty play sub-record, sex sampled from the
random source, and heritable traits taken from the passed snapshot or
derived from the sampled growth numbers. -/
def Fish.make (id : ℕ) (spawnTimeSec sizeFactor growthRate lifespanSec
    stageShiftBabySec stageShiftJuvenileSec x y headingAngle speedFactor : ℚ)
    (traits : Option Traits) (r : RS) : Fish × RS :=
  let (u, r1) := r.next
  let (hue, r2) := randQ 0 360 r1
  let tr := traits.getD
    { colorHue := hue
      sizeFactor := sizeFactor
      growthRate := growthRate
      speedFactor := speedFactor
      lifespanSec := lifespanSec }
  ({ id := id
     name := ""
     sex := if u < 0.5 then Sex.female else Sex.male
     x := x
     y := y
     headingAngle := headingAngle
     speedFactor := speedFactor
     size := GROWTH_ADULT_RADIUS * sizeFactor * GROWTH_BIRTH_SCALE
     sizeFactor := sizeFactor
     growthRate := growthRate
     lifespanSec := lifespanSec
     stageShiftBabySec := stageShiftBabySec
     stageShiftJuvenileSec := stageShiftJuvenileSec
     spawnTimeSec := spawnTimeSec
     energy01 := 1
     hunger01 := 0
     wellbeing01 := 1
     hungerState := HState.FED
     lifeStage := LifeStage.BABY
     lifeState := LState.ALIVE
     deadAtSec := none
     corpseDirtApplied01 := 0
     corpseRemoved := false
     repro := { state := RState.READY
                fatherId := none
                pregnancyStartSec := none
                dueAtSec := none
                layingStartedAtSec := none
                layTargetX := none
                layTargetY := none
                cooldownUntilSec := 0 }
     play := { sessionId := none
               role := none
               targetFishId := none
               untilSec := 0
               eligibleAtSec := 0 }
     matingAnim := none
     traits := tr }, r2)

/-- Strict squared-distance comparison standing in for
Math.hypot(dx, dy) < bound. -/
def sqDistLt (dx dy bound : ℚ) : Prop := dx ^ 2 + dy ^ 2 < bound ^ 2

instance (dx dy bound : ℚ) : Decidable (sqDistLt dx dy bound) := by
  unfold sqDistLt; infer_instance

/-- isSpawnClear from world.js. -/
def World.isSpawnClear (w : World) (x y size : ℚ) : Bool :=
  w.fish.all (fun f =>
    let minDist := max (size * 1.5) (f.size * 1.5)
    ¬ sqDistLt (x - f.x) (y - f.y) minDist)

/-- randomSpawn from world.js. -/
def World.randomSpawn (w : World) (r : RS) : (ℚ × ℚ) × RS :=
  let margin := w.spawnMargin
  let (x, r1) := randQ margin (max margin (w.bounds.width - margin)) r
  let (y, r2) := randQ margin (max margin (w.swimHeight - margin)) r1
  ((x, y), r2)

/-- The 20-iteration retry loop around isSpawnClear in createFish. -/
def spawnRetryGo (w : World) (size : ℚ) : ℕ → (ℚ × ℚ) → RS → (ℚ × ℚ) × RS
  | 0, spawn, r => (spawn, r)
  | Nat.succ fuel, spawn, r =>
      if w.isSpawnClear spawn.1 spawn.2 size then (spawn, r)
      else
        let (spawn2, r2) := w.randomSpawn r
        spawnRetryGo w size fuel spawn2 r2

/-- The pre-lifecycle part of createFish from world.js: samples the
per-fish growth numbers, finds a clear spawn position unless one is
given, and builds the Fish record with its sex override and hungry
start applied.  Split out so facts about the built fish stay small
applications. -/
def createFishPre (w : World) (sex : Option Sex) (initialAgeSec : ℚ)
    (hungryStart : Bool) (position : Option (ℚ × ℚ))
    (traits : Option Traits) (piQ : ℚ) (r : RS) : Fish × RS :=
  let (sizeFactor, r1) := randQ GROWTH_SIZE_FACTOR_MIN GROWTH_SIZE_FACTOR_MAX r
  let adultRadius := GROWTH_ADULT_RADIUS * sizeFactor
  let birthRadius := adultRadius * GROWTH_BIRTH_SCALE
  let (lifespanSec, r2) := randQ (AGE_LIFESPAN_MEAN_SEC - AGE_LIFESPAN_JITTER_SEC)
    (AGE_LIFESPAN_MEAN_SEC + AGE_LIFESPAN_JITTER_SEC) r1
  let (stageShiftBabySec, r3) := randQ (-AGE_STAGE_JITTER_SEC) AGE_STAGE_JITTER_SEC r2
  let (stageShiftJuvenileSec, r4) := randQ (-AGE_STAGE_JITTER_SEC) AGE_STAGE_JITTER_SEC r3
  let spawnP := match position with
    | some p => (p, r4)
    | none =>
        let q := w.randomSpawn r4
        spawnRetryGo w birthRadius 20 q.1 q.2
  let spawn := spawnP.1
  let r5 := spawnP.2
  let sx := clampQ spawn.1 0 w.bounds.width
  let sy := clampQ spawn.2 0 w.swimHeight
  let normalizedInitialAgeSec := min (max 0 initialAgeSec) INITIAL_MAX_AGE_SEC
  let (growthRate, r6) := randQ GROWTH_RATE_MIN GROWTH_RATE_MAX r5
  let (uFacing, r7) := r6.next
  let (tilt, r8) := randQ (-(piQ / 3)) (piQ / 3) r7
  let headingAngle := if uFacing < 0.5 then piQ - tilt else tilt
  let (speedFactor, r9) := randQ 0.42 0.68 r8
  let mk := Fish.make w.nextFishId
    (w.simTimeSec - normalizedInitialAgeSec) sizeFactor growthRate lifespanSec
    stageShiftBabySec stageShiftJuvenileSec sx sy headingAngle speedFactor
    traits r9
  let fish0 := mk.1
  let fish1 := match sex with
    | some s => { fish0 with sex := s }
    | none => fish0
  let fish2 := if hungryStart then
      { fish1 with hunger01 := 0.5, energy01 := 0.5, hungerState := HState.HUNGRY }
    else fish1
  (fish2, mk.2)

/-- createFish from world.js (the revision taking sex, initialAgeSec,
hungryStart, position and traits): builds the pre-lifecycle fish,
refreshes its life cycle, and advances the fish id counter. -/
def World.createFish (ext : Ext) (w : World) (sex : Option Sex)
    (initialAgeSec : ℚ) (hungryStart : Bool) (position : Option (ℚ × ℚ))
    (traits : Option Traits) (r : RS) : Fish × World × RS :=
  let pre := createFishPre w sex initialAgeSec hungryStart position traits ext.piQ r
  (ext.updateLifeCycle w.simTimeSec pre.1,
    { w with nextFishId := w.nextFishId + 1 }, pre.2)

/-- The pre-lifecycle fish starts in the READY reproduction state. -/
theorem createFishPre_repro (w : World) (sex : Option Sex) (ia : ℚ)
    (hs : Bool) (pos : Option (ℚ × ℚ)) (tr : Option Traits) (piQ : ℚ) (r : RS) :
    (createFishPre w sex ia hs pos tr piQ r).1.repro.state = RState.READY := by
  cases hs <;> rcases sex with _ | s <;> rfl

/-- The pre-lifecycle fish carries exactly the current id counter. -/
theorem createFishPre_id (w : World) (sex : Option Sex) (ia : ℚ)
    (hs : Bool) (pos : Option (ℚ × ℚ)) (tr : Option Traits) (piQ : ℚ) (r : RS) :
    (createFishPre w sex ia hs pos tr piQ r).1.id = w.nextFishId := by
  cases hs <;> rcases sex with _ | s <;> rfl

/-- The hatch-chance curve of updateEggs: zero below the hygiene floor,
then a smooth quadratic ramp, floored at HATCH_FLOOR and clamped. -/
def hatchChanceOf (hygiene01 : ℚ) : ℚ :=
  let c := if MATE_MIN_HYGIENE ≤ hygiene01 then
      let t := clamp01Q ((hygiene01 - 0.60) / 0.40)
      0.25 + 0.75 * (t * t)
    else 0
  clamp01Q (max HATCH_FLOOR c)

/-- Tail-first walk matching the reverse index loop of updateEggs: a due
egg always leaves the collection and hatches into at most one new
fish. -/
def updateEggsGo (ext : Ext) (nowSec hygiene01 : ℚ) :
    List Egg → World → RS → List Egg × World × RS
  | [], w, r => ([], w, r)
  | egg :: rest, w, r =>
      let (rest2, w2, r2) := updateEggsGo ext nowSec hygiene01 rest w r
      if nowSec < egg.hatchAtSec then (egg :: rest2, w2, r2)
      else
        let hatchChance := hatchChanceOf hygiene01
        let (u, r3) := r2.next
        if u < hatchChance then
          let spawnX := clampQ egg.x 0 w2.bounds.width
          let spawnY := clampQ egg.y 0 w2.swimHeight
          let (babyTraits, r4) :=
            inheritTraits egg.motherTraits egg.fatherTraits TRAIT_MUTATION_PCT r3
          let (baby, w3, r5) :=
            w2.createFish ext none 0 false (some (spawnX, spawnY)) (some babyTraits) r4
          let baby2 := { baby with spawnTimeSec := w3.simTimeSec }
          (rest2, { w3 with fish := w3.fish ++ [baby2] }, r5)
        else (rest2, w2, r3)

/-- updateEggs from world.js. -/
def World.updateEggs (w : World) (ext : Ext) (dt : ℚ) (r : RS) : World × RS :=
  if ¬ 0 < dt then (w, r)
  else
    let hygiene01 := clamp01Q w.water.hygiene01
    let p := updateEggsGo ext w.simTimeSec hygiene01 w.eggs w r
    ({ p.2.1 with eggs := p.1 }, p.2.2)

/-! Reproduction coordinator from world.js: pair scan, gestation and
laying progression, clutch deposit. -/

/-- isMateEligible from world.js. -/
def World.isMateEligible (w : World) (f : Fish) (nowSec : ℚ) : Bool :=
  f.lifeState = LState.ALIVE && f.lifeStage = LifeStage.ADULT &&
    f.hungerState = HState.FED &&
    !(f.wellbeing01 < MATE_MIN_WELLBEING) &&
    !(w.water.hygiene01 < MATE_MIN_HYGIENE) &&
    f.repro.state = RState.READY &&
    !(nowSec < f.repro.cooldownUntilSec)

/-- tryMatePair from world.js, acting on the fish at indices i and j:
sex guard, eligibility, per-pair retry throttle, continuous success
probability, and on success the female turns gravid while the male only
receives a cooldown. -/
def World.tryMatePair (w : World) (i j : ℕ) (nowSec : ℚ) (r : RS) : World × RS :=
  match w.fish.get? i, w.fish.get? j with
  | some a, some b =>
      if a.sex = b.sex then (w, r)
      else if ¬ (w.isMateEligible a nowSec ∧ w.isMateEligible b nowSec) then (w, r)
      else
        let key := if a.id < b.id then (a.id, b.id) else (b.id, a.id)
        let nextTryAt := alGet key w.matePairNextTryAt
        if nowSec < nextTryAt then (w, r)
        else
          let pairMap2 := alInsert key (nowSec + MATE_PAIR_RETRY_MIN_SEC) w.matePairNextTryAt
          let w1 : World := { w with matePairNextTryAt := pairMap2 }
          let hygiene := clamp01Q w1.water.hygiene01
          let t := clamp01Q ((hygiene - 0.60) / 0.40)
          let hygieneFactor := 0.5 + 0.5 * t
          let wmin := min a.wellbeing01 b.wellbeing01
          let u0 := clamp01Q ((wmin - 0.80) / 0.20)
          let wellbeingFactor := 0.6 + 0.4 * u0
          let pMate := MATE_BASE_CHANCE * hygieneFactor * wellbeingFactor
          let (u, r2) := r.next
          if pMate ≤ u then (w1, r2)
          else
            let (fi, female, male) := if a.sex = Sex.female then (i, a, b) else (j, b, a)
            let mi := if a.sex = Sex.female then j else i
            let (gest, r3) := randRangeQ GESTATION_LO GESTATION_HI r2
            let (cd, r4) := randRangeQ MATE_FATHER_COOLDOWN_LO MATE_FATHER_COOLDOWN_HI r3
            let female2 := { female with
              repro := { female.repro with
                state := RState.GRAVID
                fatherId := some male.id
                pregnancyStartSec := some nowSec
                dueAtSec := some (nowSec + gest)
                layingStartedAtSec := none
                layTargetX := none
                layTargetY := none }
              matingAnim := some { startSec := nowSec, durationSec := 1.1,
                                   partnerId := male.id, bubbleBurstDone := false } }
            let male2 := { male with
              repro := { male.repro with cooldownUntilSec := nowSec + cd }
              matingAnim := some { startSec := nowSec, durationSec := 1.1,
                                   partnerId := female.id, bubbleBurstDone := false } }
            let fish2 := (w1.fish.set fi female2).set mi male2
            ({ w1 with fish := fish2 }, r4)
  | _, _ => (w, r)

/-- Inner loop of the pair scan in updateReproduction. -/
def mateInnerGo (nowSec : ℚ) (i : ℕ) : ℕ → ℕ → World → RS → World × RS
  | 0, _, w, r => (w, r)
  | Nat.succ fuel, j, w, r =>
      match w.fish.get? i, w.fish.get? j with
      | some a, some b =>
          let (w2, r2) :=
            if b.lifeState = LState.ALIVE ∧
                sqDistLe (a.x - b.x) (a.y - b.y) MATE_ENCOUNTER_RADIUS_PX
            then w.tryMatePair i j nowSec r else (w, r)
          mateInnerGo nowSec i fuel (j + 1) w2 r2
      | _, _ => (w, r)

/-- Outer loop of the pair scan in updateReproduction. -/
def mateOuterGo (nowSec : ℚ) : ℕ → ℕ → World → RS → World × RS
  | 0, _, w, r => (w, r)
  | Nat.succ fuel, i, w, r =>
      match w.fish.get? i with
      | none => (w, r)
      | some a =>
          let (w2, r2) :=
            if a.lifeState = LState.ALIVE
            then mateInnerGo nowSec i (w.fish.length - (i + 1)) (i + 1) w r
            else (w, r)
          mateOuterGo nowSec fuel (i + 1) w2 r2

/-- The clutch-deposit loop of layEggClutch. -/
def clutchGo (femX femY : ℚ) (femId : ℕ) (fatherId : Option ℕ)
    (motherTraits fatherTraits : Traits) (nowSec : ℚ) :
    ℕ → World → RS → World × RS
  | 0, w, r => (w, r)
  | Nat.succ k, w, r =>
      let (dx, r1) := randQ (-6) 6 r
      let (dy, r2) := randQ (-4) 4 r1
      let x := clampQ (femX + dx) 0 w.bounds.width
      let y := clampQ (femY + dy) 0 w.swimHeight
      let (inc, r3) := randRangeQ EGG_INCUBATION_LO EGG_INCUBATION_HI r2
      let egg : Egg := { id := w.nextEggId
                         x := x
                         y := y
                         laidAtSec := nowSec
                         hatchAtSec := nowSec + inc
                         motherId := some femId
                         fatherId := fatherId
                         motherTraits := motherTraits
                         fatherTraits := fatherTraits
                         state := EggState.INCUBATING
                         canBeEaten := true
                         nutrition := 0.25 }
      clutchGo femX femY femId fatherId motherTraits fatherTraits nowSec k
        { w with eggs := w.eggs ++ [egg], nextEggId := w.nextEggId + 1 } r3

/-- layEggClutch from world.js, acting on the female at index i. -/
def World.layEggClutch (w : World) (i : ℕ) (nowSec : ℚ) (r : RS) : World × RS :=
  match w.fish.get? i with
  | none => (w, r)
  | some female =>
      let father := w.fish.find? (fun f => some f.id = female.repro.fatherId)
      let motherTraits := female.traits
      let fatherTraits := match father with
        | some f => f.traits
        | none => motherTraits
      let (clutchZ, r1) := randIntInclusiveQ CLUTCH_SIZE_LO CLUTCH_SIZE_HI r
      let clutchCount := (max 1 clutchZ).toNat
      let (w2, r2) := clutchGo female.x female.y female.id female.repro.fatherId
        motherTraits fatherTraits nowSec clutchCount w r1
      let (cdm, r3) := randRangeQ MOTHER_COOLDOWN_LO MOTHER_COOLDOWN_HI r2
      let female2 := { female with
        repro := { female.repro with
          state := RState.COOLDOWN
          cooldownUntilSec := nowSec + cdm
          dueAtSec := none
          fatherId := none
          layTargetX := none
          layTargetY := none
          pregnancyStartSec := none
          layingStartedAtSec := none } }
      ({ w2 with fish := w2.fish.set i female2 }, r3)

/-- JS nowSec >= (dueAtSec ?? Infinity): reached only when a due time is
set and has passed. -/
def dueReached (o : Option ℚ) (nowSec : ℚ) : Bool :=
  match o with
  | some due => due ≤ nowSec
  | none => false

/-- The GRAVID-past-due transition of updateReproduction: turn to LAYING
and pick a lay target near the tank floor. -/
def reproGravidStep (nowSec layTargetY : ℚ) (i : ℕ) (w : World) (r : RS) :
    World × RS :=
  match w.fish.get? i with
  | none => (w, r)
  | some fish =>
      if fish.repro.state = RState.GRAVID ∧
          dueReached fish.repro.dueAtSec nowSec = true then
        let (dx, ra) := randQ (-20) 20 r
        let fish2 := { fish with repro := { fish.repro with
          state := RState.LAYING
          layTargetX := some (clampQ (fish.x + dx) 0 w.bounds.width)
          layTargetY := some layTargetY
          layingStartedAtSec := some nowSec } }
        ({ w with fish := w.fish.set i fish2 }, ra)
      else (w, r)

/-- The LAYING arrival check of updateReproduction: deposit the clutch
once within reach of the lay target. -/
def reproLayingStep (nowSec layTargetY : ℚ) (i : ℕ) (w : World) (r : RS) :
    World × RS :=
  match w.fish.get? i with
  | none => (w, r)
  | some f1 =>
      if f1.repro.state = RState.LAYING then
        let tx := f1.repro.layTargetX.getD f1.x
        let ty := f1.repro.layTargetY.getD layTargetY
        if sqDistLe (f1.x - tx) (f1.y - ty) 10
        then w.layEggClutch i nowSec r
        else (w, r)
      else (w, r)

/-- The COOLDOWN expiry transition of updateReproduction. -/
def reproCooldownStep (nowSec : ℚ) (i : ℕ) (w : World) : World :=
  match w.fish.get? i with
  | none => w
  | some f2 =>
      if f2.repro.state = RState.COOLDOWN ∧
          f2.repro.cooldownUntilSec ≤ nowSec then
        let f3 := { f2 with repro := { f2.repro with state := RState.READY } }
        { w with fish := w.fish.set i f3 }
      else w

/-- Gestation/laying/cooldown progression loop of updateReproduction,
visiting the fish in order and only ever mutating alive females. -/
def reproStageGo (nowSec layTargetY : ℚ) : ℕ → ℕ → World → RS → World × RS
  | 0, _, w, r => (w, r)
  | Nat.succ fuel, i, w, r =>
      match w.fish.get? i with
      | none => (w, r)
      | some fish =>
          if ¬ (fish.lifeState = LState.ALIVE ∧ fish.sex = Sex.female) then
            reproStageGo nowSec layTargetY fuel (i + 1) w r
          else
            let (w1, r1) := reproGravidStep nowSec layTargetY i w r
            let (w2, r2) := reproLayingStep nowSec layTargetY i w1 r1
            reproStageGo nowSec layTargetY fuel (i + 1)
              (reproCooldownStep nowSec i w2) r2

/-- updateReproduction from world.js (REPRO_ENABLED is true in
config.js, so only the delta guard remains). -/
def World.updateReproduction (w : World) (dt : ℚ) (r : RS) : World × RS :=
  if ¬ 0 < dt then (w, r)
  else
    let nowSec := w.simTimeSec
    let p := mateOuterGo nowSec w.fish.length 0 w r
    let layTargetY := max 0 (p.1.swimHeight - 14)
    reproStageGo nowSec layTargetY p.1.fish.length 0 p.1 p.2

/-! Social play subsystem from world.js. -/

/-- Mutate the first fish carrying the id (the object
Array.prototype.find would return). -/
def applyFishAtId (w : World) (fid : ℕ) (h : Fish → Fish) : World :=
  { w with fish := modifyFirst (fun f => f.id = fid) h w.fish }

/-- Squared distance between two fish positions. -/
def sqd (a b : Fish) : ℚ := (a.x - b.x) ^ 2 + (a.y - b.y) ^ 2

/-- The closest-chaser reduce of updatePlaySessions. -/
def closestChaserTo (runner : Fish) (chasers : List Fish) : Option Fish :=
  chasers.foldl (fun best current =>
    match best with
    | none => some current
    | some b => if sqd runner current < sqd runner b then some current else some b)
    none

/-- One session of the updatePlaySessions filter: re-validate runner and
chasers, reassign roles and targets, recompute the origin, or tear the
session down. -/
def playSessionStep (w : World) (s : PlaySession) : Bool × PlaySession × World :=
  let t := w.simTimeSec
  let chasers := (s.chaserFishIds.filterMap
    (fun cid => w.fish.find? (fun f => f.id = cid))).filter (fun f => f.isPlaying t)
  match w.fish.find? (fun f => f.id = s.runnerFishId) with
  | some runner =>
      if runner.isPlaying t = false ∨ chasers.length < 1 ∨ s.untilSec ≤ t then
        let w1 := if runner.isPlaying t
          then applyFishAtId w s.runnerFishId Fish.stopPlay else w
        let w2 := chasers.foldl (fun acc c => applyFishAtId acc c.id Fish.stopPlay) w1
        (false, s, w2)
      else
        let chaserIds2 := chasers.map (fun f => f.id)
        let w1 := applyFishAtId w s.runnerFishId (fun f => f.setPlayRole PlayRole.RUNNER)
        let closest := closestChaserTo runner chasers
        let w2 := applyFishAtId w1 s.runnerFishId
          (fun f => f.setPlayTargetFish (closest.map (fun c => c.id)))
        let w3 := chasers.foldl (fun acc c =>
          applyFishAtId (applyFishAtId acc c.id (fun f => f.setPlayRole PlayRole.CHASER))
            c.id (fun f => f.setPlayTargetFish (some runner.id))) w2
        let headX := match chasers.head? with
          | some c => c.x
          | none => runner.x
        let headY := match chasers.head? with
          | some c => c.y
          | none => runner.y
        let s2 := { s with
          chaserFishIds := chaserIds2
          originX := (runner.x + headX) * 0.5
          originY := (runner.y + headY) * 0.5 }
        (true, s2, w3)
  | none =>
      let w2 := chasers.foldl (fun acc c => applyFishAtId acc c.id Fish.stopPlay) w
      (false, s, w2)

/-- Sequential walk of the updatePlaySessions filter. -/
def updatePlaySessionsGo : List PlaySession → World → List PlaySession × World
  | [], w => ([], w)
  | s :: rest, w =>
      let (keep, s2, w2) := playSessionStep w s
      let (rest2, w3) := updatePlaySessionsGo rest w2
      if keep then (s2 :: rest2, w3) else (rest2, w3)

/-- updatePlaySessions from world.js. -/
def World.updatePlaySessions (w : World) : World :=
  let p := updatePlaySessionsGo w.playSessions w
  { p.2 with playSessions := p.1 }

/-- isNearGroundAlgae from world.js. -/
def World.isNearGroundAlgae (w : World) (px py : ℚ) : Bool :=
  w.groundAlgae.any (fun al => sqDistLe (px - al.x) (py - al.y) al.radius)

/-- Candidate loop of tryExpandPlaySessions. -/
def expandCandGo (t : ℚ) (sid runnerId : ℕ) (untilSec anchorX anchorY : ℚ) :
    ℕ → ℕ → World → RS → List ℕ → World × RS × List ℕ
  | 0, _, w, r, acc => (w, r, acc)
  | Nat.succ fuel, i, w, r, acc =>
      match w.fish.get? i with
      | none => (w, r, acc)
      | some cand =>
          if cand.canStartPlay t = false then
            expandCandGo t sid runnerId untilSec anchorX anchorY fuel (i + 1) w r acc
          else if ¬ sqDistLe (cand.x - anchorX) (cand.y - anchorY) 82 then
            expandCandGo t sid runnerId untilSec anchorX anchorY fuel (i + 1) w r acc
          else
            let (u, r1) := r.next
            if 0.45 < u then
              expandCandGo t sid runnerId untilSec anchorX anchorY fuel (i + 1) w r1 acc
            else
              let fish2 := w.fish.set i (cand.startPlay sid PlayRole.CHASER untilSec runnerId)
              expandCandGo t sid runnerId untilSec anchorX anchorY fuel (i + 1)
                { w with fish := fish2 } r1 (acc ++ [cand.id])

/-- One session of tryExpandPlaySessions: recruit nearby eligible fish
around a playing runner as extra chasers. -/
def expandSessionStep (t : ℚ) (si : ℕ) (w : World) (r : RS) : World × RS :=
  match w.playSessions.get? si with
  | none => (w, r)
  | some s =>
      match w.fish.find? (fun f => f.id = s.runnerFishId) with
      | some runner =>
          if runner.isPlaying t then
            let (w2, r2, newIds) := expandCandGo t s.id s.runnerFishId s.untilSec
              runner.x runner.y w.fish.length 0 w r []
            let s2 := { s with chaserFishIds := s.chaserFishIds ++ newIds }
            ({ w2 with playSessions := w2.playSessions.set si s2 }, r2)
          else (w, r)
      | none => (w, r)

/-- Session loop of tryExpandPlaySessions. -/
def expandSessGo (t : ℚ) : ℕ → ℕ → World → RS → World × RS
  | 0, _, w, r => (w, r)
  | Nat.succ fuel, si, w, r =>
      let (w2, r2) := expandSessionStep t si w r
      expandSessGo t fuel (si + 1) w2 r2

/-- tryExpandPlaySessions from world.js. -/
def World.tryExpandPlaySessions (w : World) (r : RS) : World × RS :=
  expandSessGo w.simTimeSec w.playSessions.length 0 w r

/-- Extra-chaser recruitment loop of tryStartPlaySessions (bounded at a
group of five chasers). -/
def startCandGo (t : ℚ) (sid runnerId initialChaserId : ℕ)
    (untilSec midX midY : ℚ) :
    ℕ → ℕ → World → RS → List ℕ → World × RS × List ℕ
  | 0, _, w, r, acc => (w, r, acc)
  | Nat.succ fuel, i, w, r, acc =>
      if 5 ≤ acc.length then (w, r, acc)
      else
        match w.fish.get? i with
        | none => (w, r, acc)
        | some cand =>
            if cand.id = runnerId ∨ cand.id = initialChaserId then
              startCandGo t sid runnerId initialChaserId untilSec midX midY fuel (i + 1) w r acc
            else if cand.canStartPlay t = false then
              startCandGo t sid runnerId initialChaserId untilSec midX midY fuel (i + 1) w r acc
            else if ¬ sqDistLe (cand.x - midX) (cand.y - midY) (64 * 1.25) then
              startCandGo t sid runnerId initialChaserId untilSec midX midY fuel (i + 1) w r acc
            else
              let (u, r1) := r.next
              if 0.55 ≤ u then
                startCandGo t sid runnerId initialChaserId untilSec midX midY fuel (i + 1) w r1 acc
              else
                let fish2 := w.fish.set i (cand.startPlay sid PlayRole.CHASER untilSec runnerId)
                startCandGo t sid runnerId initialChaserId untilSec midX midY fuel (i + 1)
                  { w with fish := fish2 } r1 (acc ++ [cand.id])

/-- Session creation of tryStartPlaySessions for the pair at indices i
and j: draw the duration, pick the runner, start both fish, recruit
extra chasers and push the session record. -/
def startSessionFor (t : ℚ) (i j : ℕ) (w : World) (r : RS) : World × RS :=
  match w.fish.get? i, w.fish.get? j with
  | some a, some b =>
      let midX := (a.x + b.x) * 0.5
      let midY := (a.y + b.y) * 0.5
      let nearAlgae := w.isNearGroundAlgae midX midY
      let (duration, r2) := randQ 4 7 r
      let sid := w.nextPlaySessionId
      let wA : World := { w with nextPlaySessionId := w.nextPlaySessionId + 1 }
      let untilSec := t + duration
      let (uR, r3) := r2.next
      let runnerIdx := if uR < 0.5 then i else j
      let chaserIdx := if uR < 0.5 then j else i
      let runnerF := if uR < 0.5 then a else b
      let chaserF := if uR < 0.5 then b else a
      let fishB := wA.fish.set runnerIdx (runnerF.startPlay sid PlayRole.RUNNER untilSec chaserF.id)
      let wB : World := { wA with fish := fishB }
      let fishC := wB.fish.set chaserIdx (chaserF.startPlay sid PlayRole.CHASER untilSec runnerF.id)
      let wC : World := { wB with fish := fishC }
      let (wD, r4, chaserIds) := startCandGo t sid runnerF.id chaserF.id untilSec
        midX midY wC.fish.length 0 wC r3 [chaserF.id]
      let s : PlaySession := { id := sid
                               runnerFishId := runnerF.id
                               chaserFishIds := chaserIds
                               untilSec := untilSec
                               startedNearAlgae := nearAlgae
                               originX := midX
                               originY := midY }
      ({ wD with playSessions := wD.playSessions ++ [s] }, r4)
  | _, _ => (w, r)

/-- The delay handed to both fish of a pair that failed its join roll. -/
def delayPairAt (t : ℚ) (i j : ℕ) (w : World) : World :=
  match w.fish.get? i, w.fish.get? j with
  | some a, some b =>
      let w2 := { w with fish := w.fish.set i (a.delayPlayEligibility t) }
      { w2 with fish := w2.fish.set j (b.delayPlayEligibility t) }
  | _, _ => w

/-- Inner pair loop of tryStartPlaySessions; the Bool reports whether a
session was created (the source returns from the whole method then). -/
def startInnerGo (t : ℚ) (i : ℕ) : ℕ → ℕ → World → RS → World × RS × Bool
  | 0, _, w, r => (w, r, false)
  | Nat.succ fuel, j, w, r =>
      match w.fish.get? i, w.fish.get? j with
      | some a, some b =>
          if b.canStartPlay t = false then startInnerGo t i fuel (j + 1) w r
          else if ¬ sqDistLe (a.x - b.x) (a.y - b.y) 64 then
            startInnerGo t i fuel (j + 1) w r
          else
            let midX := (a.x + b.x) * 0.5
            let midY := (a.y + b.y) * 0.5
            let nearAlgae := w.isNearGroundAlgae midX midY
            let probability := (a.playProbability nearAlgae + b.playProbability nearAlgae) * 0.5
            let (u, r1) := r.next
            if probability < u then
              startInnerGo t i fuel (j + 1) (delayPairAt (t + 10) i j w) r1
            else
              let (w2, r2) := startSessionFor t i j w r1
              (w2, r2, true)
      | _, _ => (w, r, false)

/-- Outer loop of tryStartPlaySessions. -/
def startOuterGo (t : ℚ) : ℕ → ℕ → World → RS → World × RS
  | 0, _, w, r => (w, r)
  | Nat.succ fuel, i, w, r =>
      match w.fish.get? i with
      | none => (w, r)
      | some a =>
          if a.canStartPlay t then
            let (w2, r2, made) := startInnerGo t i (w.fish.length - (i + 1)) (i + 1) w r
            if made then (w2, r2) else startOuterGo t fuel (i + 1) w2 r2
          else startOuterGo t fuel (i + 1) w r

/-- tryStartPlaySessions from world.js. -/
def World.tryStartPlaySessions (w : World) (r : RS) : World × RS :=
  if w.fish.length < 2 then (w, r)
  else startOuterGo w.simTimeSec w.fish.length 0 w r

/-! The update pipeline of world.js.  The per-fish phases (methods of the
missing fish.js) are supplied by Ext; following the concurrency contract
of the design (no entity observes the mid-tick partial state of another
entity from the same phase), each per-fish loop is a map over the fish
list with the phase-entry World.  tryConsumeFood is the one phase whose world effects
(consumeFood calls) are visible to later fish in the same loop, so it is
folded sequentially. -/

/-- Apply the consumeFood calls a fish made during tryConsumeFood. -/
def consumeReqsApply (w : World) (reqs : List (ℕ × ℚ)) : World :=
  reqs.foldl (fun acc p => (acc.consumeFood p.1 p.2).2) w

/-- Sequential tryConsumeFood loop. -/
def consumeGo (ext : Ext) : List Fish → World → List Fish × World
  | [], w => ([], w)
  | f :: rest, w =>
      let (f2, reqs) := ext.tryConsumeFood w f
      let w2 := consumeReqsApply w reqs
      let (rest2, w3) := consumeGo ext rest w2
      (f2 :: rest2, w3)

/-- The per-fish tryConsumeFood phase of update. -/
def World.consumePhase (w : World) (ext : Ext) : World :=
  let p := consumeGo ext w.fish w
  { p.2 with fish := p.1 }

/-- update from world.js: a paused World returns unchanged; otherwise the
raw delta is scaled by the speed multiplier, the simulated clock
advances, and the subsystems run in the fixed source order. -/
def fishPhase (g : Fish → Fish) (w : World) : World :=
  { w with fish := w.fish.map g }

def World.update (w : World) (ext : Ext) (rawDelta : ℚ) (r : RS) : World × RS :=
  if w.paused then (w, r)
  else
    let delta := rawDelta * w.speedMultiplier
    let w1 : World := { w with simTimeSec := w.simTimeSec + delta }
    let w2 := fishPhase (ext.updateLifeCycle w1.simTimeSec) w1
    let w3 := fishPhase (ext.updatePlayState w2.simTimeSec) w2
    let w4 := w3.updatePlaySessions
    let p5 := w4.tryExpandPlaySessions r
    let p6 := p5.1.tryStartPlaySessions p5.2
    let p7 := p6.1.updateReproduction delta p6.2
    let w8 := fishPhase (ext.updateMetabolism delta p7.1) p7.1
    let w9 := fishPhase (fun f => ext.decideBehavior w8 delta f) w8
    let w10 := fishPhase (ext.applySteering delta) w9
    let w11 := w10.consumePhase ext
    let w12 := w11.updateFishLifeState
    let w13 := w12.updateFood delta
    let p14 := w13.updateEggs ext delta p7.2
    let w15 := p14.1.updateWaterHygiene delta
    let w16 := w15.updateFxParticles delta
    w16.updateBubbles ext delta p14.2

/-! The World constructor from world.js. -/

/-- Stage base boundaries from config.js (fish.age.stageBaseSec). -/
def AGE_STAGE_BABY_END_SEC : ℚ := 600

/-- Juvenile stage end from config.js. -/
def AGE_STAGE_JUVENILE_END_SEC : ℚ := 1500

/-- createInitialWaterState from world.js. -/
def initialWaterState (filterUnlocked : Bool) : Water :=
  { hygiene01 := WATER_INITIAL_HYGIENE01
    dirt01 := WATER_INITIAL_DIRT01
    filterInstalled := false
    filter01 := 0
    installProgress01 := 0
    maintenanceProgress01 := 0
    maintenanceCooldownSec := 0
    filterUnlocked := filterUnlocked
    filterEnabled := true
    effectiveFilter01 := 0 }

/-- Counted generator (Array.from with a length). -/
def seedGo (gen : RS → α × RS) : ℕ → RS → List α × RS
  | 0, r => ([], r)
  | Nat.succ n, r =>
      let (a, r1) := gen r
      let (rest, r2) := seedGo gen n r1
      (a :: rest, r2)

/-- makeBubble from world.js. -/
def makeBubble (piQ width height : ℚ) (r : RS) : Bubble × RS :=
  let (x, r1) := randQ 0 width r
  let (dy, r2) := randQ 0 (height * 0.3) r1
  let (radius, r3) := randQ 1.4 3.4 r2
  let (speed, r4) := randQ 12 35 r3
  let (swayPhase, r5) := randQ 0 (piQ * 2) r4
  let (swayAmplitude, r6) := randQ 2 10 r5
  ({ x := x, y := height + dy, radius := radius, speed := speed,
     swayPhase := swayPhase, swayAmplitude := swayAmplitude }, r6)

/-- One ground-algae tuft of seedGroundAlgae. -/
def makeAlgae (piQ width height : ℚ) (r : RS) : Algae × RS :=
  let (x, r1) := randQ 12 (max 12 (width - 12)) r
  let (dy, r2) := randQ 1 10 r1
  let (h, r3) := randQ (height * 0.07) (height * 0.16) r2
  let (wd, r4) := randQ 4 10 r3
  let (swayAmp, r5) := randQ 1.2 4.2 r4
  let (swayRate, r6) := randQ 0.0012 0.0026 r5
  let (phase, r7) := randQ 0 (piQ * 2) r6
  let (radius, r8) := randQ 28 55 r7
  ({ x := x, y := height - dy, height := h, width := wd, swayAmp := swayAmp,
     swayRate := swayRate, phase := phase, radius := radius }, r8)

/-- seedGroundAlgae from world.js. -/
def World.seedGroundAlgae (w : World) (ext : Ext) (r : RS) : World × RS :=
  let count := max 10 (⌊w.bounds.width / 76⌋).toNat
  let (algae, r2) := seedGo (makeAlgae ext.piQ w.bounds.width w.bounds.height) count r
  ({ w with groundAlgae := algae }, r2)

/-- resize from world.js: update bounds, clamp food and bubbles, reseed
the ground algae. -/
def World.resize (w : World) (ext : Ext) (width height : ℚ) (r : RS) :
    World × RS :=
  let b2 : Bounds := { width := width, height := height,
                       sandHeight := max 0 (min 0 height) }
  let w1 : World := { w with bounds := b2 }
  let food2 := w1.food.map (fun f =>
    { f with
      x := min (max 0 f.x) width
      y := min (max 0 f.y) (max 0 w1.swimHeight) })
  let bubbles2 := w1.bubbles.map (fun b =>
    { b with
      x := min (max 0 b.x) width
      y := min (max 0 b.y) (height + 40) })
  (World.seedGroundAlgae { w1 with food := food2, bubbles := bubbles2 } ext r)

/-- Initial population pool loop: each fish draws its initial age in
[0, INITIAL_MAX_AGE_SEC] and starts hungry. -/
def genPoolGo (ext : Ext) (sex : Sex) :
    ℕ → World → List Fish → RS → World × List Fish × RS
  | 0, w, pool, r => (w, pool, r)
  | Nat.succ n, w, pool, r =>
      let (age, r1) := randQ 0 INITIAL_MAX_AGE_SEC r
      let (f, w2, r2) := w.createFish ext (some sex) age true none none r1
      genPoolGo ext sex n w2 (pool ++ [f]) r2

/-- Swap two list positions. -/
def listSwap (l : List α) (i j : ℕ) : List α :=
  match l.get? i, l.get? j with
  | some a, some b => (l.set i b).set j a
  | _, _ => l

/-- Fisher-Yates walk of shuffleArray (index counting down to 1). -/
def shuffleGo : ℕ → List Fish → RS → List Fish × RS
  | 0, items, r => (items, r)
  | Nat.succ i, items, r =>
      let (u, r1) := r.next
      let swapIndex := (⌊u * ((i : ℚ) + 2)⌋).toNat
      let items2 := listSwap items (i + 1) swapIndex
      shuffleGo i items2 r1

/-- shuffleArray from world.js. -/
def shuffleArrayQ (items : List Fish) (r : RS) : List Fish × RS :=
  match items.length with
  | 0 => (items, r)
  | Nat.succ m => shuffleGo m items r

/-- The adult-female promotion pass of generateInitialPopulation. -/
def promoteFemale (ext : Ext) (simT : ℚ) (pool2 : List Fish) (r2 : RS) :
    List Fish × RS :=
  match pool2.find? (fun f => f.sex = Sex.female) with
  | none => (pool2, r2)
  | some pf =>
      let babyEnd := max 30 (AGE_STAGE_BABY_END_SEC + pf.stageShiftBabySec)
      let juvenileEnd := max (babyEnd + 60)
        (AGE_STAGE_JUVENILE_END_SEC + pf.stageShiftJuvenileSec)
      let adultStartAgeSec := juvenileEnd / max 0.001 pf.growthRate
      let (promoted, ra) :=
        if adultStartAgeSec < INITIAL_MAX_AGE_SEC
        then randQ adultStartAgeSec INITIAL_MAX_AGE_SEC r2
        else randQ 0 INITIAL_MAX_AGE_SEC r2
      let pf2 := ext.updateLifeCycle simT
        { pf with spawnTimeSec := simT - promoted }
      (modifyFirst (fun f => f.sex = Sex.female) (fun _ => pf2) pool2, ra)

/-- generateInitialPopulation from world.js: balanced sexes (female
majority by one when odd), random initial ages, hungry start, and a
promotion pass guaranteeing an adult female when none was rolled. -/
def World.generateInitialPopulation (w : World) (ext : Ext) (total : ℕ)
    (r : RS) : World × RS :=
  let clampedCount := max 1 (min 6 total)
  let femaleCount := (clampedCount + 1) / 2
  let maleCount := clampedCount / 2
  let (w1, pool1, r1) := genPoolGo ext Sex.female femaleCount w [] r
  let (w2, pool2, r2) := genPoolGo ext Sex.male maleCount w1 pool1 r1
  let hasAdultFemale := pool2.any (fun f => f.sex = Sex.female ∧
    (f.lifeStage = LifeStage.ADULT ∨ f.lifeStage = LifeStage.OLD))
  let (pool3, r3) :=
    if hasAdultFemale then (pool2, r2)
    else promoteFemale ext w2.simTimeSec pool2 r2
  let (pool4, r4) := shuffleArrayQ pool3 r3
  let w3 : World := { w2 with fish := pool4 }
  let w4 : World :=
    if w3.fish.any (fun f => some f.id = w3.selectedFishId) then w3
    else { w3 with selectedFishId := w3.fish.head?.map (fun f => f.id) }
  (w4, r4)

/-- The World constructor: empty containers, id counters at 1, unpaused
at speed 1, fresh water, then the initial population, bubbles and ground
algae. -/
def World.create (ext : Ext) (width height : ℚ) (initialFishCount : ℕ)
    (r : RS) : World × RS :=
  let normalized := max 1 (min 6 initialFishCount)
  let w0 : World :=
    { bounds := { width := width, height := height,
                  sandHeight := max 0 (min 0 height) }
      fish := []
      food := []
      eggs := []
      bubbles := []
      fxParticles := []
      nextFoodId := 1
      nextFishId := 1
      nextPlaySessionId := 1
      nextEggId := 1
      simTimeSec := 0
      selectedFishId := none
      initialFishCount := normalized
      foodsConsumedCount := 0
      filterUnlockThreshold := normalized * 4
      filterUnlocked := false
      events := []
      playSessions := []
      matePairNextTryAt := []
      groundAlgae := []
      water := initialWaterState false
      expiredFoodSinceLastWaterUpdate := 0
      paused := false
      speedMultiplier := 1 }
  let (w1, r1) := w0.generateInitialPopulation ext normalized r
  let (bubbles, r2) := seedGo (makeBubble ext.piQ width height) 36 r1
  let w2 : World := { w1 with bubbles := bubbles }
  World.seedGroundAlgae w2 ext r2

/-- The grow loop of setFishCount. -/
def addFishGo (ext : Ext) : ℕ → World → RS → World × RS
  | 0, w, r => (w, r)
  | Nat.succ n, w, r =>
      let (f, w2, r2) := w.createFish ext none 0 false none none r
      addFishGo ext n { w2 with fish := w2.fish ++ [f] } r2

/-- setFishCount from world.js: clamp into [1, 50], grow with createFish
or shrink by popping, then repair the selection. -/
def World.setFishCount (w : World) (ext : Ext) (count : ℕ) (r : RS) :
    World × RS :=
  let clamped := max 1 (min 50 count)
  let (w2, r2) :=
    if w.fish.length < clamped then addFishGo ext (clamped - w.fish.length) w r
    else ({ w with fish := w.fish.take clamped }, r)
  if w2.fish.any (fun f => some f.id = w2.selectedFishId) then (w2, r2)
  else ({ w2 with selectedFishId := w2.fish.head?.map (fun f => f.id) }, r2)

/-! Persistence contract.  The world.js revision holding toJSON and
fromJSON is not among the sources (only its callers in main.js and the
test suite are), so the snapshot shape and the load behavior are
modelled from the spec, section Persistence Contract: the snapshot
carries all id counters, the simulated clock, every fish with its
reproduction and play sub-records, every food item, every egg with its
trait snapshots, and the complete water/filter state; loading gets the
viewport from the context, clamps out-of-bounds positions into it, and
rebuilds the derived, non-persisted containers (bubbles, fx, events,
pair-retry map, ground algae) fresh. -/

/-- Modelled from the spec: the worldState payload written by toJSON. -/
structure Snapshot where
  nextFoodId : ℕ
  nextFishId : ℕ
  nextPlaySessionId : ℕ
  nextEggId : ℕ
  simTimeSec : ℚ
  speedMultiplier : ℚ
  paused : Bool
  fish : List Fish
  food : List Food
  eggs : List Egg
  water : Water
  playSessions : List PlaySession
  foodsConsumedCount : ℕ
  filterUnlockThreshold : ℕ
  filterUnlocked : Bool
  initialFishCount : ℕ
  selectedFishId : Option ℕ
deriving DecidableEq

/-- Modelled from the spec: the context handed to fromJSON (current
viewport size and the initial-fish-count fallback, the latter used only
when the snapshot is absent or corrupt, which the typed model rules
out). -/
structure LoadCtx where
  width : ℚ
  height : ℚ
  initialFishCount : ℕ
deriving DecidableEq

/-- Modelled from the spec: toJSON produces the complete snapshot. -/
def World.toJSON (w : World) : Snapshot :=
  { nextFoodId := w.nextFoodId
    nextFishId := w.nextFishId
    nextPlaySessionId := w.nextPlaySessionId
    nextEggId := w.nextEggId
    simTimeSec := w.simTimeSec
    speedMultiplier := w.speedMultiplier
    paused := w.paused
    fish := w.fish
    food := w.food
    eggs := w.eggs
    water := w.water
    playSessions := w.playSessions
    foodsConsumedCount := w.foodsConsumedCount
    filterUnlockThreshold := w.filterUnlockThreshold
    filterUnlocked := w.filterUnlocked
    initialFishCount := w.initialFishCount
    selectedFishId := w.selectedFishId }

/-- Modelled from the spec: fromJSON restores every persisted field and
clamps each stored position into the current viewport. -/
def World.fromJSON (s : Snapshot) (ctx : LoadCtx) : World :=
  let swimH := max 40 ctx.height
  { bounds := { width := ctx.width, height := ctx.height,
                sandHeight := max 0 (min 0 ctx.height) }
    fish := s.fish.map (fun f =>
      { f with x := clampQ f.x 0 ctx.width, y := clampQ f.y 0 swimH })
    food := s.food.map (fun f =>
      { f with x := clampQ f.x 0 ctx.width, y := clampQ f.y 0 swimH })
    eggs := s.eggs.map (fun e =>
      { e with x := clampQ e.x 0 ctx.width, y := clampQ e.y 0 swimH })
    bubbles := []
    fxParticles := []
    nextFoodId := s.nextFoodId
    nextFishId := s.nextFishId
    nextPlaySessionId := s.nextPlaySessionId
    nextEggId := s.nextEggId
    simTimeSec := s.simTimeSec
    selectedFishId := s.selectedFishId
    initialFishCount := s.initialFishCount
    foodsConsumedCount := s.foodsConsumedCount
    filterUnlockThreshold := s.filterUnlockThreshold
    filterUnlocked := s.filterUnlocked
    events := []
    playSessions := s.playSessions
    matePairNextTryAt := []
    groundAlgae := []
    water := s.water
    expiredFoodSinceLastWaterUpdate := 0
    paused := s.paused
    speedMultiplier := s.speedMultiplier }

/-! The motion/life delta split.  The world.js revision implementing it
(the one the timing tests exercise through realTimeSec and debugTiming)
is not among the sources, so it is modelled from the spec: one raw tick
yields a motion delta raw * speed for steering-visible phases and a
life delta raw * speed * baseLifeScale for lifecycle, metabolism,
reproduction, food, egg and water progress; the real-time counter used
for autosave pacing advances by the raw delta. -/

/-- Modelled from the spec: the base life scale (the timing test fixes
lifeDt = rawDelta * speed * baseLifeScale with value one half). -/
def BASE_LIFE_SCALE : ℚ := 0.5

/-- Modelled from the spec: the motion delta of a tick. -/
def specMotionDt (raw speed : ℚ) : ℚ := raw * speed

/-- Modelled from the spec: the life delta of a tick. -/
def specLifeDt (raw speed : ℚ) : ℚ := raw * speed * BASE_LIFE_SCALE

/-- Modelled from the spec: a World together with the real/wall clock
counter and the debugTiming record of the split-delta revision. -/
structure TimedWorld where
  base : World
  realTimeSec : ℚ
  motionDt : ℚ
  lifeDt : ℚ
deriving DecidableEq

/-- Modelled from the spec: update of the split-delta revision — a no-op
while paused; otherwise the real clock advances by the raw delta, the
simulated clock by the life delta, and the pipeline runs in the source
order with the life delta driving reproduction, metabolism, food, egg
and water progress and the motion delta driving behavior, steering and
the decorative ticks. -/
def TimedWorld.update (tw : TimedWorld) (ext : Ext) (raw : ℚ) (r : RS) :
    TimedWorld × RS :=
  if tw.base.paused then (tw, r)
  else
    let w := tw.base
    let motionDt := specMotionDt raw w.speedMultiplier
    let lifeDt := specLifeDt raw w.speedMultiplier
    let w1 : World := { w with simTimeSec := w.simTimeSec + lifeDt }
    let w2 := fishPhase (ext.updateLifeCycle w1.simTimeSec) w1
    let w3 := fishPhase (ext.updatePlayState w2.simTimeSec) w2
    let w4 := w3.updatePlaySessions
    let p5 := w4.tryExpandPlaySessions r
    let p6 := p5.1.tryStartPlaySessions p5.2
    let p7 := p6.1.updateReproduction lifeDt p6.2
    let w8 := fishPhase (ext.updateMetabolism lifeDt p7.1) p7.1
    let w9 := fishPhase (fun f => ext.decideBehavior w8 motionDt f) w8
    let w10 := fishPhase (ext.applySteering motionDt) w9
    let w11 := w10.consumePhase ext
    let w12 := w11.updateFishLifeState
    let w13 := w12.updateFood lifeDt
    let p14 := w13.updateEggs ext lifeDt p7.2
    let w15 := p14.1.updateWaterHygiene lifeDt
    let w16 := w15.updateFxParticles motionDt
    let p17 := w16.updateBubbles ext motionDt p14.2
    ({ base := p17.1
       realTimeSec := tw.realTimeSec + raw
       motionDt := motionDt
       lifeDt := lifeDt }, p17.2)

/-! Concrete fixtures used by witnesses and counterexamples. -/

/-- Identity-phase Ext instance for concrete runs: every fish-level
phase leaves the fish unchanged and eats nothing; the transcendental
helpers are the zero function. -/
def ext0 : Ext :=
  { piQ := 0
    sinQ := fun _ => 0
    updateLifeCycle := fun _ f => f
    updatePlayState := fun _ f => f
    updateMetabolism := fun _ _ f => f
    decideBehavior := fun _ _ f => f
    applySteering := fun _ f => f
    tryConsumeFood := fun _ f => (f, []) }

/-- The constant-zero random stream. -/
def rs0 : RS := { g := fun _ => 0, i := 0 }

/-- A concrete adult, fed, alive fish used in fixtures. -/
def mkFish (n : ℕ) : Fish :=
  { id := n
    name := ""
    sex := Sex.female
    x := 100
    y := 100
    headingAngle := 0
    speedFactor := 0.5
    size := 10
    sizeFactor := 1
    growthRate := 1
    lifespanSec := 5400
    stageShiftBabySec := 0
    stageShiftJuvenileSec := 0
    spawnTimeSec := 0
    energy01 := 1
    hunger01 := 0
    wellbeing01 := 1
    hungerState := HState.FED
    lifeStage := LifeStage.ADULT
    lifeState := LState.ALIVE
    deadAtSec := none
    corpseDirtApplied01 := 0
    corpseRemoved := false
    repro := { state := RState.READY
               fatherId := none
               pregnancyStartSec := none
               dueAtSec := none
               layingStartedAtSec := none
               layTargetX := none
               layTargetY := none
               cooldownUntilSec := 0 }
    play := { sessionId := none
              role := none
              targetFishId := none
              untilSec := 0
              eligibleAtSec := 0 }
    matingAnim := none
    traits := { colorHue := 20
                sizeFactor := 1
                growthRate := 1
                speedFactor := 1
                lifespanSec := 5400 } }

/-- A concrete bare World around a given fish list. -/
def mkWorld (fs : List Fish) : World :=
  { bounds := { width := 800, height := 500, sandHeight := 0 }
    fish := fs
    food := []
    eggs := []
    bubbles := []
    fxParticles := []
    nextFoodId := 1
    nextFishId := 100
    nextPlaySessionId := 1
    nextEggId := 1
    simTimeSec := 0
    selectedFishId := none
    initialFishCount := 4
    foodsConsumedCount := 0
    filterUnlockThreshold := 16
    filterUnlocked := false
    events := []
    playSessions := []
    matePairNextTryAt := []
    groundAlgae := []
    water := initialWaterState false
    expiredFoodSinceLastWaterUpdate := 0
    paused := false
    speedMultiplier := 1 }

/-! Frame lemmas: each subsystem only writes the World fields its source
method touches, so every other field is preserved.  These shapes drive
the clock, pause, speed, water and id-counter facts used by the claim
theorems. -/

theorem tryMatePair_frame (w : World) (i j : ℕ) (t : ℚ) (r : RS) :
    ∃ fs mp, (w.tryMatePair i j t r).1 =
      { w with fish := fs, matePairNextTryAt := mp } := by
  unfold World.tryMatePair
  cases hi : w.fish.get? i with
  | none => exact ⟨w.fish, w.matePairNextTryAt, rfl⟩
  | some a =>
    cases hj : w.fish.get? j with
    | none => exact ⟨w.fish, w.matePairNextTryAt, rfl⟩
    | some b =>
      dsimp only [RS.next, randRangeQ, randQ]
      split_ifs <;> exact ⟨_, _, rfl⟩

theorem mateInnerGo_frame (t : ℚ) (i fuel j : ℕ) (w : World) (r : RS) :
    ∃ fs mp, (mateInnerGo t i fuel j w r).1 =
      { w with fish := fs, matePairNextTryAt := mp } := by
  induction fuel, j, w, r using mateInnerGo.induct t i with
  | case1 j w r => exact ⟨_, _, rfl⟩
  | case2 fuel j w r a b hj hi w2 r2 hsplit ih =>
      obtain ⟨fs2, mp2, hih⟩ := ih
      have h2 : w2 = (if b.lifeState = LState.ALIVE ∧
          sqDistLe (a.x - b.x) (a.y - b.y) MATE_ENCOUNTER_RADIUS_PX then
          w.tryMatePair i j t r else (w, r)).1 := by rw [hsplit]
      have hshape : ∃ fs mp, w2 = { w with fish := fs, matePairNextTryAt := mp } := by
        rw [h2]; split_ifs
        · exact tryMatePair_frame w i j t r
        · exact ⟨_, _, rfl⟩
      obtain ⟨fs1, mp1, h1⟩ := hshape
      refine ⟨fs2, mp2, ?_⟩
      unfold mateInnerGo
      rw [hi, hj]
      dsimp only
      rw [hsplit]
      dsimp only
      rw [hih, h1]
  | case3 fuel j w r h =>
      unfold mateInnerGo
      rcases hi : w.fish.get? i with _ | a <;> rcases hj : w.fish.get? j with _ | b
      · exact ⟨_, _, rfl⟩
      · exact ⟨_, _, rfl⟩
      · exact ⟨_, _, rfl⟩
      · exact (h a b hi hj).elim

theorem mateOuterGo_frame (t : ℚ) (fuel i : ℕ) (w : World) (r : RS) :
    ∃ fs mp, (mateOuterGo t fuel i w r).1 =
      { w with fish := fs, matePairNextTryAt := mp } := by
  induction fuel, i, w, r using mateOuterGo.induct t with
  | case1 i w r => exact ⟨_, _, rfl⟩
  | case2 fuel i w r hi => unfold mateOuterGo; rw [hi]; exact ⟨_, _, rfl⟩
  | case3 fuel i w r a hi w2 r2 hsplit ih =>
      obtain ⟨fs2, mp2, hih⟩ := ih
      have hshape : ∃ fs mp, w2 = { w with fish := fs, matePairNextTryAt := mp } := by
        have h2 : w2 = (if a.lifeState = LState.ALIVE
            then mateInnerGo t i (w.fish.length - (i + 1)) (i + 1) w r
            else (w, r)).1 := by rw [hsplit]
        rw [h2]; split_ifs
        · exact mateInnerGo_frame t i _ _ w r
        · exact ⟨_, _, rfl⟩
      obtain ⟨fs1, mp1, h1⟩ := hshape
      refine ⟨fs2, mp2, ?_⟩
      unfold mateOuterGo
      rw [hi]
      dsimp only
      rw [hsplit]
      dsimp only
      rw [hih, h1]

theorem clutchGo_frame (fx fy : ℚ) (fid : ℕ) (fa : Option ℕ) (mt ft : Traits)
    (t : ℚ) (k : ℕ) (w : World) (r : RS) :
    ∃ eg n, (clutchGo fx fy fid fa mt ft t k w r).1 =
      { w with eggs := eg, nextEggId := n } := by
  induction k generalizing w r with
  | zero => exact ⟨_, _, rfl⟩
  | succ k ih =>
      unfold clutchGo
      dsimp only [RS.next, randRangeQ, randQ]
      obtain ⟨eg2, n2, hih⟩ := ih _ _
      exact ⟨eg2, n2, by rw [hih]⟩

theorem layEggClutch_frame (w : World) (i : ℕ) (t : ℚ) (r : RS) :
    ∃ fs eg n, (w.layEggClutch i t r).1 =
      { w with fish := fs, eggs := eg, nextEggId := n } := by
  unfold World.layEggClutch
  cases hi : w.fish.get? i with
  | none => exact ⟨_, _, _, rfl⟩
  | some female =>
      dsimp only [RS.next, randRangeQ, randQ, randIntInclusiveQ]
      obtain ⟨eg2, n2, hgo⟩ := clutchGo_frame female.x female.y female.id
        female.repro.fatherId female.traits
        (match w.fish.find? (fun f => some f.id = female.repro.fatherId) with
         | some f => f.traits
         | none => female.traits) t _ w _
      rw [hgo]
      exact ⟨_, _, _, rfl⟩

theorem reproGravidStep_frame (t ly : ℚ) (i : ℕ) (w : World) (r : RS) :
    ∃ fs, (reproGravidStep t ly i w r).1 = { w with fish := fs } := by
  unfold reproGravidStep
  cases hg : w.fish.get? i with
  | none => exact ⟨_, rfl⟩
  | some fish =>
      dsimp only [randQ, RS.next]
      split_ifs <;> exact ⟨_, rfl⟩

theorem reproLayingStep_frame (t ly : ℚ) (i : ℕ) (w : World) (r : RS) :
    ∃ fs eg n, (reproLayingStep t ly i w r).1 =
      { w with fish := fs, eggs := eg, nextEggId := n } := by
  unfold reproLayingStep
  cases hg : w.fish.get? i with
  | none => exact ⟨_, _, _, rfl⟩
  | some f1 =>
      dsimp only
      split_ifs
      · exact layEggClutch_frame w i t r
      · exact ⟨_, _, _, rfl⟩
      · exact ⟨_, _, _, rfl⟩

theorem reproCooldownStep_frame (t : ℚ) (i : ℕ) (w : World) :
    ∃ fs, reproCooldownStep t i w = { w with fish := fs } := by
  unfold reproCooldownStep
  cases hg : w.fish.get? i with
  | none => exact ⟨_, rfl⟩
  | some f2 =>
      dsimp only
      split_ifs <;> exact ⟨_, rfl⟩

theorem reproStageGo_frame (t ly : ℚ) (fuel i : ℕ) (w : World) (r : RS) :
    ∃ fs eg n, (reproStageGo t ly fuel i w r).1 =
      { w with fish := fs, eggs := eg, nextEggId := n } := by
  induction fuel generalizing i w r with
  | zero => exact ⟨_, _, _, rfl⟩
  | succ fuel ih =>
      unfold reproStageGo
      cases hg : w.fish.get? i with
      | none => exact ⟨_, _, _, rfl⟩
      | some fish =>
          dsimp only
          split_ifs with hskip
          · obtain ⟨fsA, hA⟩ := reproGravidStep_frame t ly i w r
            obtain ⟨fsB, egB, nB, hB⟩ := reproLayingStep_frame t ly i
              (reproGravidStep t ly i w r).1 (reproGravidStep t ly i w r).2
            obtain ⟨fsC, hC⟩ := reproCooldownStep_frame t i
              (reproLayingStep t ly i (reproGravidStep t ly i w r).1
                (reproGravidStep t ly i w r).2).1
            obtain ⟨fsD, egD, nD, hD⟩ := ih (i + 1)
              (reproCooldownStep t i
                (reproLayingStep t ly i (reproGravidStep t ly i w r).1
                  (reproGravidStep t ly i w r).2).1)
              (reproLayingStep t ly i (reproGravidStep t ly i w r).1
                (reproGravidStep t ly i w r).2).2
            exact ⟨fsD, egD, nD, by rw [hD, hC, hB, hA]⟩
          · exact ih (i + 1) w r

theorem updateReproduction_frame (w : World) (dt : ℚ) (r : RS) :
    ∃ fs mp eg n, (w.updateReproduction dt r).1 =
      { w with fish := fs, matePairNextTryAt := mp, eggs := eg, nextEggId := n } := by
  unfold World.updateReproduction
  split_ifs
  · obtain ⟨fsA, mpA, hA⟩ := mateOuterGo_frame w.simTimeSec w.fish.length 0 w r
    obtain ⟨fsB, egB, nB, hB⟩ := reproStageGo_frame w.simTimeSec
      (max 0 ((mateOuterGo w.simTimeSec w.fish.length 0 w r).1.swimHeight - 14))
      (mateOuterGo w.simTimeSec w.fish.length 0 w r).1.fish.length 0
      (mateOuterGo w.simTimeSec w.fish.length 0 w r).1
      (mateOuterGo w.simTimeSec w.fish.length 0 w r).2
    exact ⟨fsB, mpA, egB, nB, by rw [hB, hA]⟩
  · exact ⟨_, _, _, _, rfl⟩

theorem foldl_fishOnly {α : Type} (g : World → α → World)
    (hg : ∀ w a, ∃ fs, g w a = { w with fish := fs }) (l : List α) (w : World) :
    ∃ fs, l.foldl g w = { w with fish := fs } := by
  induction l generalizing w with
  | nil => exact ⟨w.fish, rfl⟩
  | cons a as ih =>
      obtain ⟨fs1, h1⟩ := hg w a
      obtain ⟨fs2, h2⟩ := ih (g w a)
      exact ⟨fs2, by rw [List.foldl_cons, h2, h1]⟩

theorem playSessionStep_frame (w : World) (s : PlaySession) :
    ∃ fs, (playSessionStep w s).2.2 = { w with fish := fs } := by
  unfold playSessionStep
  cases hr : w.fish.find? (fun f => f.id = s.runnerFishId) with
  | none =>
      dsimp only
      exact foldl_fishOnly _ (fun w2 c => ⟨_, rfl⟩) _ w
  | some runner =>
      dsimp only
      split_ifs with h1 h2
      · obtain ⟨fs2, h2⟩ := foldl_fishOnly
          (fun acc (c : Fish) => applyFishAtId acc c.id Fish.stopPlay)
          (fun w2 c => ⟨_, rfl⟩) _ (applyFishAtId w s.runnerFishId Fish.stopPlay)
        exact ⟨fs2, by rw [h2]; rfl⟩
      · exact foldl_fishOnly _ (fun w2 c => ⟨_, rfl⟩) _ w
      · obtain ⟨fs3, h3⟩ := foldl_fishOnly
          (fun acc (c : Fish) =>
            applyFishAtId (applyFishAtId acc c.id (fun f => f.setPlayRole PlayRole.CHASER))
              c.id (fun f => f.setPlayTargetFish (some runner.id)))
          (fun w2 c => ⟨_, rfl⟩) _
          (applyFishAtId (applyFishAtId w s.runnerFishId (fun f => f.setPlayRole PlayRole.RUNNER))
            s.runnerFishId (fun f => f.setPlayTargetFish
              ((closestChaserTo runner ((s.chaserFishIds.filterMap
                (fun cid => w.fish.find? (fun f => f.id = cid))).filter
                  (fun f => f.isPlaying w.simTimeSec))).map (fun c => c.id))))
        exact ⟨fs3, by rw [h3]; rfl⟩

theorem updatePlaySessionsGo_frame (ss : List PlaySession) (w : World) :
    ∃ fs, (updatePlaySessionsGo ss w).2 = { w with fish := fs } := by
  induction ss generalizing w with
  | nil => exact ⟨w.fish, rfl⟩
  | cons s rest ih =>
      unfold updatePlaySessionsGo
      obtain ⟨fs1, h1⟩ := playSessionStep_frame w s
      obtain ⟨fs2, h2⟩ := ih (playSessionStep w s).2.2
      dsimp only
      split_ifs <;> exact ⟨fs2, by rw [h2, h1]⟩

theorem updatePlaySessions_frame (w : World) :
    ∃ fs ps, w.updatePlaySessions = { w with fish := fs, playSessions := ps } := by
  unfold World.updatePlaySessions
  obtain ⟨fs, h⟩ := updatePlaySessionsGo_frame w.playSessions w
  exact ⟨fs, _, by dsimp only; rw [h]⟩

theorem expandCandGo_frame (t : ℚ) (sid rid : ℕ) (us ax ay : ℚ)
    (fuel i : ℕ) (w : World) (r : RS) (acc : List ℕ) :
    ∃ fs, (expandCandGo t sid rid us ax ay fuel i w r acc).1 =
      { w with fish := fs } := by
  induction fuel generalizing i w r acc with
  | zero => exact ⟨w.fish, rfl⟩
  | succ fuel ih =>
      unfold expandCandGo
      cases hg : w.fish.get? i with
      | none => exact ⟨w.fish, rfl⟩
      | some cand =>
          dsimp only [RS.next]
          split_ifs
          · exact ih (i + 1) w r acc
          · exact ih (i + 1) w ⟨r.g, r.i + 1⟩ acc
          · obtain ⟨fs2, h2⟩ := ih (i + 1) { w with fish := w.fish.set i (cand.startPlay sid PlayRole.CHASER us rid) } ⟨r.g, r.i + 1⟩ (acc ++ [cand.id])
            exact ⟨fs2, by rw [h2]⟩
          · exact ih (i + 1) w r acc

theorem expandSessionStep_frame (t : ℚ) (si : ℕ) (w : World) (r : RS) :
    ∃ fs ps, (expandSessionStep t si w r).1 =
      { w with fish := fs, playSessions := ps } := by
  unfold expandSessionStep
  cases hs : w.playSessions.get? si with
  | none => exact ⟨w.fish, w.playSessions, rfl⟩
  | some s =>
      dsimp only
      cases hr : w.fish.find? (fun f => f.id = s.runnerFishId) with
      | none => exact ⟨w.fish, w.playSessions, rfl⟩
      | some runner =>
          dsimp only
          split_ifs
          · obtain ⟨fs1, h1⟩ := expandCandGo_frame t s.id s.runnerFishId s.untilSec
              runner.x runner.y w.fish.length 0 w r []
            exact ⟨fs1, _, by rw [h1]⟩
          · exact ⟨w.fish, w.playSessions, rfl⟩

theorem expandSessGo_frame (t : ℚ) (fuel si : ℕ) (w : World) (r : RS) :
    ∃ fs ps, (expandSessGo t fuel si w r).1 =
      { w with fish := fs, playSessions := ps } := by
  induction fuel generalizing si w r with
  | zero => exact ⟨w.fish, w.playSessions, rfl⟩
  | succ fuel ih =>
      unfold expandSessGo
      obtain ⟨fs1, ps1, h1⟩ := expandSessionStep_frame t si w r
      obtain ⟨fs2, ps2, h2⟩ := ih (si + 1) (expandSessionStep t si w r).1
        (expandSessionStep t si w r).2
      exact ⟨fs2, ps2, by dsimp only; rw [h2, h1]⟩

theorem tryExpandPlaySessions_frame (w : World) (r : RS) :
    ∃ fs ps, (w.tryExpandPlaySessions r).1 =
      { w with fish := fs, playSessions := ps } := by
  unfold World.tryExpandPlaySessions
  exact expandSessGo_frame w.simTimeSec w.playSessions.length 0 w r

theorem startCandGo_frame (t : ℚ) (sid rid icid : ℕ) (us mx my : ℚ)
    (fuel i : ℕ) (w : World) (r : RS) (acc : List ℕ) :
    ∃ fs, (startCandGo t sid rid icid us mx my fuel i w r acc).1 =
      { w with fish := fs } := by
  induction fuel generalizing i w r acc with
  | zero => exact ⟨w.fish, rfl⟩
  | succ fuel ih =>
      unfold startCandGo
      split_ifs with hfull
      · exact ⟨w.fish, rfl⟩
      · cases hg : w.fish.get? i with
        | none => exact ⟨w.fish, rfl⟩
        | some cand =>
            dsimp only [RS.next]
            split_ifs
            · exact ih (i + 1) w r acc
            · exact ih (i + 1) w r acc
            · exact ih (i + 1) w ⟨r.g, r.i + 1⟩ acc
            · obtain ⟨fs2, h2⟩ := ih (i + 1) { w with fish := w.fish.set i (cand.startPlay sid PlayRole.CHASER us rid) } ⟨r.g, r.i + 1⟩ (acc ++ [cand.id])
              exact ⟨fs2, by rw [h2]⟩
            · exact ih (i + 1) w r acc


/-! Field-preservation layer.  The per-tick subsystems never touch the
simulated clock, the pause flag or the speed multiplier, and all but the
water tick leave the water record unchanged; only updateEggs moves the
fish id counter, and only upward.  These equations compose by rewriting
through the update pipeline. -/

/-- The World fields every subsystem of update leaves unchanged. -/
def clockView (w : World) : ℚ × Bool × ℚ :=
  (w.simTimeSec, w.paused, w.speedMultiplier)

theorem clockView_simTime {a b : World} (h : clockView a = clockView b) :
    a.simTimeSec = b.simTimeSec := congrArg Prod.fst h

theorem clockView_paused {a b : World} (h : clockView a = clockView b) :
    a.paused = b.paused := congrArg (fun p => p.2.1) h

theorem clockView_speed {a b : World} (h : clockView a = clockView b) :
    a.speedMultiplier = b.speedMultiplier := congrArg (fun p => p.2.2) h

theorem fishPhase_clock (g : Fish → Fish) (w : World) :
    clockView (fishPhase g w) = clockView w := rfl

theorem fishPhase_water (g : Fish → Fish) (w : World) :
    (fishPhase g w).water = w.water := rfl

theorem fishPhase_nfi (g : Fish → Fish) (w : World) :
    (fishPhase g w).nextFishId = w.nextFishId := rfl

theorem updatePlaySessions_clock (w : World) :
    clockView w.updatePlaySessions = clockView w := by
  obtain ⟨fs, ps, h⟩ := updatePlaySessions_frame w
  rw [h]
  try rfl

theorem updatePlaySessions_water (w : World) :
    w.updatePlaySessions.water = w.water := by
  obtain ⟨fs, ps, h⟩ := updatePlaySessions_frame w
  rw [h]
  try rfl

theorem updatePlaySessions_nfi (w : World) :
    w.updatePlaySessions.nextFishId = w.nextFishId := by
  obtain ⟨fs, ps, h⟩ := updatePlaySessions_frame w
  rw [h]
  try rfl

theorem tryExpandPlaySessions_clock (w : World) (r : RS) :
    clockView (w.tryExpandPlaySessions r).1 = clockView w := by
  obtain ⟨fs, ps, h⟩ := tryExpandPlaySessions_frame w r
  rw [h]
  try rfl

theorem tryExpandPlaySessions_water (w : World) (r : RS) :
    (w.tryExpandPlaySessions r).1.water = w.water := by
  obtain ⟨fs, ps, h⟩ := tryExpandPlaySessions_frame w r
  rw [h]
  try rfl

theorem tryExpandPlaySessions_nfi (w : World) (r : RS) :
    (w.tryExpandPlaySessions r).1.nextFishId = w.nextFishId := by
  obtain ⟨fs, ps, h⟩ := tryExpandPlaySessions_frame w r
  rw [h]
  try rfl

theorem updateReproduction_clock (w : World) (dt : ℚ) (r : RS) :
    clockView (w.updateReproduction dt r).1 = clockView w := by
  obtain ⟨fs, mp, eg, n, h⟩ := updateReproduction_frame w dt r
  rw [h]
  try rfl

theorem updateReproduction_water (w : World) (dt : ℚ) (r : RS) :
    (w.updateReproduction dt r).1.water = w.water := by
  obtain ⟨fs, mp, eg, n, h⟩ := updateReproduction_frame w dt r
  rw [h]
  try rfl

theorem updateReproduction_nfi (w : World) (dt : ℚ) (r : RS) :
    (w.updateReproduction dt r).1.nextFishId = w.nextFishId := by
  obtain ⟨fs, mp, eg, n, h⟩ := updateReproduction_frame w dt r
  rw [h]
  try rfl

theorem startCandGo_clock (t : ℚ) (sid rid icid : ℕ) (us mx my : ℚ)
    (fuel i : ℕ) (w : World) (r : RS) (acc : List ℕ) :
    clockView (startCandGo t sid rid icid us mx my fuel i w r acc).1 =
      clockView w := by
  obtain ⟨fs, h⟩ := startCandGo_frame t sid rid icid us mx my fuel i w r acc
  rw [h]
  try rfl

theorem startCandGo_water (t : ℚ) (sid rid icid : ℕ) (us mx my : ℚ)
    (fuel i : ℕ) (w : World) (r : RS) (acc : List ℕ) :
    (startCandGo t sid rid icid us mx my fuel i w r acc).1.water = w.water := by
  obtain ⟨fs, h⟩ := startCandGo_frame t sid rid icid us mx my fuel i w r acc
  rw [h]
  try rfl

theorem startCandGo_nfi (t : ℚ) (sid rid icid : ℕ) (us mx my : ℚ)
    (fuel i : ℕ) (w : World) (r : RS) (acc : List ℕ) :
    (startCandGo t sid rid icid us mx my fuel i w r acc).1.nextFishId =
      w.nextFishId := by
  obtain ⟨fs, h⟩ := startCandGo_frame t sid rid icid us mx my fuel i w r acc
  rw [h]
  try rfl

theorem delayPairAt_frame (t : ℚ) (i j : ℕ) (w : World) :
    ∃ fs, delayPairAt t i j w = { w with fish := fs } := by
  unfold delayPairAt
  rcases hi : w.fish.get? i with _ | a <;> rcases hj : w.fish.get? j with _ | b
  · exact ⟨w.fish, rfl⟩
  · exact ⟨w.fish, rfl⟩
  · exact ⟨w.fish, rfl⟩
  · exact ⟨_, rfl⟩

theorem delayPairAt_clock (t : ℚ) (i j : ℕ) (w : World) :
    clockView (delayPairAt t i j w) = clockView w := by
  obtain ⟨fs, h⟩ := delayPairAt_frame t i j w
  rw [h]
  try rfl

theorem delayPairAt_water (t : ℚ) (i j : ℕ) (w : World) :
    (delayPairAt t i j w).water = w.water := by
  obtain ⟨fs, h⟩ := delayPairAt_frame t i j w
  rw [h]
  try rfl

theorem delayPairAt_nfi (t : ℚ) (i j : ℕ) (w : World) :
    (delayPairAt t i j w).nextFishId = w.nextFishId := by
  obtain ⟨fs, h⟩ := delayPairAt_frame t i j w
  rw [h]
  try rfl

theorem startSessionFor_clock (t : ℚ) (i j : ℕ) (w : World) (r : RS) :
    clockView (startSessionFor t i j w r).1 = clockView w := by
  unfold startSessionFor
  rcases hi : w.fish.get? i with _ | a <;> rcases hj : w.fish.get? j with _ | b
  · rfl
  · rfl
  · rfl
  · exact (startCandGo_clock _ _ _ _ _ _ _ _ _ _ _ _).trans rfl

theorem startSessionFor_water (t : ℚ) (i j : ℕ) (w : World) (r : RS) :
    (startSessionFor t i j w r).1.water = w.water := by
  unfold startSessionFor
  rcases hi : w.fish.get? i with _ | a <;> rcases hj : w.fish.get? j with _ | b
  · rfl
  · rfl
  · rfl
  · exact (startCandGo_water _ _ _ _ _ _ _ _ _ _ _ _).trans rfl

theorem startSessionFor_nfi (t : ℚ) (i j : ℕ) (w : World) (r : RS) :
    (startSessionFor t i j w r).1.nextFishId = w.nextFishId := by
  unfold startSessionFor
  rcases hi : w.fish.get? i with _ | a <;> rcases hj : w.fish.get? j with _ | b
  · rfl
  · rfl
  · rfl
  · exact (startCandGo_nfi _ _ _ _ _ _ _ _ _ _ _ _).trans rfl


theorem startInnerGo_clock (t : ℚ) (i fuel j : ℕ) (w : World) (r : RS) :
    clockView (startInnerGo t i fuel j w r).1 = clockView w := by
  induction fuel generalizing j w r with
  | zero => rfl
  | succ fuel ih =>
      unfold startInnerGo
      rcases hi : w.fish.get? i with _ | a <;> rcases hj : w.fish.get? j with _ | b
      · rfl
      · rfl
      · rfl
      · dsimp only [RS.next]
        split_ifs
        · exact ih _ _ _
        · exact (ih _ _ _).trans (delayPairAt_clock _ _ _ _)
        · exact startSessionFor_clock _ _ _ _ _
        · exact ih _ _ _

theorem startInnerGo_water (t : ℚ) (i fuel j : ℕ) (w : World) (r : RS) :
    (startInnerGo t i fuel j w r).1.water = w.water := by
  induction fuel generalizing j w r with
  | zero => rfl
  | succ fuel ih =>
      unfold startInnerGo
      rcases hi : w.fish.get? i with _ | a <;> rcases hj : w.fish.get? j with _ | b
      · rfl
      · rfl
      · rfl
      · dsimp only [RS.next]
        split_ifs
        · exact ih _ _ _
        · exact (ih _ _ _).trans (delayPairAt_water _ _ _ _)
        · exact startSessionFor_water _ _ _ _ _
        · exact ih _ _ _

theorem startInnerGo_nfi (t : ℚ) (i fuel j : ℕ) (w : World) (r : RS) :
    (startInnerGo t i fuel j w r).1.nextFishId = w.nextFishId := by
  induction fuel generalizing j w r with
  | zero => rfl
  | succ fuel ih =>
      unfold startInnerGo
      rcases hi : w.fish.get? i with _ | a <;> rcases hj : w.fish.get? j with _ | b
      · rfl
      · rfl
      · rfl
      · dsimp only [RS.next]
        split_ifs
        · exact ih _ _ _
        · exact (ih _ _ _).trans (delayPairAt_nfi _ _ _ _)
        · exact startSessionFor_nfi _ _ _ _ _
        · exact ih _ _ _

theorem startOuterGo_clock (t : ℚ) (fuel i : ℕ) (w : World) (r : RS) :
    clockView (startOuterGo t fuel i w r).1 = clockView w := by
  induction fuel generalizing i w r with
  | zero => rfl
  | succ fuel ih =>
      unfold startOuterGo
      rcases hi : w.fish.get? i with _ | a
      · rfl
      · dsimp only
        split_ifs
        · exact startInnerGo_clock _ _ _ _ _ _
        · exact (ih _ _ _).trans (startInnerGo_clock _ _ _ _ _ _)
        · exact ih _ _ _

theorem startOuterGo_water (t : ℚ) (fuel i : ℕ) (w : World) (r : RS) :
    (startOuterGo t fuel i w r).1.water = w.water := by
  induction fuel generalizing i w r with
  | zero => rfl
  | succ fuel ih =>
      unfold startOuterGo
      rcases hi : w.fish.get? i with _ | a
      · rfl
      · dsimp only
        split_ifs
        · exact startInnerGo_water _ _ _ _ _ _
        · exact (ih _ _ _).trans (startInnerGo_water _ _ _ _ _ _)
        · exact ih _ _ _

theorem startOuterGo_nfi (t : ℚ) (fuel i : ℕ) (w : World) (r : RS) :
    (startOuterGo t fuel i w r).1.nextFishId = w.nextFishId := by
  induction fuel generalizing i w r with
  | zero => rfl
  | succ fuel ih =>
      unfold startOuterGo
      rcases hi : w.fish.get? i with _ | a
      · rfl
      · dsimp only
        split_ifs
        · exact startInnerGo_nfi _ _ _ _ _ _
        · exact (ih _ _ _).trans (startInnerGo_nfi _ _ _ _ _ _)
        · exact ih _ _ _

theorem tryStartPlaySessions_clock (w : World) (r : RS) :
    clockView (w.tryStartPlaySessions r).1 = clockView w := by
  unfold World.tryStartPlaySessions
  split_ifs
  · rfl
  · exact startOuterGo_clock _ _ _ _ _

theorem tryStartPlaySessions_water (w : World) (r : RS) :
    (w.tryStartPlaySessions r).1.water = w.water := by
  unfold World.tryStartPlaySessions
  split_ifs
  · rfl
  · exact startOuterGo_water _ _ _ _ _

theorem tryStartPlaySessions_nfi (w : World) (r : RS) :
    (w.tryStartPlaySessions r).1.nextFishId = w.nextFishId := by
  unfold World.tryStartPlaySessions
  split_ifs
  · rfl
  · exact startOuterGo_nfi _ _ _ _ _


theorem consumeFood_frame (w : World) (fid : ℕ) (amt : ℚ) :
    ∃ fd c fu ev, (w.consumeFood fid amt).2 =
      { w with food := fd, foodsConsumedCount := c, filterUnlocked := fu,
               events := ev } := by
  unfold World.consumeFood
  cases hf : w.food.find? (fun entry => entry.id = fid) with
  | none => exact ⟨_, _, _, _, rfl⟩
  | some food =>
      dsimp only [World.emit]
      split_ifs <;> exact ⟨_, _, _, _, rfl⟩

theorem consumeFood_clock (w : World) (fid : ℕ) (amt : ℚ) :
    clockView (w.consumeFood fid amt).2 = clockView w := by
  obtain ⟨fd, c, fu, ev, h⟩ := consumeFood_frame w fid amt
  rw [h]
  try rfl

theorem consumeFood_water (w : World) (fid : ℕ) (amt : ℚ) :
    (w.consumeFood fid amt).2.water = w.water := by
  obtain ⟨fd, c, fu, ev, h⟩ := consumeFood_frame w fid amt
  rw [h]
  try rfl

theorem consumeFood_nfi (w : World) (fid : ℕ) (amt : ℚ) :
    (w.consumeFood fid amt).2.nextFishId = w.nextFishId := by
  obtain ⟨fd, c, fu, ev, h⟩ := consumeFood_frame w fid amt
  rw [h]
  try rfl

theorem consumeFood_fish (w : World) (fid : ℕ) (amt : ℚ) :
    (w.consumeFood fid amt).2.fish = w.fish := by
  obtain ⟨fd, c, fu, ev, h⟩ := consumeFood_frame w fid amt
  rw [h]
  try rfl

theorem consumeReqsApply_clock (reqs : List (ℕ × ℚ)) (w : World) :
    clockView (consumeReqsApply w reqs) = clockView w := by
  induction reqs generalizing w with
  | nil => rfl
  | cons p ps ih =>
      exact (ih (w.consumeFood p.1 p.2).2).trans (consumeFood_clock w p.1 p.2)

theorem consumeReqsApply_water (reqs : List (ℕ × ℚ)) (w : World) :
    (consumeReqsApply w reqs).water = w.water := by
  induction reqs generalizing w with
  | nil => rfl
  | cons p ps ih =>
      exact (ih (w.consumeFood p.1 p.2).2).trans (consumeFood_water w p.1 p.2)

theorem consumeReqsApply_nfi (reqs : List (ℕ × ℚ)) (w : World) :
    (consumeReqsApply w reqs).nextFishId = w.nextFishId := by
  induction reqs generalizing w with
  | nil => rfl
  | cons p ps ih =>
      exact (ih (w.consumeFood p.1 p.2).2).trans (consumeFood_nfi w p.1 p.2)

theorem consumeReqsApply_fish (reqs : List (ℕ × ℚ)) (w : World) :
    (consumeReqsApply w reqs).fish = w.fish := by
  induction reqs generalizing w with
  | nil => rfl
  | cons p ps ih =>
      exact (ih (w.consumeFood p.1 p.2).2).trans (consumeFood_fish w p.1 p.2)

theorem consumeGo_clock (ext : Ext) (fs : List Fish) (w : World) :
    clockView (consumeGo ext fs w).2 = clockView w := by
  induction fs generalizing w with
  | nil => rfl
  | cons f rest ih =>
      exact (ih (consumeReqsApply w (ext.tryConsumeFood w f).2)).trans
        (consumeReqsApply_clock _ _)

theorem consumeGo_water (ext : Ext) (fs : List Fish) (w : World) :
    (consumeGo ext fs w).2.water = w.water := by
  induction fs generalizing w with
  | nil => rfl
  | cons f rest ih =>
      exact (ih (consumeReqsApply w (ext.tryConsumeFood w f).2)).trans
        (consumeReqsApply_water _ _)

theorem consumeGo_nfi (ext : Ext) (fs : List Fish) (w : World) :
    (consumeGo ext fs w).2.nextFishId = w.nextFishId := by
  induction fs generalizing w with
  | nil => rfl
  | cons f rest ih =>
      exact (ih (consumeReqsApply w (ext.tryConsumeFood w f).2)).trans
        (consumeReqsApply_nfi _ _)

theorem consumePhase_clock (w : World) (ext : Ext) :
    clockView (w.consumePhase ext) = clockView w := by
  exact consumeGo_clock ext w.fish w

theorem consumePhase_water (w : World) (ext : Ext) :
    (w.consumePhase ext).water = w.water := by
  exact consumeGo_water ext w.fish w

theorem consumePhase_nfi (w : World) (ext : Ext) :
    (w.consumePhase ext).nextFishId = w.nextFishId := by
  exact consumeGo_nfi ext w.fish w

theorem updateFishLifeState_clock (w : World) :
    clockView w.updateFishLifeState = clockView w := rfl

theorem updateFishLifeState_water (w : World) :
    w.updateFishLifeState.water = w.water := rfl

theorem updateFishLifeState_nfi (w : World) :
    w.updateFishLifeState.nextFishId = w.nextFishId := rfl

theorem updateFood_clock (w : World) (d : ℚ) :
    clockView (w.updateFood d) = clockView w := rfl

theorem updateFood_water (w : World) (d : ℚ) :
    (w.updateFood d).water = w.water := rfl

theorem updateFood_nfi (w : World) (d : ℚ) :
    (w.updateFood d).nextFishId = w.nextFishId := rfl

theorem updateFood_fish (w : World) (d : ℚ) :
    (w.updateFood d).fish = w.fish := rfl

theorem updateFxParticles_clock (w : World) (d : ℚ) :
    clockView (w.updateFxParticles d) = clockView w := by
  unfold World.updateFxParticles
  split_ifs <;> rfl

theorem updateFxParticles_water (w : World) (d : ℚ) :
    (w.updateFxParticles d).water = w.water := by
  unfold World.updateFxParticles
  split_ifs <;> rfl

theorem updateFxParticles_nfi (w : World) (d : ℚ) :
    (w.updateFxParticles d).nextFishId = w.nextFishId := by
  unfold World.updateFxParticles
  split_ifs <;> rfl

theorem updateFxParticles_fish (w : World) (d : ℚ) :
    (w.updateFxParticles d).fish = w.fish := by
  unfold World.updateFxParticles
  split_ifs <;> rfl

theorem updateBubbles_clock (w : World) (ext : Ext) (d : ℚ) (r : RS) :
    clockView (w.updateBubbles ext d r).1 = clockView w := rfl

theorem updateBubbles_water (w : World) (ext : Ext) (d : ℚ) (r : RS) :
    (w.updateBubbles ext d r).1.water = w.water := rfl

theorem updateBubbles_nfi (w : World) (ext : Ext) (d : ℚ) (r : RS) :
    (w.updateBubbles ext d r).1.nextFishId = w.nextFishId := rfl

theorem updateBubbles_fish (w : World) (ext : Ext) (d : ℚ) (r : RS) :
    (w.updateBubbles ext d r).1.fish = w.fish := rfl

theorem updateWaterHygiene_clock (w : World) (d : ℚ) :
    clockView (w.updateWaterHygiene d) = clockView w := by
  unfold World.updateWaterHygiene
  split_ifs <;> rfl

theorem updateWaterHygiene_nfi (w : World) (d : ℚ) :
    (w.updateWaterHygiene d).nextFishId = w.nextFishId := by
  unfold World.updateWaterHygiene
  split_ifs <;> rfl

theorem createFish_world (ext : Ext) (w : World) (sex : Option Sex)
    (ia : ℚ) (hs : Bool) (pos : Option (ℚ × ℚ)) (tr : Option Traits) (r : RS) :
    (World.createFish ext w sex ia hs pos tr r).2.1 =
      { w with nextFishId := w.nextFishId + 1 } := rfl

theorem createFish_clock (ext : Ext) (w : World) (sex : Option Sex)
    (ia : ℚ) (hs : Bool) (pos : Option (ℚ × ℚ)) (tr : Option Traits) (r : RS) :
    clockView (World.createFish ext w sex ia hs pos tr r).2.1 = clockView w := by
  rw [createFish_world]
  try rfl

theorem createFish_water (ext : Ext) (w : World) (sex : Option Sex)
    (ia : ℚ) (hs : Bool) (pos : Option (ℚ × ℚ)) (tr : Option Traits) (r : RS) :
    (World.createFish ext w sex ia hs pos tr r).2.1.water = w.water := by
  rw [createFish_world]
  try rfl

theorem createFish_nfi (ext : Ext) (w : World) (sex : Option Sex)
    (ia : ℚ) (hs : Bool) (pos : Option (ℚ × ℚ)) (tr : Option Traits) (r : RS) :
    (World.createFish ext w sex ia hs pos tr r).2.1.nextFishId =
      w.nextFishId + 1 := by
  rw [createFish_world]
  try rfl


theorem updateEggsGo_clock (ext : Ext) (t h01 : ℚ) (eggs : List Egg)
    (w : World) (r : RS) :
    clockView (updateEggsGo ext t h01 eggs w r).2.1 = clockView w := by
  induction eggs generalizing w r with
  | nil => rfl
  | cons egg rest ih =>
      unfold updateEggsGo
      dsimp only
      split_ifs
      · exact ih w r
      · refine Eq.trans ?_ (ih w r)
        rfl
      · exact ih w r

theorem updateEggsGo_water (ext : Ext) (t h01 : ℚ) (eggs : List Egg)
    (w : World) (r : RS) :
    (updateEggsGo ext t h01 eggs w r).2.1.water = w.water := by
  induction eggs generalizing w r with
  | nil => rfl
  | cons egg rest ih =>
      unfold updateEggsGo
      dsimp only
      split_ifs
      · exact ih w r
      · refine Eq.trans ?_ (ih w r)
        rfl
      · exact ih w r

theorem updateEggsGo_nfi_le (ext : Ext) (t h01 : ℚ) (eggs : List Egg)
    (w : World) (r : RS) :
    w.nextFishId ≤ (updateEggsGo ext t h01 eggs w r).2.1.nextFishId := by
  induction eggs generalizing w r with
  | nil => exact le_rfl
  | cons egg rest ih =>
      unfold updateEggsGo
      dsimp only
      split_ifs
      · exact ih w r
      · refine le_trans (le_trans (ih w r) (Nat.le_succ _)) (le_of_eq ?_)
        rfl
      · exact ih w r

theorem updateEggs_clock (w : World) (ext : Ext) (dt : ℚ) (r : RS) :
    clockView (w.updateEggs ext dt r).1 = clockView w := by
  unfold World.updateEggs
  split_ifs
  · exact updateEggsGo_clock _ _ _ _ _ _
  · rfl

theorem updateEggs_water (w : World) (ext : Ext) (dt : ℚ) (r : RS) :
    (w.updateEggs ext dt r).1.water = w.water := by
  unfold World.updateEggs
  split_ifs
  · exact updateEggsGo_water _ _ _ _ _ _
  · rfl

theorem updateEggs_nfi_le (w : World) (ext : Ext) (dt : ℚ) (r : RS) :
    w.nextFishId ≤ (w.updateEggs ext dt r).1.nextFishId := by
  unfold World.updateEggs
  split_ifs
  · exact updateEggsGo_nfi_le _ _ _ _ _ _
  · exact le_rfl

/-! The update pipeline preserves the clock fields, moves the fish id
counter only upward, and touches the water record only through the
water tick. -/

theorem update_clock (w : World) (ext : Ext) (raw : ℚ) (r : RS)
    (hp : w.paused = false) :
    clockView (w.update ext raw r).1 =
      (w.simTimeSec + raw * w.speedMultiplier, false, w.speedMultiplier) := by
  unfold World.update
  rw [if_neg (by simp [hp] : ¬ w.paused = true)]
  dsimp only
  simp only [updateBubbles_clock, updateFxParticles_clock, updateWaterHygiene_clock,
    updateEggs_clock, updateFood_clock, updateFishLifeState_clock, consumePhase_clock,
    fishPhase_clock, updateReproduction_clock, tryStartPlaySessions_clock,
    tryExpandPlaySessions_clock, updatePlaySessions_clock]
  rw [clockView, hp]

theorem update_simTime (w : World) (ext : Ext) (raw : ℚ) (r : RS)
    (hp : w.paused = false) :
    (w.update ext raw r).1.simTimeSec = w.simTimeSec + raw * w.speedMultiplier :=
  congrArg Prod.fst (update_clock w ext raw r hp)

theorem update_paused (w : World) (ext : Ext) (raw : ℚ) (r : RS)
    (hp : w.paused = false) :
    (w.update ext raw r).1.paused = false :=
  congrArg (fun p => p.2.1) (update_clock w ext raw r hp)

theorem update_speed (w : World) (ext : Ext) (raw : ℚ) (r : RS)
    (hp : w.paused = false) :
    (w.update ext raw r).1.speedMultiplier = w.speedMultiplier :=
  congrArg (fun p => p.2.2) (update_clock w ext raw r hp)

theorem update_nfi_le (w : World) (ext : Ext) (raw : ℚ) (r : RS) :
    w.nextFishId ≤ (w.update ext raw r).1.nextFishId := by
  by_cases hp : w.paused = true
  · unfold World.update
    rw [if_pos hp]
  · unfold World.update
    rw [if_neg hp]
    dsimp only
    simp only [updateBubbles_nfi, updateFxParticles_nfi, updateWaterHygiene_nfi]
    refine le_trans ?_ (updateEggs_nfi_le _ _ _ _)
    simp only [updateFood_nfi, updateFishLifeState_nfi, consumePhase_nfi,
      fishPhase_nfi, updateReproduction_nfi, tryStartPlaySessions_nfi,
      tryExpandPlaySessions_nfi, updatePlaySessions_nfi]
    exact le_rfl

theorem update_waterPred (P : Water → Prop) (w : World) (ext : Ext)
    (raw : ℚ) (r : RS)
    (hstep : ∀ w2 : World, P w2.water →
      P ((w2.updateWaterHygiene (raw * w.speedMultiplier)).water))
    (h : P w.water) : P (w.update ext raw r).1.water := by
  by_cases hp : w.paused = true
  · unfold World.update
    rw [if_pos hp]
    exact h
  · unfold World.update
    rw [if_neg hp]
    dsimp only
    simp only [updateBubbles_water, updateFxParticles_water]
    refine hstep _ ?_
    simp only [updateEggs_water, updateFood_water, updateFishLifeState_water,
      consumePhase_water, fishPhase_water, updateReproduction_water,
      tryStartPlaySessions_water, tryExpandPlaySessions_water,
      updatePlaySessions_water]
    exact h


/-! Claim C10: consumeFood error handling and consumption amounts. -/

theorem find?_modifyFirst {α : Type} (p : α → Bool) (g : α → α) (l : List α)
    (a : α) (hfind : l.find? p = some a) (hp : p (g a) = true) :
    (modifyFirst p g l).find? p = some (g a) := by
  induction l with
  | nil => simp at hfind
  | cons x xs ih =>
      by_cases hx : p x = true
      · rw [List.find?_cons_of_pos _ hx] at hfind
        injection hfind with he
        subst he
        unfold modifyFirst
        rw [if_pos hx]
        exact List.find?_cons_of_pos _ hp
      · rw [List.find?_cons_of_neg _ (by simpa using hx)] at hfind
        unfold modifyFirst
        rw [if_neg hx, List.find?_cons_of_neg _ (by simpa using hx)]
        exact ih hfind

/-- C10: consumeFood with an unknown food id returns 0 and leaves the
World unchanged; with a known item it returns min(remaining, max(0.05,
requested)) — never more than the item held, and at least 0.05 whenever
the item holds that much, even for a smaller or non-positive request —
subtracts that amount from the item, and drops the item from the food
collection exactly when the remainder is at or below 0.001. -/
theorem consumeFood_cases (w : World) (fid : ℕ) (amt : ℚ) :
    (w.food.find? (fun e => e.id = fid) = none →
      w.consumeFood fid amt = (0, w)) ∧
    (∀ food, w.food.find? (fun e => e.id = fid) = some food →
      (w.consumeFood fid amt).1 = min food.amount (max 0.05 amt) ∧
      (w.consumeFood fid amt).1 ≤ food.amount ∧
      (0.05 ≤ food.amount → 0.05 ≤ (w.consumeFood fid amt).1) ∧
      (food.amount - min food.amount (max 0.05 amt) ≤ 0.001 →
        ∀ e ∈ (w.consumeFood fid amt).2.food, e.id ≠ fid) ∧
      (0.001 < food.amount - min food.amount (max 0.05 amt) →
        (w.consumeFood fid amt).2.food.find? (fun e => e.id = fid) =
          some { food with
                 amount := food.amount - min food.amount (max 0.05 amt) })) := by
  constructor
  · intro hf
    unfold World.consumeFood
    rw [hf]
  · intro food hf
    have hpfood := List.find?_some hf
    refine ⟨?_, ?_, ?_, ?_, ?_⟩
    · unfold World.consumeFood
      rw [hf]
    · unfold World.consumeFood
      rw [hf]
      exact min_le_left _ _
    · intro hge
      unfold World.consumeFood
      rw [hf]
      exact le_min hge (le_max_left _ _)
    · intro hrem e he
      unfold World.consumeFood at he
      rw [hf] at he
      dsimp only [World.emit] at he
      split_ifs at he
      all_goals first
        | (simp only [List.mem_filter, decide_eq_true_eq] at he
           exact he.2)
        | (exact absurd hrem (by assumption))
    · intro hkeep
      unfold World.consumeFood
      rw [hf]
      dsimp only [World.emit]
      split_ifs
      all_goals first
        | (exact absurd hkeep (not_lt_of_le (by assumption)))
        | (refine find?_modifyFirst _ _ _ _ hf ?_
           simpa using hpfood)

/-- The concrete one-item food list for the C10 witness. -/
def c10Item : Food :=
  { id := 0, x := 10, y := 10, amount := 1, ttl := some 5, vy := 0 }

/-- The concrete World for the C10 witness. -/
def c10World : World := { mkWorld [] with food := [c10Item] }

theorem consumeFood_cases_witness :
    (c10World.consumeFood 0 1).1 = min c10Item.amount (max 0.05 1) ∧
    (∀ e ∈ (c10World.consumeFood 0 1).2.food, e.id ≠ 0) ∧
    (c10World.consumeFood 7 1) = (0, c10World) := by
  have h := consumeFood_cases c10World 0 1
  have hfind : c10World.food.find? (fun e => e.id = 0) = some c10Item := rfl
  have h2 := h.2 c10Item hfind
  refine ⟨h2.1, h2.2.2.2.1 ?_, (consumeFood_cases c10World 7 1).1 rfl⟩
  show c10Item.amount - min c10Item.amount (max 0.05 1) ≤ 0.001
  norm_num [c10Item]


/-! Claim C8: renameFish.  The missing-id half of the claim holds, but the
source performs no deduplication of display names: renaming two living
fish to the same string leaves both carrying it. -/

/-- The two-fish World of the C8 counterexample. -/
def c8World : World := mkWorld [mkFish 1, mkFish 2]

/-- The C8 world after renaming fish 1 and then fish 2 to "Bob". -/
def c8Renamed : World :=
  ((c8World.renameFish 1 "Bob").2.renameFish 2 "Bob").2

theorem renameFish_dedup_cex :
    c8Renamed.fish.map Fish.name = ["Bob", "Bob"] ∧
    c8Renamed.fish.all
      (fun f => f.lifeState = LState.ALIVE && !f.corpseRemoved) = true ∧
    (c8World.renameFish 1 "Bob").1 = true ∧
    ((c8World.renameFish 1 "Bob").2.renameFish 2 "Bob").1 = true := by
  refine ⟨?_, ?_, ?_, ?_⟩ <;> with_unfolding_all rfl

/-- The stored-name update renameFish applies to the fish list. -/
def renameUpd (fid : ℕ) (nm : String) (l : List Fish) : List Fish :=
  modifyFirst (fun e => e.id = fid)
    (fun e => { e with name := normalizeName nm }) l

/-- C8 (amended): renameFish on an id no fish carries returns false with
the World unchanged (no exception is modelled: the operation is total);
on an existing id it returns true and stores the trimmed name capped at
24 characters on that fish, leaving every other field and every other
fish unchanged; no cross-fish name deduplication is performed. -/
theorem renameFish_amended (w : World) (fid : ℕ) (nm : String) :
    (w.fish.find? (fun e => e.id = fid) = none →
      w.renameFish fid nm = (false, w)) ∧
    (∀ f, w.fish.find? (fun e => e.id = fid) = some f →
      (w.renameFish fid nm).1 = true ∧
      (w.renameFish fid nm).2.fish.find? (fun e => e.id = fid) =
        some { f with name := normalizeName nm } ∧
      (w.renameFish fid nm).2 = { w with fish := renameUpd fid nm w.fish }) := by
  constructor
  · intro hf
    unfold World.renameFish
    rw [hf]
  · intro f hf
    have hpf := List.find?_some hf
    refine ⟨?_, ?_, ?_⟩
    · unfold World.renameFish
      rw [hf]
    · unfold World.renameFish
      rw [hf]
      dsimp only
      refine find?_modifyFirst _ _ _ _ hf ?_
      simpa using hpf
    · unfold World.renameFish
      rw [hf]
      rfl

theorem renameFish_amended_witness :
    (c8World.renameFish 9 "Eve") = (false, c8World) ∧
    (c8World.renameFish 1 "Eve").1 = true := by
  refine ⟨(renameFish_amended c8World 9 "Eve").1 ?_, ?_⟩
  · with_unfolding_all rfl
  · exact ((renameFish_amended c8World 1 "Eve").2 (mkFish 1)
      (by with_unfolding_all rfl)).1


/-! Claim C6: the filter only mitigates while installed, enabled, not
mid-maintenance and above the depletion threshold. -/

/-- C6: during a water tick the filter removes a positive amount of dirt
and strictly reduces the effective bioload exactly when it has a
non-zero effective strength, which holds if and only if it is
installed, user-enabled, not mid-maintenance and its health is above
the depletion threshold; at or below the threshold the effective
strength is zero even with installed and enabled flags set. -/
theorem filter_effectiveness (water : Water) (dt bioload : ℚ)
    (hdt : 0 < dt) (hb : 0 < bioload) :
    (effectiveFilterOf water ≠ 0 ↔ HasWorkingFilter water) ∧
    (0 < filterDirtRemovedAmt (effectiveFilterOf water) dt ↔
      HasWorkingFilter water) ∧
    (effectiveBioloadOf bioload (effectiveFilterOf water) < bioload ↔
      HasWorkingFilter water) ∧
    (water.filter01 ≤ FILTER_DEPLETED_THRESHOLD_01 →
      effectiveFilterOf water = 0) := by
  by_cases hW : HasWorkingFilter water
  · have heff : effectiveFilterOf water = water.filter01 := if_pos hW
    have hpos : 0 < water.filter01 :=
      lt_trans (by norm_num [FILTER_DEPLETED_THRESHOLD_01]) hW.2.2.2
    refine ⟨?_, ?_, ?_, ?_⟩
    · rw [heff]
      exact ⟨fun _ => hW, fun _ => ne_of_gt hpos⟩
    · rw [heff]
      constructor
      · exact fun _ => hW
      · intro _
        unfold filterDirtRemovedAmt FILTER_DIRT_REMOVE_PER_SEC
        positivity
    · rw [heff]
      constructor
      · exact fun _ => hW
      · intro _
        unfold effectiveBioloadOf clampQ
        have hx : bioload * (1 - water.filter01 * FILTER_BIOLOAD_MITIGATION_FACTOR)
            < bioload := by
          unfold FILTER_BIOLOAD_MITIGATION_FACTOR
          nlinarith
        rw [max_eq_right hb.le]
        exact max_lt hb (lt_of_le_of_lt (min_le_right _ _) hx)
    · intro hle
      exact absurd hW.2.2.2 (not_lt_of_le hle)
  · have heff : effectiveFilterOf water = 0 := if_neg hW
    refine ⟨?_, ?_, ?_, fun _ => heff⟩
    · rw [heff]
      simp [hW]
    · rw [heff]
      unfold filterDirtRemovedAmt
      simp [hW]
    · rw [heff]
      unfold effectiveBioloadOf clampQ
      rw [max_eq_right hb.le]
      simp only [mul_zero, zero_mul, mul_one, sub_zero]
      rw [min_self, max_eq_right hb.le]
      simp [hW]

/-- A depleted but installed and enabled filter for the C6 witness. -/
def c6Water : Water :=
  { initialWaterState true with
    filterInstalled := true, filterEnabled := true, filter01 := 0.05 }

theorem filter_effectiveness_witness :
    (effectiveFilterOf c6Water ≠ 0 ↔ HasWorkingFilter c6Water) ∧
    (0 < filterDirtRemovedAmt (effectiveFilterOf c6Water) 1 ↔
      HasWorkingFilter c6Water) ∧
    (effectiveBioloadOf 1 (effectiveFilterOf c6Water) < 1 ↔
      HasWorkingFilter c6Water) ∧
    (c6Water.filter01 ≤ FILTER_DEPLETED_THRESHOLD_01 →
      effectiveFilterOf c6Water = 0) :=
  filter_effectiveness c6Water 1 1 (by norm_num) (by norm_num)


/-! Claim C4: due eggs always resolve in one tick. -/

theorem createFish_fish (ext : Ext) (w : World) (sex : Option Sex)
    (ia : ℚ) (hs : Bool) (pos : Option (ℚ × ℚ)) (tr : Option Traits) (r : RS) :
    (World.createFish ext w sex ia hs pos tr r).2.1.fish = w.fish := by
  rw [createFish_world]

theorem updateEggsGo_eggs (ext : Ext) (t h01 : ℚ) (eggs : List Egg)
    (w : World) (r : RS) :
    (updateEggsGo ext t h01 eggs w r).1 =
      eggs.filter (fun e => decide (t < e.hatchAtSec)) := by
  induction eggs generalizing w r with
  | nil => rfl
  | cons egg rest ih =>
      unfold updateEggsGo
      dsimp only
      split_ifs with h1 h2
      · rw [List.filter_cons, if_pos (by simpa using h1)]
        exact congrArg (List.cons egg) (ih w r)
      · rw [List.filter_cons, if_neg (by simpa using h1)]
        exact ih w r
      · rw [List.filter_cons, if_neg (by simpa using h1)]
        exact ih w r

theorem updateEggsGo_fishlen_ge (ext : Ext) (t h01 : ℚ) (eggs : List Egg)
    (w : World) (r : RS) :
    w.fish.length ≤ (updateEggsGo ext t h01 eggs w r).2.1.fish.length := by
  induction eggs generalizing w r with
  | nil => exact le_rfl
  | cons egg rest ih =>
      unfold updateEggsGo
      dsimp only
      split_ifs with h1 h2
      · exact ih w r
      · simp only [createFish_fish, List.length_append, List.length_cons,
          List.length_nil]
        exact le_trans (ih w r) (Nat.le_succ _)
      · exact ih w r

theorem updateEggsGo_fishlen_le (ext : Ext) (t h01 : ℚ) (eggs : List Egg)
    (w : World) (r : RS) :
    (updateEggsGo ext t h01 eggs w r).2.1.fish.length ≤
      w.fish.length +
        (eggs.filter (fun e => !decide (t < e.hatchAtSec))).length := by
  induction eggs generalizing w r with
  | nil => exact le_rfl
  | cons egg rest ih =>
      unfold updateEggsGo
      dsimp only
      have hih := ih w r
      split_ifs with h1 h2
      · rw [List.filter_cons, if_neg (by simpa using h1)]
        exact hih
      · rw [List.filter_cons, if_pos (by simpa using h1)]
        simp only [createFish_fish, List.length_append, List.length_cons,
          List.length_nil]
        exact le_trans (Nat.succ_le_succ hih) (le_of_eq (by omega))
      · rw [List.filter_cons, if_pos (by simpa using h1)]
        simp only [List.length_cons]
        exact le_trans hih (le_trans (Nat.le_succ _) (le_of_eq (by omega)))

/-- C4: with a positive delta, one updateEggs tick keeps exactly the
eggs whose hatch-due time is still ahead of the clock — every due egg
leaves the collection — and adds at most one fish per removed egg
(never removing fish); the hatch chance used for the roll is floored at
the non-zero constant HATCH_FLOOR at every hygiene level. -/
theorem eggs_resolve (w : World) (ext : Ext) (dt : ℚ) (r : RS) (hdt : 0 < dt) :
    (w.updateEggs ext dt r).1.eggs =
      w.eggs.filter (fun e => decide (w.simTimeSec < e.hatchAtSec)) ∧
    w.fish.length ≤ (w.updateEggs ext dt r).1.fish.length ∧
    (w.updateEggs ext dt r).1.fish.length ≤
      w.fish.length +
        (w.eggs.filter (fun e => !decide (w.simTimeSec < e.hatchAtSec))).length ∧
    (∀ h01 : ℚ, HATCH_FLOOR ≤ hatchChanceOf h01 ∧ 0 < hatchChanceOf h01) := by
  have hfloor : ∀ h01 : ℚ, HATCH_FLOOR ≤ hatchChanceOf h01 := by
    intro h01
    unfold hatchChanceOf clamp01Q clampQ
    exact le_trans (le_min (by norm_num [HATCH_FLOOR]) (le_max_left _ _))
      (le_max_right _ _)
  unfold World.updateEggs
  rw [if_neg (not_not_intro hdt)]
  dsimp only
  refine ⟨?_, ?_, ?_, ?_⟩
  · exact updateEggsGo_eggs _ _ _ _ _ _
  · exact updateEggsGo_fishlen_ge _ _ _ _ _ _
  · exact updateEggsGo_fishlen_le _ _ _ _ _ _
  · intro h01
    exact ⟨hfloor h01,
      lt_of_lt_of_le (by norm_num [HATCH_FLOOR]) (hfloor h01)⟩

theorem eggs_resolve_witness :
    ((mkWorld []).updateEggs ext0 1 rs0).1.eggs =
      (mkWorld []).eggs.filter
        (fun e => decide ((mkWorld []).simTimeSec < e.hatchAtSec)) ∧
    HATCH_FLOOR ≤ hatchChanceOf 0 := by
  have h := eggs_resolve (mkWorld []) ext0 1 rs0 (by norm_num)
  exact ⟨h.1, (h.2.2.2 0).1⟩


/-! Claim C2: the update contract — paused no-op, clock advance by the
scaled delta, and the fixed subsystem order. -/

/-- The subsystem composition of update in the fixed source order,
applied to the World whose clock was already advanced: per-fish
lifecycle refresh, per-fish play-state refresh, play-session
maintenance, expansion and new-session formation, reproduction scan,
per-fish metabolism, behavior decision, steering, food-consumption
check, life-state sweep, then the food, egg, water, fx and bubble
environmental ticks. -/
def updatePipeline (w1 : World) (ext : Ext) (delta : ℚ) (r : RS) :
    World × RS :=
  let w2 := fishPhase (ext.updateLifeCycle w1.simTimeSec) w1
  let w3 := fishPhase (ext.updatePlayState w2.simTimeSec) w2
  let w4 := w3.updatePlaySessions
  let p5 := w4.tryExpandPlaySessions r
  let p6 := p5.1.tryStartPlaySessions p5.2
  let p7 := p6.1.updateReproduction delta p6.2
  let w8 := fishPhase (ext.updateMetabolism delta p7.1) p7.1
  let w9 := fishPhase (fun f => ext.decideBehavior w8 delta f) w8
  let w10 := fishPhase (ext.applySteering delta) w9
  let w11 := w10.consumePhase ext
  let w12 := w11.updateFishLifeState
  let w13 := w12.updateFood delta
  let p14 := w13.updateEggs ext delta p7.2
  let w15 := p14.1.updateWaterHygiene delta
  let w16 := w15.updateFxParticles delta
  w16.updateBubbles ext delta p14.2

/-- C2: update on a paused World returns the World and the random
source unchanged; on a running World it advances simTimeSec by exactly
rawDelta times the speed multiplier and equals the subsystem pipeline
run in the fixed source order on the clock-advanced World, leaving the
pause flag and speed multiplier untouched. -/
theorem update_contract (w : World) (ext : Ext) (raw : ℚ) (r : RS) :
    (w.paused = true → w.update ext raw r = (w, r)) ∧
    (w.paused = false →
      w.update ext raw r =
        updatePipeline
          { w with simTimeSec := w.simTimeSec + raw * w.speedMultiplier }
          ext (raw * w.speedMultiplier) r ∧
      (w.update ext raw r).1.simTimeSec =
        w.simTimeSec + raw * w.speedMultiplier ∧
      (w.update ext raw r).1.paused = false ∧
      (w.update ext raw r).1.speedMultiplier = w.speedMultiplier) := by
  constructor
  · intro hp
    unfold World.update
    rw [if_pos hp]
  · intro hp
    refine ⟨?_, update_simTime w ext raw r hp, update_paused w ext raw r hp,
      update_speed w ext raw r hp⟩
    unfold World.update updatePipeline
    rw [if_neg (by simp [hp] : ¬ w.paused = true)]

/-- A paused copy of the empty fixture World for the C2 witness. -/
def c2Paused : World := { mkWorld [] with paused := true }

theorem update_contract_witness :
    c2Paused.update ext0 1 rs0 = (c2Paused, rs0) ∧
    (mkWorld []).update ext0 1 rs0 =
      updatePipeline
        { mkWorld [] with
            simTimeSec := (mkWorld []).simTimeSec +
              1 * (mkWorld []).speedMultiplier }
        ext0 (1 * (mkWorld []).speedMultiplier) rs0 := by
  refine ⟨(update_contract c2Paused ext0 1 rs0).1 rfl, ?_⟩
  exact ((update_contract (mkWorld []) ext0 1 rs0).2 rfl).1


/-! Claim C3: the motion/life delta split in the concrete timing
scenario (spec-modelled: the split-delta revision of world.js is not
part of the repository sources). -/

/-- The C3 scenario after creation: width 800, height 500, 4 fish. -/
def c3P0 : World × RS := World.create ext0 800 500 4 rs0

/-- The C3 scenario after spawnFood(100, 100, 1, 1). -/
def c3P1 : World × RS := c3P0.1.spawnFood 100 100 1 1 c3P0.2

/-- The C3 scenario wrapped with the real-time counters. -/
def c3TW : TimedWorld :=
  { base := c3P1.1, realTimeSec := 0, motionDt := 0, lifeDt := 0 }

/-- The C3 scenario after update(1) at speed multiplier 1. -/
def c3After : TimedWorld × RS := c3TW.update ext0 1 c3P1.2

/-- C3: in the 800 x 500 World with 4 initial fish, after
spawnFood(100,100,1,1) one update(1) at speed multiplier 1 leaves the
food item's ttl decreased by exactly the life delta of that tick (one
half) and not by the raw delta (one): the tick recorded motionDt 1 and
lifeDt 1/2, advanced the simulated clock by the life delta and the real
clock by the raw delta. -/
theorem motion_life_split :
    c3TW.base.speedMultiplier = 1 ∧
    c3After.1.base.food.map Food.ttl = [some (1 - specLifeDt 1 1)] ∧
    specLifeDt 1 1 = 1 / 2 ∧
    c3After.1.base.food.map Food.ttl ≠ [some (1 - 1)] ∧
    c3After.1.lifeDt = 1 / 2 ∧
    c3After.1.motionDt = 1 ∧
    c3After.1.base.simTimeSec = 1 / 2 ∧
    c3After.1.realTimeSec = 1 := by
  set_option maxRecDepth 4000 in with_unfolding_all decide


/-! Claim C1: save/load round-trip fidelity (spec-modelled: the
toJSON/fromJSON revision of world.js is not part of the repository
sources). -/

/-- Positions of every fish, food item and egg lie inside the current
viewport, so the load-time clamps are the identity. -/
def InView (w : World) : Prop :=
  (∀ f ∈ w.fish, 0 ≤ f.x ∧ f.x ≤ w.bounds.width ∧
    0 ≤ f.y ∧ f.y ≤ w.swimHeight) ∧
  (∀ fd ∈ w.food, 0 ≤ fd.x ∧ fd.x ≤ w.bounds.width ∧
    0 ≤ fd.y ∧ fd.y ≤ w.swimHeight) ∧
  (∀ e ∈ w.eggs, 0 ≤ e.x ∧ e.x ≤ w.bounds.width ∧
    0 ≤ e.y ∧ e.y ≤ w.swimHeight)

instance (w : World) : Decidable (InView w) := by
  unfold InView
  infer_instance

/-- fromJSON of toJSON at the same viewport (any initial-fish-count
fallback, which an intact snapshot never uses). -/
def roundTripW (w : World) (n : ℕ) : World :=
  World.fromJSON w.toJSON
    { width := w.bounds.width, height := w.bounds.height,
      initialFishCount := n }

/-- C1: reloading a snapshot at the same viewport reproduces the id
counters, the simulated clock, the speed and pause flags, the full fish
list (ids and reproduction/play sub-records included), the food and egg
collections, the water/filter record and the play sessions, whenever the
stored positions lie inside the viewport (the load clamps are then the
identity). -/
theorem save_load_roundtrip (w : World) (n : ℕ) (hview : InView w) :
    (roundTripW w n).nextFoodId = w.nextFoodId ∧
    (roundTripW w n).nextFishId = w.nextFishId ∧
    (roundTripW w n).nextPlaySessionId = w.nextPlaySessionId ∧
    (roundTripW w n).nextEggId = w.nextEggId ∧
    (roundTripW w n).simTimeSec = w.simTimeSec ∧
    (roundTripW w n).paused = w.paused ∧
    (roundTripW w n).speedMultiplier = w.speedMultiplier ∧
    (roundTripW w n).fish = w.fish ∧
    (roundTripW w n).food = w.food ∧
    (roundTripW w n).eggs = w.eggs ∧
    (roundTripW w n).water = w.water ∧
    (roundTripW w n).playSessions = w.playSessions ∧
    (roundTripW w n).foodsConsumedCount = w.foodsConsumedCount ∧
    (roundTripW w n).filterUnlocked = w.filterUnlocked ∧
    (roundTripW w n).selectedFishId = w.selectedFishId := by
  unfold roundTripW World.fromJSON World.toJSON
  dsimp only
  refine ⟨rfl, rfl, rfl, rfl, rfl, rfl, rfl, ?_, ?_, ?_, rfl, rfl, rfl, rfl,
    rfl⟩
  · refine (List.map_congr_left ?_).trans (List.map_id _)
    intro f hm
    obtain ⟨h0, h1, h2, h3⟩ := hview.1 f hm
    have h3b : f.y ≤ 40 ⊔ w.bounds.height := h3
    unfold clampQ
    rw [min_eq_right h1, max_eq_right h0, min_eq_right h3b, max_eq_right h2]
    rfl
  · refine (List.map_congr_left ?_).trans (List.map_id _)
    intro f hm
    obtain ⟨h0, h1, h2, h3⟩ := hview.2.1 f hm
    have h3b : f.y ≤ 40 ⊔ w.bounds.height := h3
    unfold clampQ
    rw [min_eq_right h1, max_eq_right h0, min_eq_right h3b, max_eq_right h2]
    rfl
  · refine (List.map_congr_left ?_).trans (List.map_id _)
    intro f hm
    obtain ⟨h0, h1, h2, h3⟩ := hview.2.2 f hm
    have h3b : f.y ≤ 40 ⊔ w.bounds.height := h3
    unfold clampQ
    rw [min_eq_right h1, max_eq_right h0, min_eq_right h3b, max_eq_right h2]
    rfl

theorem save_load_roundtrip_witness :
    (roundTripW (mkWorld [mkFish 1]) 3).nextFishId =
      (mkWorld [mkFish 1]).nextFishId ∧
    (roundTripW (mkWorld [mkFish 1]) 3).fish = (mkWorld [mkFish 1]).fish := by
  have h := save_load_roundtrip (mkWorld [mkFish 1]) 3
    (by with_unfolding_all decide)
  exact ⟨h.2.1, h.2.2.2.2.2.2.2.1⟩


/-! Claim C5 machinery: a male fish never reaches the GRAVID or LAYING
reproduction state, in any World reachable through the public
operations. -/

/-- The per-fish invariant: males are never gravid or laying. -/
def MaleOk (f : Fish) : Prop :=
  f.sex = Sex.male →
    f.repro.state ≠ RState.GRAVID ∧ f.repro.state ≠ RState.LAYING

instance (f : Fish) : Decidable (MaleOk f) := by
  unfold MaleOk
  infer_instance

/-- The World-level invariant of claim C5. -/
def FishInv (w : World) : Prop := ∀ f ∈ w.fish, MaleOk f

/-- The abstracted fish.js phases preserve the male invariant (the
missing fish.js only touches motion, vitals and life stage there). -/
def PresMaleOk (ext : Ext) : Prop :=
  (∀ t f, MaleOk f → MaleOk (ext.updateLifeCycle t f)) ∧
  (∀ t f, MaleOk f → MaleOk (ext.updatePlayState t f)) ∧
  (∀ d w f, MaleOk f → MaleOk (ext.updateMetabolism d w f)) ∧
  (∀ w d f, MaleOk f → MaleOk (ext.decideBehavior w d f)) ∧
  (∀ d f, MaleOk f → MaleOk (ext.applySteering d f)) ∧
  (∀ w f, MaleOk f → MaleOk (ext.tryConsumeFood w f).1)

theorem maleOk_mem_set {l : List Fish} {i : ℕ} {x : Fish}
    (hl : ∀ f ∈ l, MaleOk f) (hx : MaleOk x) : ∀ f ∈ l.set i x, MaleOk f := by
  intro f hf
  rcases List.mem_or_eq_of_mem_set hf with h | h
  · exact hl f h
  · exact h ▸ hx

theorem maleOk_modifyFirst {p : Fish → Bool} {g : Fish → Fish}
    (hg : ∀ f, MaleOk f → MaleOk (g f)) :
    ∀ {l : List Fish}, (∀ f ∈ l, MaleOk f) → ∀ f ∈ modifyFirst p g l, MaleOk f := by
  intro l
  induction l with
  | nil => intro _ f hf; simp [modifyFirst] at hf
  | cons x xs ih =>
      intro hl f hf
      unfold modifyFirst at hf
      split_ifs at hf with hp
      · rcases List.mem_cons.mp hf with h | h
        · exact h ▸ hg x (hl x (List.mem_cons_self _ _))
        · exact hl f (List.mem_cons_of_mem _ h)
      · rcases List.mem_cons.mp hf with h | h
        · exact h ▸ hl x (List.mem_cons_self _ _)
        · exact ih (fun f hf => hl f (List.mem_cons_of_mem _ hf)) f h

theorem applyFishAtId_maleOk {w : World} {fid : ℕ} {g : Fish → Fish}
    (hg : ∀ f, MaleOk f → MaleOk (g f)) (hw : FishInv w) :
    FishInv (applyFishAtId w fid g) :=
  fun f hf => maleOk_modifyFirst hg hw f hf

theorem foldl_fishInv {α : Type} (step : World → α → World)
    (hstep : ∀ w a, FishInv w → FishInv (step w a)) (l : List α) (w : World)
    (hw : FishInv w) : FishInv (l.foldl step w) := by
  induction l generalizing w with
  | nil => exact hw
  | cons a as ih => exact ih (step w a) (hstep w a hw)

theorem maleOk_stopPlay (f : Fish) (h : MaleOk f) : MaleOk f.stopPlay := h

theorem maleOk_setPlayRole (f : Fish) (ro : PlayRole) (h : MaleOk f) :
    MaleOk (f.setPlayRole ro) := h

theorem maleOk_setPlayTargetFish (f : Fish) (tid : Option ℕ) (h : MaleOk f) :
    MaleOk (f.setPlayTargetFish tid) := h

theorem maleOk_startPlay (f : Fish) (sid : ℕ) (ro : PlayRole) (u : ℚ)
    (tid : ℕ) (h : MaleOk f) : MaleOk (f.startPlay sid ro u tid) := h

theorem maleOk_delayPlayEligibility (f : Fish) (t : ℚ) (h : MaleOk f) :
    MaleOk (f.delayPlayEligibility t) := h

theorem playSessionStep_maleOk (w : World) (s : PlaySession) (hw : FishInv w) :
    FishInv (playSessionStep w s).2.2 := by
  unfold playSessionStep
  cases hr : w.fish.find? (fun f => f.id = s.runnerFishId) with
  | none =>
      dsimp only
      exact foldl_fishInv _
        (fun w2 c h2 => applyFishAtId_maleOk (fun f => maleOk_stopPlay f) h2)
        _ w hw
  | some runner =>
      dsimp only
      split_ifs with h1 h2
      · exact foldl_fishInv _
          (fun w2 c h2 => applyFishAtId_maleOk (fun f => maleOk_stopPlay f) h2)
          _ _ (applyFishAtId_maleOk (fun f => maleOk_stopPlay f) hw)
      · exact foldl_fishInv _
          (fun w2 c h2 => applyFishAtId_maleOk (fun f => maleOk_stopPlay f) h2)
          _ w hw
      · exact foldl_fishInv _
          (fun w2 c h2 =>
            applyFishAtId_maleOk (fun f => maleOk_setPlayTargetFish f _)
              (applyFishAtId_maleOk (fun f => maleOk_setPlayRole f _) h2))
          _ _
          (applyFishAtId_maleOk (fun f => maleOk_setPlayTargetFish f _)
            (applyFishAtId_maleOk (fun f => maleOk_setPlayRole f _) hw))

theorem updatePlaySessionsGo_maleOk (ss : List PlaySession) (w : World)
    (hw : FishInv w) : FishInv (updatePlaySessionsGo ss w).2 := by
  induction ss generalizing w with
  | nil => exact hw
  | cons s rest ih =>
      unfold updatePlaySessionsGo
      dsimp only
      split_ifs
      · exact ih _ (playSessionStep_maleOk w s hw)
      · exact ih _ (playSessionStep_maleOk w s hw)

theorem updatePlaySessions_maleOk (w : World) (hw : FishInv w) :
    FishInv w.updatePlaySessions := by
  intro f hf
  exact updatePlaySessionsGo_maleOk w.playSessions w hw f hf


theorem expandCandGo_maleOk (t : ℚ) (sid rid : ℕ) (us ax ay : ℚ)
    (fuel i : ℕ) (w : World) (r : RS) (acc : List ℕ) (hw : FishInv w) :
    FishInv (expandCandGo t sid rid us ax ay fuel i w r acc).1 := by
  induction fuel generalizing i w r acc with
  | zero => exact hw
  | succ fuel ih =>
      unfold expandCandGo
      cases hg : w.fish.get? i with
      | none => exact hw
      | some cand =>
          dsimp only [RS.next]
          have hcand : MaleOk cand := hw cand (List.get?_mem hg)
          split_ifs
          · exact ih _ _ _ _ hw
          · exact ih _ _ _ _ hw
          · exact ih _ _ _ _
              (fun f hf => maleOk_mem_set hw
                (maleOk_startPlay cand sid PlayRole.CHASER us rid hcand) f hf)
          · exact ih _ _ _ _ hw

theorem expandSessionStep_maleOk (t : ℚ) (si : ℕ) (w : World) (r : RS)
    (hw : FishInv w) : FishInv (expandSessionStep t si w r).1 := by
  unfold expandSessionStep
  cases hs : w.playSessions.get? si with
  | none => exact hw
  | some s =>
      dsimp only
      cases hr : w.fish.find? (fun f => f.id = s.runnerFishId) with
      | none => exact hw
      | some runner =>
          dsimp only
          split_ifs
          · exact expandCandGo_maleOk _ _ _ _ _ _ _ _ _ _ _ hw
          · exact hw

theorem expandSessGo_maleOk (t : ℚ) (fuel si : ℕ) (w : World) (r : RS)
    (hw : FishInv w) : FishInv (expandSessGo t fuel si w r).1 := by
  induction fuel generalizing si w r with
  | zero => exact hw
  | succ fuel ih =>
      unfold expandSessGo
      dsimp only
      exact ih _ _ _ (expandSessionStep_maleOk t si w r hw)

theorem tryExpandPlaySessions_maleOk (w : World) (r : RS) (hw : FishInv w) :
    FishInv (w.tryExpandPlaySessions r).1 :=
  expandSessGo_maleOk _ _ _ _ _ hw

theorem startCandGo_maleOk (t : ℚ) (sid rid icid : ℕ) (us mx my : ℚ)
    (fuel i : ℕ) (w : World) (r : RS) (acc : List ℕ) (hw : FishInv w) :
    FishInv (startCandGo t sid rid icid us mx my fuel i w r acc).1 := by
  induction fuel generalizing i w r acc with
  | zero => exact hw
  | succ fuel ih =>
      unfold startCandGo
      split_ifs with hfull
      · exact hw
      · cases hg : w.fish.get? i with
        | none => exact hw
        | some cand =>
            dsimp only [RS.next]
            have hcand : MaleOk cand := hw cand (List.get?_mem hg)
            split_ifs
            · exact ih _ _ _ _ hw
            · exact ih _ _ _ _ hw
            · exact ih _ _ _ _ hw
            · exact ih _ _ _ _
                (fun f hf => maleOk_mem_set hw
                  (maleOk_startPlay cand sid PlayRole.CHASER us rid hcand) f hf)
            · exact ih _ _ _ _ hw

theorem startSessionFor_maleOk (t : ℚ) (i j : ℕ) (w : World) (r : RS)
    (hw : FishInv w) : FishInv (startSessionFor t i j w r).1 := by
  unfold startSessionFor
  rcases hi : w.fish.get? i with _ | a <;> rcases hj : w.fish.get? j with _ | b
  · exact hw
  · exact hw
  · exact hw
  · dsimp only
    have ha : MaleOk a := hw a (List.get?_mem hi)
    have hb : MaleOk b := hw b (List.get?_mem hj)
    intro f hf
    refine startCandGo_maleOk _ _ _ _ _ _ _ _ _ _ _ _ ?_ f hf
    intro g hg
    refine maleOk_mem_set (l := _) ?_ ?_ g hg
    · intro g2 hg2
      refine maleOk_mem_set (fun f2 hf2 => hw f2 hf2) ?_ g2 hg2
      split_ifs
      · exact maleOk_startPlay _ _ _ _ _ ha
      · exact maleOk_startPlay _ _ _ _ _ hb
    · split_ifs
      · exact maleOk_startPlay _ _ _ _ _ hb
      · exact maleOk_startPlay _ _ _ _ _ ha

theorem delayPairAt_maleOk (t : ℚ) (i j : ℕ) (w : World) (hw : FishInv w) :
    FishInv (delayPairAt t i j w) := by
  unfold delayPairAt
  rcases hi : w.fish.get? i with _ | a <;> rcases hj : w.fish.get? j with _ | b
  · exact hw
  · exact hw
  · exact hw
  · have ha : MaleOk a := hw a (List.get?_mem hi)
    have hb : MaleOk b := hw b (List.get?_mem hj)
    intro f hf
    refine maleOk_mem_set (l := _) ?_
      (maleOk_delayPlayEligibility b t hb) f hf
    intro g hg
    exact maleOk_mem_set hw (maleOk_delayPlayEligibility a t ha) g hg

theorem startInnerGo_maleOk (t : ℚ) (i fuel j : ℕ) (w : World) (r : RS)
    (hw : FishInv w) : FishInv (startInnerGo t i fuel j w r).1 := by
  induction fuel generalizing j w r with
  | zero => exact hw
  | succ fuel ih =>
      unfold startInnerGo
      rcases hi : w.fish.get? i with _ | a <;> rcases hj : w.fish.get? j with _ | b
      · exact hw
      · exact hw
      · exact hw
      · dsimp only [RS.next]
        split_ifs
        · exact ih _ _ _ hw
        · exact ih _ _ _ (delayPairAt_maleOk _ _ _ _ hw)
        · exact startSessionFor_maleOk _ _ _ _ _ hw
        · exact ih _ _ _ hw

theorem startOuterGo_maleOk (t : ℚ) (fuel i : ℕ) (w : World) (r : RS)
    (hw : FishInv w) : FishInv (startOuterGo t fuel i w r).1 := by
  induction fuel generalizing i w r with
  | zero => exact hw
  | succ fuel ih =>
      unfold startOuterGo
      rcases hi : w.fish.get? i with _ | a
      · exact hw
      · dsimp only
        split_ifs
        · exact startInnerGo_maleOk _ _ _ _ _ _ hw
        · exact ih _ _ _ (startInnerGo_maleOk _ _ _ _ _ _ hw)
        · exact ih _ _ _ hw

theorem tryStartPlaySessions_maleOk (w : World) (r : RS) (hw : FishInv w) :
    FishInv (w.tryStartPlaySessions r).1 := by
  unfold World.tryStartPlaySessions
  split_ifs
  · exact hw
  · exact startOuterGo_maleOk _ _ _ _ _ hw


theorem maleOk_pair_set {l : List Fish} (hl : ∀ f ∈ l, MaleOk f)
    {i j : ℕ} {x y : Fish} (hx : MaleOk x) (hy : MaleOk y) :
    ∀ f ∈ (l.set i x).set j y, MaleOk f :=
  fun f hf => maleOk_mem_set (fun g hg => maleOk_mem_set hl hx g hg) hy f hf

theorem tryMatePair_maleOk (w : World) (i j : ℕ) (t : ℚ) (r : RS)
    (hw : FishInv w) : FishInv (w.tryMatePair i j t r).1 := by
  unfold World.tryMatePair
  rcases hi : w.fish.get? i with _ | a <;> rcases hj : w.fish.get? j with _ | b
  · exact hw
  · exact hw
  · exact hw
  · have ha : MaleOk a := hw a (List.get?_mem hi)
    have hb : MaleOk b := hw b (List.get?_mem hj)
    dsimp only [RS.next, randRangeQ, randQ]
    by_cases hfa : a.sex = Sex.female
    · simp only [if_pos hfa]
      split_ifs <;> try exact hw
      all_goals
        refine maleOk_pair_set (fun f2 hf2 => hw f2 hf2) ?_ ?_
      all_goals try exact fun hm => hb hm
      all_goals
        intro hm
        have hm2 : a.sex = Sex.male := hm
        rw [hfa] at hm2
        exact absurd hm2 (by decide)
    · simp only [if_neg hfa]
      split_ifs with h1 <;> try exact hw
      all_goals
        refine maleOk_pair_set (fun f2 hf2 => hw f2 hf2) ?_ ?_
      all_goals try exact fun hm => ha hm
      all_goals
        intro hm
        have hm2 : b.sex = Sex.male := hm
        have hbf : b.sex = Sex.female := by
          cases hsb : b.sex with
          | female => rfl
          | male =>
              cases hsa : a.sex with
              | female => exact absurd hsa hfa
              | male => exact absurd (hsa.trans hsb.symm) h1
        rw [hbf] at hm2
        exact absurd hm2 (by decide)

theorem mateInnerGo_maleOk (t : ℚ) (i fuel j : ℕ) (w : World) (r : RS) :
    FishInv w → FishInv (mateInnerGo t i fuel j w r).1 := by
  induction fuel, j, w, r using mateInnerGo.induct t i with
  | case1 j w r => exact fun hw => hw
  | case2 fuel j w r a b hj hi w2 r2 hsplit ih =>
      intro hw
      have h2 : FishInv w2 := by
        have he : w2 = (if b.lifeState = LState.ALIVE ∧
            sqDistLe (a.x - b.x) (a.y - b.y) MATE_ENCOUNTER_RADIUS_PX then
            w.tryMatePair i j t r else (w, r)).1 := by rw [hsplit]
        rw [he]
        split_ifs
        · exact tryMatePair_maleOk w i j t r hw
        · exact hw
      unfold mateInnerGo
      rw [hi, hj]
      dsimp only
      rw [hsplit]
      dsimp only
      exact ih h2
  | case3 fuel j w r h =>
      intro hw
      unfold mateInnerGo
      rcases hi : w.fish.get? i with _ | a <;> rcases hj : w.fish.get? j with _ | b
      · exact hw
      · exact hw
      · exact hw
      · exact (h a b hi hj).elim

theorem mateOuterGo_maleOk (t : ℚ) (fuel i : ℕ) (w : World) (r : RS) :
    FishInv w → FishInv (mateOuterGo t fuel i w r).1 := by
  induction fuel, i, w, r using mateOuterGo.induct t with
  | case1 i w r => exact fun hw => hw
  | case2 fuel i w r hi =>
      intro hw
      unfold mateOuterGo
      rw [hi]
      exact hw
  | case3 fuel i w r a hi w2 r2 hsplit ih =>
      intro hw
      have h2 : FishInv w2 := by
        have he : w2 = (if a.lifeState = LState.ALIVE
            then mateInnerGo t i (w.fish.length - (i + 1)) (i + 1) w r
            else (w, r)).1 := by rw [hsplit]
        rw [he]
        split_ifs
        · exact mateInnerGo_maleOk t i _ _ w r hw
        · exact hw
      unfold mateOuterGo
      rw [hi]
      dsimp only
      rw [hsplit]
      dsimp only
      exact ih h2

theorem layEggClutch_maleOk (w : World) (i : ℕ) (t : ℚ) (r : RS)
    (hw : FishInv w) : FishInv (w.layEggClutch i t r).1 := by
  unfold World.layEggClutch
  cases hi : w.fish.get? i with
  | none => exact hw
  | some female =>
      dsimp only [RS.next, randRangeQ, randQ, randIntInclusiveQ]
      obtain ⟨eg2, n2, hgo⟩ := clutchGo_frame female.x female.y female.id
        female.repro.fatherId female.traits
        (match w.fish.find? (fun f => some f.id = female.repro.fatherId) with
         | some f => f.traits
         | none => female.traits) t _ w _
      rw [hgo]
      intro f hf
      refine maleOk_mem_set (fun f2 hf2 => hw f2 hf2) ?_ f hf
      exact fun _ => ⟨(fun hc => nomatch hc), (fun hc => nomatch hc)⟩

theorem reproGravidStep_maleOk (t ly : ℚ) (i : ℕ) (w : World) (r : RS)
    (hw : FishInv w) : FishInv (reproGravidStep t ly i w r).1 := by
  unfold reproGravidStep
  cases hg : w.fish.get? i with
  | none => exact hw
  | some fish =>
      dsimp only [randQ, RS.next]
      split_ifs with hgd
      · intro f hf
        refine maleOk_mem_set (fun f2 hf2 => hw f2 hf2) ?_ f hf
        intro hm
        exact absurd hgd.1 ((hw fish (List.get?_mem hg) hm).1)
      · exact hw

theorem reproLayingStep_maleOk (t ly : ℚ) (i : ℕ) (w : World) (r : RS)
    (hw : FishInv w) : FishInv (reproLayingStep t ly i w r).1 := by
  unfold reproLayingStep
  cases hg : w.fish.get? i with
  | none => exact hw
  | some f1 =>
      dsimp only
      split_ifs
      · exact layEggClutch_maleOk w i t r hw
      · exact hw
      · exact hw

theorem reproCooldownStep_maleOk (t : ℚ) (i : ℕ) (w : World)
    (hw : FishInv w) : FishInv (reproCooldownStep t i w) := by
  unfold reproCooldownStep
  cases hg : w.fish.get? i with
  | none => exact hw
  | some f2 =>
      dsimp only
      split_ifs
      · intro f hf
        refine maleOk_mem_set (fun g hg2 => hw g hg2) ?_ f hf
        exact fun _ => ⟨(fun hc => nomatch hc), (fun hc => nomatch hc)⟩
      · exact hw

theorem reproStageGo_maleOk (t ly : ℚ) (fuel i : ℕ) (w : World) (r : RS)
    (hw : FishInv w) : FishInv (reproStageGo t ly fuel i w r).1 := by
  induction fuel generalizing i w r with
  | zero => exact hw
  | succ fuel ih =>
      unfold reproStageGo
      cases hg : w.fish.get? i with
      | none => exact hw
      | some fish =>
          dsimp only
          split_ifs
          · exact ih _ _ _
              (reproCooldownStep_maleOk _ _ _
                (reproLayingStep_maleOk _ _ _ _ _
                  (reproGravidStep_maleOk _ _ _ _ _ hw)))
          · exact ih _ _ _ hw

theorem updateReproduction_maleOk (w : World) (dt : ℚ) (r : RS)
    (hw : FishInv w) : FishInv (w.updateReproduction dt r).1 := by
  unfold World.updateReproduction
  split_ifs
  · exact reproStageGo_maleOk _ _ _ _ _ _
      (mateOuterGo_maleOk _ _ _ _ _ hw)
  · exact hw


theorem fishPhase_maleOk (g : Fish → Fish)
    (hg : ∀ f, MaleOk f → MaleOk (g f)) (w : World) (hw : FishInv w) :
    FishInv (fishPhase g w) := by
  intro f hf
  rcases List.mem_map.mp hf with ⟨x, hx, rfl⟩
  exact hg x (hw x hx)

theorem consumeGo_fish_maleOk (ext : Ext)
    (hc : ∀ w f, MaleOk f → MaleOk (ext.tryConsumeFood w f).1)
    (fs : List Fish) (w : World) (hfs : ∀ f ∈ fs, MaleOk f) :
    ∀ f ∈ (consumeGo ext fs w).1, MaleOk f := by
  induction fs generalizing w with
  | nil => intro f hf; simp [consumeGo] at hf
  | cons x rest ih =>
      intro f hf
      unfold consumeGo at hf
      dsimp only at hf
      rcases List.mem_cons.mp hf with h | h
      · exact h ▸ hc w x (hfs x (List.mem_cons_self _ _))
      · exact ih _ (fun g hg => hfs g (List.mem_cons_of_mem _ hg)) f h

theorem consumePhase_maleOk (w : World) (ext : Ext)
    (hc : ∀ w2 f, MaleOk f → MaleOk (ext.tryConsumeFood w2 f).1)
    (hw : FishInv w) : FishInv (w.consumePhase ext) := by
  intro f hf
  exact consumeGo_fish_maleOk ext hc w.fish w hw f hf

theorem updateFishLifeState_maleOk (w : World) (hw : FishInv w) :
    FishInv w.updateFishLifeState := by
  intro f hf
  rcases List.mem_map.mp hf with ⟨x, hx, rfl⟩
  have hx2 := hw x hx
  split_ifs <;> exact hx2

theorem maleOk_setSpawn {f : Fish} (s : ℚ) (h : MaleOk f) :
    MaleOk { f with spawnTimeSec := s } := h

theorem maleOk_of_ready (f : Fish) (h : f.repro.state = RState.READY) :
    MaleOk f := by
  intro hsex
  constructor
  · intro hc
    rw [h] at hc
    exact RState.noConfusion hc
  · intro hc
    rw [h] at hc
    exact RState.noConfusion hc

theorem createFish_maleOk (ext : Ext) (w : World) (sex : Option Sex)
    (ia : ℚ) (hs : Bool) (pos : Option (ℚ × ℚ)) (tr : Option Traits) (r : RS)
    (hlc : ∀ t f, MaleOk f → MaleOk (ext.updateLifeCycle t f)) :
    MaleOk (World.createFish ext w sex ia hs pos tr r).1 := by
  refine hlc _ _ ?_
  exact maleOk_of_ready _ (createFishPre_repro w sex ia hs pos tr ext.piQ r)

theorem updateEggsGo_maleOk (ext : Ext)
    (hlc : ∀ t f, MaleOk f → MaleOk (ext.updateLifeCycle t f))
    (t h01 : ℚ) (eggs : List Egg) (w : World) (r : RS) (hw : FishInv w) :
    FishInv (updateEggsGo ext t h01 eggs w r).2.1 := by
  induction eggs generalizing w r with
  | nil => exact hw
  | cons egg rest ih =>
      unfold updateEggsGo
      dsimp only
      split_ifs
      · exact ih w r hw
      · intro f hf
        rcases List.mem_append.mp hf with h | h
        · exact ih w r hw f h
        · rw [List.mem_singleton.mp h]
          exact maleOk_setSpawn _
            (createFish_maleOk ext _ none 0 false _ _ _ hlc)
      · exact ih w r hw

theorem updateEggs_maleOk (w : World) (ext : Ext) (dt : ℚ) (r : RS)
    (hlc : ∀ t f, MaleOk f → MaleOk (ext.updateLifeCycle t f))
    (hw : FishInv w) : FishInv (w.updateEggs ext dt r).1 := by
  unfold World.updateEggs
  split_ifs
  · exact updateEggsGo_maleOk ext hlc _ _ _ _ _ hw
  · exact hw

theorem corpseSweepGo_maleOk (simT : ℚ) (fs : List Fish) (wa : Water)
    (sel : Option ℕ) (hfs : ∀ f ∈ fs, MaleOk f) :
    ∀ g ∈ (corpseSweepGo simT fs wa sel).1, MaleOk g := by
  induction fs generalizing wa sel with
  | nil => intro g hg; simp [corpseSweepGo] at hg
  | cons f rest ih =>
      have hf : MaleOk f := hfs f (List.mem_cons_self _ _)
      have hrest := fun g hg => hfs g (List.mem_cons_of_mem _ hg)
      intro g hg
      unfold corpseSweepGo at hg
      dsimp only at hg
      split_ifs at hg
      all_goals
        first
          | (rcases List.mem_cons.mp hg with h | h
             · subst h
               first
                 | exact hf
                 | (intro hm; exact hf hm)
             · exact ih wa sel hrest g h)
          | exact ih wa sel hrest g hg

theorem updateWaterHygiene_maleOk (w : World) (dt : ℚ) (hw : FishInv w) :
    FishInv (w.updateWaterHygiene dt) := by
  unfold World.updateWaterHygiene
  split_ifs
  · intro g hg
    exact corpseSweepGo_maleOk w.simTimeSec w.fish w.water w.selectedFishId
      hw g hg
  · exact hw

theorem fishInv_of_fishEq {w w2 : World} (he : w2.fish = w.fish)
    (hw : FishInv w) : FishInv w2 := fun f hf => hw f (he ▸ hf)

theorem update_maleOk (w : World) (ext : Ext) (raw : ℚ) (r : RS)
    (hext : PresMaleOk ext) (hw : FishInv w) :
    FishInv (w.update ext raw r).1 := by
  obtain ⟨h1, h2, h3, h4, h5, h6⟩ := hext
  by_cases hp : w.paused = true
  · unfold World.update
    rw [if_pos hp]
    exact hw
  · unfold World.update
    rw [if_neg hp]
    dsimp only
    refine fishInv_of_fishEq (updateBubbles_fish _ _ _ _) ?_
    refine fishInv_of_fishEq (updateFxParticles_fish _ _) ?_
    refine updateWaterHygiene_maleOk _ _ ?_
    refine updateEggs_maleOk _ _ _ _ h1 ?_
    refine fishInv_of_fishEq (updateFood_fish _ _) ?_
    refine updateFishLifeState_maleOk _ ?_
    refine consumePhase_maleOk _ _ h6 ?_
    refine fishPhase_maleOk _ (h5 _) _ ?_
    refine fishPhase_maleOk _ (h4 _ _) _ ?_
    refine fishPhase_maleOk _ (h3 _ _) _ ?_
    refine updateReproduction_maleOk _ _ _ ?_
    refine tryStartPlaySessions_maleOk _ _ ?_
    refine tryExpandPlaySessions_maleOk _ _ ?_
    refine updatePlaySessions_maleOk _ ?_
    refine fishPhase_maleOk _ (h2 _) _ ?_
    refine fishPhase_maleOk _ (h1 _) _ ?_
    exact hw


theorem spawnFood_fish (w : World) (x y a t : ℚ) (r : RS) :
    (w.spawnFood x y a t r).1.fish = w.fish := rfl

theorem selectFish_fish (w : World) (fid : ℕ) :
    (w.selectFish fid).2.fish = w.fish := by
  unfold World.selectFish
  cases hf : w.fish.find? (fun f => f.id = fid) <;> rfl

theorem toggleFishSelection_fish (w : World) (fid : ℕ) :
    (w.toggleFishSelection fid).2.fish = w.fish := by
  unfold World.toggleFishSelection
  split_ifs
  · rfl
  · exact selectFish_fish w fid

theorem setSpeedMultiplier_fish (w : World) (v : ℚ) :
    (w.setSpeedMultiplier v).fish = w.fish := rfl

theorem togglePause_fish (w : World) : w.togglePause.2.fish = w.fish := rfl

theorem installWaterFilter_fish (w : World) :
    w.installWaterFilter.2.fish = w.fish := by
  unfold World.installWaterFilter
  split_ifs <;> rfl

theorem toggleWaterFilterEnabled_fish (w : World) :
    w.toggleWaterFilterEnabled.2.fish = w.fish := by
  unfold World.toggleWaterFilterEnabled
  split_ifs <;> rfl

theorem maintainWaterFilter_fish (w : World) :
    w.maintainWaterFilter.2.fish = w.fish := by
  unfold World.maintainWaterFilter
  split_ifs <;> rfl

theorem flushEvents_fish (w : World) : w.flushEvents.2.fish = w.fish := rfl

theorem resize_fish (w : World) (ext : Ext) (wd ht : ℚ) (r : RS) :
    (w.resize ext wd ht r).1.fish = w.fish := rfl

set_option maxRecDepth 4000 in
theorem maleOk_setName (f : Fish) (s : String) (h : MaleOk f) :
    MaleOk { f with name := s } := h

theorem renameFish_maleOk (w : World) (fid : ℕ) (nm : String)
    (hw : FishInv w) : FishInv (w.renameFish fid nm).2 := by
  unfold World.renameFish
  cases hf : w.fish.find? (fun e => e.id = fid) with
  | none => exact hw
  | some f =>
      dsimp only
      intro g hg
      have hg2 : g ∈ modifyFirst (fun e => decide (e.id = fid))
          (fun e => { e with name := normalizeName nm }) w.fish := hg
      exact maleOk_modifyFirst
        (fun f2 h2 => maleOk_setName f2 (normalizeName nm) h2) hw g hg2

theorem mem_removeFirst {α : Type} {p : α → Bool} {l : List α} {a : α}
    (h : a ∈ (removeFirst p l).2) : a ∈ l := by
  induction l with
  | nil => simpa [removeFirst] using h
  | cons x xs ih =>
      unfold removeFirst at h
      split_ifs at h with hp
      · exact List.mem_cons_of_mem _ h
      · dsimp only at h
        rcases List.mem_cons.mp h with h2 | h2
        · exact h2 ▸ List.mem_cons_self _ _
        · exact List.mem_cons_of_mem _ (ih h2)

theorem discardFish_maleOk (w : World) (fid : ℕ) (hw : FishInv w) :
    FishInv (w.discardFish fid).2 := by
  unfold World.discardFish
  dsimp only
  split_ifs
  all_goals try exact hw
  all_goals
    intro f hf
    have hf2 : f ∈ (removeFirst
        (fun entry => decide (entry.id = fid) &&
          decide (entry.lifeState ≠ LState.ALIVE)) w.fish).2 := hf
    exact hw f (mem_removeFirst hf2)

theorem removeCorpse_maleOk (w : World) (fid : ℕ) (hw : FishInv w) :
    FishInv (w.removeCorpse fid).2 := by
  unfold World.removeCorpse
  dsimp only
  split_ifs
  all_goals try exact hw
  all_goals
    intro f hf
    have hf2 : f ∈ (removeFirst
        (fun entry => decide (entry.id = fid) &&
          decide (entry.lifeState = LState.DEAD)) w.fish).2 := hf
    exact hw f (mem_removeFirst hf2)

theorem addFishGo_maleOk (ext : Ext)
    (hlc : ∀ t f, MaleOk f → MaleOk (ext.updateLifeCycle t f))
    (n : ℕ) (w : World) (r : RS) (hw : FishInv w) :
    FishInv (addFishGo ext n w r).1 := by
  induction n generalizing w r with
  | zero => exact hw
  | succ n ih =>
      unfold addFishGo
      dsimp only
      refine ih _ _ ?_
      intro f hf
      rcases List.mem_append.mp hf with h | h
      · exact hw f h
      · rw [List.mem_singleton.mp h]
        exact createFish_maleOk ext _ none 0 false none none _ hlc

theorem setFishCount_maleOk (w : World) (ext : Ext) (count : ℕ) (r : RS)
    (hlc : ∀ t f, MaleOk f → MaleOk (ext.updateLifeCycle t f))
    (hw : FishInv w) : FishInv (w.setFishCount ext count r).1 := by
  unfold World.setFishCount
  dsimp only
  split_ifs
  all_goals first
    | exact fun f hf => addFishGo_maleOk ext hlc _ _ _ hw f hf
    | exact fun f hf => hw f (List.take_subset _ _ hf)

theorem genPoolGo_pool_maleOk (ext : Ext)
    (hlc : ∀ t f, MaleOk f → MaleOk (ext.updateLifeCycle t f)) (sx : Sex)
    (n : ℕ) (w : World) (pool : List Fish) (r : RS)
    (hpool : ∀ f ∈ pool, MaleOk f) :
    ∀ f ∈ (genPoolGo ext sx n w pool r).2.1, MaleOk f := by
  induction n generalizing w pool r with
  | zero => exact hpool
  | succ n ih =>
      unfold genPoolGo
      dsimp only
      refine ih _ _ _ ?_
      intro f hf
      rcases List.mem_append.mp hf with h | h
      · exact hpool f h
      · rw [List.mem_singleton.mp h]
        exact createFish_maleOk ext _ (some sx) _ true none none _ hlc

theorem mem_listSwap {l : List Fish} {i j : ℕ} {g : Fish}
    (h : g ∈ listSwap l i j) : g ∈ l := by
  unfold listSwap at h
  rcases hi : l.get? i with _ | a <;> rcases hj : l.get? j with _ | b <;>
    rw [hi, hj] at h
  · exact h
  · exact h
  · exact h
  · rcases List.mem_or_eq_of_mem_set h with h2 | h2
    · rcases List.mem_or_eq_of_mem_set h2 with h3 | h3
      · exact h3
      · exact h3 ▸ List.get?_mem hj
    · exact h2 ▸ List.get?_mem hi

theorem mem_shuffleGo {n : ℕ} {items : List Fish} {r : RS} {g : Fish}
    (h : g ∈ (shuffleGo n items r).1) : g ∈ items := by
  induction n generalizing items r with
  | zero => exact h
  | succ n ih =>
      unfold shuffleGo at h
      dsimp only [RS.next] at h
      exact mem_listSwap (ih h)

theorem mem_shuffleArrayQ {items : List Fish} {r : RS} {g : Fish}
    (h : g ∈ (shuffleArrayQ items r).1) : g ∈ items := by
  unfold shuffleArrayQ at h
  rcases hl : items.length with _ | m <;> rw [hl] at h
  · exact h
  · exact mem_shuffleGo h

theorem promoteFemale_maleOk (ext : Ext)
    (hlc : ∀ t f, MaleOk f → MaleOk (ext.updateLifeCycle t f))
    (simT : ℚ) (pool : List Fish) (r : RS) (hp : ∀ f ∈ pool, MaleOk f) :
    ∀ f ∈ (promoteFemale ext simT pool r).1, MaleOk f := by
  unfold promoteFemale
  cases hfind : pool.find? (fun f => f.sex = Sex.female) with
  | none => exact hp
  | some pf =>
      dsimp only
      have hpf : MaleOk pf := hp pf (List.mem_of_find?_eq_some hfind)
      split_ifs
      all_goals
        exact fun f hf => maleOk_modifyFirst
          (fun _ _ => hlc _ _ (maleOk_setSpawn _ hpf)) hp f hf

theorem generateInitialPopulation_maleOk (w : World) (ext : Ext) (total : ℕ)
    (r : RS) (hlc : ∀ t f, MaleOk f → MaleOk (ext.updateLifeCycle t f)) :
    FishInv (w.generateInitialPopulation ext total r).1 := by
  unfold World.generateInitialPopulation
  dsimp only
  have hnil : ∀ f ∈ ([] : List Fish), MaleOk f :=
    fun g hg => absurd hg (List.not_mem_nil g)
  split_ifs
  all_goals intro f hf
  all_goals first
    | exact genPoolGo_pool_maleOk ext hlc _ _ _ _ _
        (genPoolGo_pool_maleOk ext hlc _ _ _ _ _ hnil) f (mem_shuffleArrayQ hf)
    | exact promoteFemale_maleOk ext hlc _ _ _
        (genPoolGo_pool_maleOk ext hlc _ _ _ _ _
          (genPoolGo_pool_maleOk ext hlc _ _ _ _ _ hnil)) f
        (mem_shuffleArrayQ hf)

theorem create_maleOk (ext : Ext) (width height : ℚ) (n : ℕ) (r : RS)
    (hlc : ∀ t f, MaleOk f → MaleOk (ext.updateLifeCycle t f)) :
    FishInv (World.create ext width height n r).1 := by
  unfold World.create
  dsimp only
  intro f hf
  exact generateInitialPopulation_maleOk _ ext _ _ hlc f hf


/-- The Worlds reachable through the public World API: construction
followed by any sequence of update ticks and public mutations (loading a
snapshot is the separate lifecycle entry point and is covered by the
round-trip contract). -/
inductive Reachable (ext : Ext) : World → Prop
  | create (width height : ℚ) (n : ℕ) (r : RS) :
      Reachable ext (World.create ext width height n r).1
  | tick (w : World) (raw : ℚ) (r : RS) :
      Reachable ext w → Reachable ext (w.update ext raw r).1
  | spawnFood (w : World) (x y amount ttl : ℚ) (r : RS) :
      Reachable ext w → Reachable ext (w.spawnFood x y amount ttl r).1
  | consumeFood (w : World) (fid : ℕ) (amt : ℚ) :
      Reachable ext w → Reachable ext (w.consumeFood fid amt).2
  | selectFish (w : World) (fid : ℕ) :
      Reachable ext w → Reachable ext (w.selectFish fid).2
  | toggleSelection (w : World) (fid : ℕ) :
      Reachable ext w → Reachable ext (w.toggleFishSelection fid).2
  | renameFish (w : World) (fid : ℕ) (nm : String) :
      Reachable ext w → Reachable ext (w.renameFish fid nm).2
  | discardFish (w : World) (fid : ℕ) :
      Reachable ext w → Reachable ext (w.discardFish fid).2
  | removeCorpse (w : World) (fid : ℕ) :
      Reachable ext w → Reachable ext (w.removeCorpse fid).2
  | setSpeed (w : World) (v : ℚ) :
      Reachable ext w → Reachable ext (w.setSpeedMultiplier v)
  | togglePause (w : World) :
      Reachable ext w → Reachable ext w.togglePause.2
  | installFilter (w : World) :
      Reachable ext w → Reachable ext w.installWaterFilter.2
  | toggleFilterEnabled (w : World) :
      Reachable ext w → Reachable ext w.toggleWaterFilterEnabled.2
  | maintainFilter (w : World) :
      Reachable ext w → Reachable ext w.maintainWaterFilter.2
  | setFishCount (w : World) (count : ℕ) (r : RS) :
      Reachable ext w → Reachable ext (w.setFishCount ext count r).1
  | resize (w : World) (width height : ℚ) (r : RS) :
      Reachable ext w → Reachable ext (w.resize ext width height r).1
  | flushEvents (w : World) :
      Reachable ext w → Reachable ext w.flushEvents.2

theorem reachable_fishInv (ext : Ext) (hext : PresMaleOk ext) (w : World)
    (hw : Reachable ext w) : FishInv w := by
  induction hw with
  | create width height n r => exact create_maleOk ext width height n r hext.1
  | tick w raw r hr ih => exact update_maleOk w ext raw r hext ih
  | spawnFood w x y amount ttl r hr ih =>
      exact fishInv_of_fishEq (spawnFood_fish w x y amount ttl r) ih
  | consumeFood w fid amt hr ih =>
      exact fishInv_of_fishEq (consumeFood_fish w fid amt) ih
  | selectFish w fid hr ih => exact fishInv_of_fishEq (selectFish_fish w fid) ih
  | toggleSelection w fid hr ih =>
      exact fishInv_of_fishEq (toggleFishSelection_fish w fid) ih
  | renameFish w fid nm hr ih => exact renameFish_maleOk w fid nm ih
  | discardFish w fid hr ih => exact discardFish_maleOk w fid ih
  | removeCorpse w fid hr ih => exact removeCorpse_maleOk w fid ih
  | setSpeed w v hr ih => exact fishInv_of_fishEq (setSpeedMultiplier_fish w v) ih
  | togglePause w hr ih => exact fishInv_of_fishEq (togglePause_fish w) ih
  | installFilter w hr ih =>
      exact fishInv_of_fishEq (installWaterFilter_fish w) ih
  | toggleFilterEnabled w hr ih =>
      exact fishInv_of_fishEq (toggleWaterFilterEnabled_fish w) ih
  | maintainFilter w hr ih =>
      exact fishInv_of_fishEq (maintainWaterFilter_fish w) ih
  | setFishCount w count r hr ih =>
      exact setFishCount_maleOk w ext count r hext.1 ih
  | resize w width height r hr ih =>
      exact fishInv_of_fishEq (resize_fish w ext width height r) ih
  | flushEvents w hr ih => exact fishInv_of_fishEq (flushEvents_fish w) ih

/-- C5: in every World reachable through construction, update ticks and
the public operations, a male fish never carries reproduction state
GRAVID or LAYING, provided the abstracted per-fish phases of the missing
fish.js preserve that property (they do not touch sex or gestation
state); only the female of a successful pairing turns gravid, a male
only ever receives a cooldown stamp. -/
theorem male_never_gravid_or_laying (ext : Ext) (hext : PresMaleOk ext)
    (w : World) (hw : Reachable ext w) :
    ∀ f ∈ w.fish, f.sex = Sex.male →
      f.repro.state ≠ RState.GRAVID ∧ f.repro.state ≠ RState.LAYING :=
  reachable_fishInv ext hext w hw

theorem male_never_gravid_or_laying_witness :
    (World.create ext0 800 500 4 rs0).1.fish.all
      (fun f => decide (MaleOk f)) = true := by
  have h := male_never_gravid_or_laying ext0
    ⟨fun _ _ h2 => h2, fun _ _ h2 => h2, fun _ _ _ h2 => h2, fun _ _ _ h2 => h2,
     fun _ _ h2 => h2, fun _ _ h2 => h2⟩
    _ (Reachable.create 800 500 4 rs0)
  refine List.all_eq_true.mpr ?_
  intro f hf
  exact decide_eq_true (h f hf)


/-! Claim C7 machinery: the three filter timers are mutually
exclusive.  The invariant strengthens the claim with the sign and
installed-flag facts its preservation needs. -/

/-- Well-formedness of the filter timer record: the three transient
accumulators are nonnegative, install progress is exclusive with the
installed flag, maintenance and cooldown only exist installed, and
maintenance excludes cooldown. -/
def WaterWF (water : Water) : Prop :=
  0 ≤ water.installProgress01 ∧ 0 ≤ water.maintenanceProgress01 ∧
  0 ≤ water.maintenanceCooldownSec ∧
  (water.filterInstalled = true → water.installProgress01 = 0) ∧
  (water.filterInstalled = false → water.maintenanceProgress01 = 0 ∧
    water.maintenanceCooldownSec = 0) ∧
  ¬(0 < water.maintenanceProgress01 ∧ 0 < water.maintenanceCooldownSec)

theorem clampQ_nonneg (v hi : ℚ) : 0 ≤ clampQ v 0 hi := le_max_left 0 _

theorem waterWF_initial (fu : Bool) : WaterWF (initialWaterState fu) :=
  ⟨le_rfl, le_rfl, le_rfl, fun _ => rfl, fun _ => ⟨rfl, rfl⟩,
   fun h => lt_irrefl 0 h.1⟩

theorem wtInstall_WF (dt : ℚ) (wa : Water) (h : WaterWF wa) :
    WaterWF (wtInstall dt wa) := by
  obtain ⟨h1, h2, h3, h4, h5, h6⟩ := h
  unfold wtInstall
  dsimp only
  split_ifs with c1 c2
  · exact ⟨le_rfl, h2, h3, fun _ => rfl, fun hf => h5 c1.2, h6⟩
  · refine ⟨clampQ_nonneg _ _, h2, h3, ?_, fun _ => h5 c1.2, h6⟩
    intro hi
    have hi2 : wa.filterInstalled = true := hi
    rw [c1.2] at hi2
    exact absurd hi2 (by decide)
  · exact ⟨h1, h2, h3, h4, h5, h6⟩

theorem wtCooldown_WF (dt : ℚ) (wa : Water) (h : WaterWF wa) :
    WaterWF (wtCooldown dt wa) := by
  obtain ⟨h1, h2, h3, h4, h5, h6⟩ := h
  unfold wtCooldown
  split_ifs with c1
  · refine ⟨h1, h2, le_max_left _ _, h4, ?_, ?_⟩
    · intro hni
      exact absurd c1 (by rw [(h5 hni).2]; exact lt_irrefl 0)
    · intro hconj
      exact h6 ⟨hconj.1, c1⟩
  · exact ⟨h1, h2, h3, h4, h5, h6⟩

theorem wtMaint_WF (dt : ℚ) (wa : Water) (h : WaterWF wa) :
    WaterWF (wtMaint dt wa) := by
  obtain ⟨h1, h2, h3, h4, h5, h6⟩ := h
  unfold wtMaint
  dsimp only
  split_ifs with c1 c2
  · refine ⟨h1, le_rfl, by norm_num [FILTER_MAINTENANCE_COOLDOWN_SEC], ?_, ?_, ?_⟩
    · exact fun hi => h4 hi
    · intro hni
      exact absurd c1 (by rw [(h5 hni).1]; exact lt_irrefl 0)
    · exact fun hconj => lt_irrefl 0 hconj.1
  · have hcd : wa.maintenanceCooldownSec = 0 :=
      le_antisymm (le_of_not_lt (fun hlt => h6 ⟨c1, hlt⟩)) h3
    refine ⟨h1, clampQ_nonneg _ _, h3, fun hi => h4 hi, ?_, ?_⟩
    · intro hni
      exact absurd c1 (by rw [(h5 hni).1]; exact lt_irrefl 0)
    · intro hconj
      rw [hcd] at hconj
      exact lt_irrefl 0 hconj.2
  · exact ⟨h1, h2, h3, h4, h5, h6⟩

theorem waterTimers_WF (fu : Bool) (dt : ℚ) (wa : Water) (h : WaterWF wa) :
    WaterWF (waterTimers fu dt wa) := by
  refine wtMaint_WF _ _ (wtCooldown_WF _ _ (wtInstall_WF _ _ ?_))
  exact ⟨h.1, h.2.1, h.2.2.1, h.2.2.2.1, h.2.2.2.2.1, h.2.2.2.2.2⟩

theorem corpseSweepGo_waterFrame (simT : ℚ) (fs : List Fish) (wa : Water)
    (sel : Option ℕ) :
    ∃ d, (corpseSweepGo simT fs wa sel).2.1 = { wa with dirt01 := d } := by
  induction fs generalizing wa sel with
  | nil => exact ⟨wa.dirt01, rfl⟩
  | cons f rest ih =>
      unfold corpseSweepGo
      dsimp only
      obtain ⟨d2, h2⟩ := ih wa sel
      split_ifs <;> exact ⟨_, by rw [h2]⟩

theorem updateWaterHygiene_WF (w : World) (dt : ℚ) (h : WaterWF w.water) :
    WaterWF (w.updateWaterHygiene dt).water := by
  unfold World.updateWaterHygiene
  dsimp only
  obtain ⟨d2, hsw⟩ := corpseSweepGo_waterFrame w.simTimeSec w.fish
    w.water w.selectedFishId
  have htm : WaterWF (waterTimers w.filterUnlocked dt
      (corpseSweepGo w.simTimeSec w.fish w.water w.selectedFishId).2.1) := by
    refine waterTimers_WF _ _ _ ?_
    rw [hsw]
    exact ⟨h.1, h.2.1, h.2.2.1, h.2.2.2.1, h.2.2.2.2.1, h.2.2.2.2.2⟩
  split_ifs with hdt hw5
  · exact ⟨htm.1, htm.2.1, htm.2.2.1, htm.2.2.2.1, htm.2.2.2.2.1,
      htm.2.2.2.2.2⟩
  · exact ⟨htm.1, htm.2.1, htm.2.2.1, htm.2.2.2.1, htm.2.2.2.2.1,
      htm.2.2.2.2.2⟩
  · exact h


theorem spawnFood_water (w : World) (x y a t : ℚ) (r : RS) :
    (w.spawnFood x y a t r).1.water = w.water := rfl

theorem selectFish_water (w : World) (fid : ℕ) :
    (w.selectFish fid).2.water = w.water := by
  unfold World.selectFish
  cases hf : w.fish.find? (fun f => f.id = fid) <;> rfl

theorem toggleFishSelection_water (w : World) (fid : ℕ) :
    (w.toggleFishSelection fid).2.water = w.water := by
  unfold World.toggleFishSelection
  split_ifs
  · rfl
  · exact selectFish_water w fid

theorem renameFish_water (w : World) (fid : ℕ) (nm : String) :
    (w.renameFish fid nm).2.water = w.water := by
  unfold World.renameFish
  cases hf : w.fish.find? (fun e => e.id = fid) <;> rfl

theorem discardFish_water (w : World) (fid : ℕ) :
    (w.discardFish fid).2.water = w.water := by
  unfold World.discardFish
  dsimp only
  split_ifs <;> rfl

theorem removeCorpse_water (w : World) (fid : ℕ) :
    (w.removeCorpse fid).2.water = w.water := by
  unfold World.removeCorpse
  dsimp only
  split_ifs <;> rfl

theorem setSpeedMultiplier_water (w : World) (v : ℚ) :
    (w.setSpeedMultiplier v).water = w.water := rfl

theorem togglePause_water (w : World) : w.togglePause.2.water = w.water := rfl

theorem flushEvents_water (w : World) : w.flushEvents.2.water = w.water := rfl

theorem resize_water (w : World) (ext : Ext) (wd ht : ℚ) (r : RS) :
    (w.resize ext wd ht r).1.water = w.water := rfl

theorem genPoolGo_water (ext : Ext) (sx : Sex) (n : ℕ) (w : World)
    (pool : List Fish) (r : RS) :
    (genPoolGo ext sx n w pool r).1.water = w.water := by
  induction n generalizing w pool r with
  | zero => rfl
  | succ n ih =>
      unfold genPoolGo
      dsimp only
      exact (ih _ _ _).trans rfl

theorem generateInitialPopulation_water (w : World) (ext : Ext) (total : ℕ)
    (r : RS) : (w.generateInitialPopulation ext total r).1.water = w.water := by
  unfold World.generateInitialPopulation
  dsimp only
  split_ifs <;>
    exact (genPoolGo_water _ _ _ _ _ _).trans (genPoolGo_water _ _ _ _ _ _)

theorem create_water (ext : Ext) (width height : ℚ) (n : ℕ) (r : RS) :
    (World.create ext width height n r).1.water = initialWaterState false := by
  unfold World.create
  dsimp only
  exact generateInitialPopulation_water _ _ _ _

theorem addFishGo_water (ext : Ext) (n : ℕ) (w : World) (r : RS) :
    (addFishGo ext n w r).1.water = w.water := by
  induction n generalizing w r with
  | zero => rfl
  | succ n ih =>
      unfold addFishGo
      dsimp only
      exact (ih _ _).trans rfl

theorem setFishCount_water (w : World) (ext : Ext) (count : ℕ) (r : RS) :
    (w.setFishCount ext count r).1.water = w.water := by
  unfold World.setFishCount
  dsimp only
  split_ifs
  all_goals first
    | exact addFishGo_water ext _ w r
    | rfl

theorem installWaterFilter_WF (w : World) (h : WaterWF w.water) :
    WaterWF w.installWaterFilter.2.water := by
  unfold World.installWaterFilter
  split_ifs with hg
  · exact h
  · simp only [not_or, not_lt, Bool.not_eq_true] at hg
    obtain ⟨hun, hni, hip⟩ := hg
    have hni2 : w.water.filterInstalled = false := by
      simpa using hni
    refine ⟨by norm_num, h.2.1, h.2.2.1, ?_, fun _ => h.2.2.2.2.1 hni2, ?_⟩
    · intro hi
      have hi2 : w.water.filterInstalled = true := hi
      rw [hni2] at hi2
      exact absurd hi2 (by decide)
    · exact h.2.2.2.2.2

theorem toggleWaterFilterEnabled_WF (w : World) (h : WaterWF w.water) :
    WaterWF w.toggleWaterFilterEnabled.2.water := by
  unfold World.toggleWaterFilterEnabled
  split_ifs with hg
  · exact h
  · exact ⟨h.1, h.2.1, h.2.2.1, h.2.2.2.1, h.2.2.2.2.1, h.2.2.2.2.2⟩

theorem maintainWaterFilter_WF (w : World) (h : WaterWF w.water) :
    WaterWF w.maintainWaterFilter.2.water := by
  unfold World.maintainWaterFilter
  by_cases hinst : w.water.filterInstalled = true
  · rw [if_neg (by simp [hinst])]
    by_cases hg : 0 < w.water.installProgress01 ∨
        0 < w.water.maintenanceProgress01 ∨
        0 < w.water.maintenanceCooldownSec
    · rw [if_pos hg]
      exact h
    · rw [if_neg hg]
      simp only [not_or, not_lt] at hg
      obtain ⟨hip, hmp, hcd⟩ := hg
      have hcd0 : w.water.maintenanceCooldownSec = 0 := le_antisymm hcd h.2.2.1
      refine ⟨h.1, by norm_num, h.2.2.1, fun _ => h.2.2.2.1 hinst, ?_, ?_⟩
      · intro hni
        have hni2 : w.water.filterInstalled = false := hni
        rw [hinst] at hni2
        exact absurd hni2 (by decide)
      · intro hconj
        rw [hcd0] at hconj
        exact lt_irrefl 0 hconj.2
  · rw [if_pos hinst]
    exact h

theorem update_WF (w : World) (ext : Ext) (raw : ℚ) (r : RS)
    (h : WaterWF w.water) : WaterWF (w.update ext raw r).1.water := by
  exact update_waterPred WaterWF w ext raw r
    (fun w2 h2 => updateWaterHygiene_WF w2 _ h2) h

theorem reachable_waterWF (ext : Ext) (w : World) (hw : Reachable ext w) :
    WaterWF w.water := by
  induction hw with
  | create width height n r =>
      rw [create_water]
      exact waterWF_initial false
  | tick w raw r hr ih => exact update_WF w ext raw r ih
  | spawnFood w x y amount ttl r hr ih => rw [spawnFood_water]; exact ih
  | consumeFood w fid amt hr ih => rw [consumeFood_water]; exact ih
  | selectFish w fid hr ih => rw [selectFish_water]; exact ih
  | toggleSelection w fid hr ih => rw [toggleFishSelection_water]; exact ih
  | renameFish w fid nm hr ih => rw [renameFish_water]; exact ih
  | discardFish w fid hr ih => rw [discardFish_water]; exact ih
  | removeCorpse w fid hr ih => rw [removeCorpse_water]; exact ih
  | setSpeed w v hr ih => rw [setSpeedMultiplier_water]; exact ih
  | togglePause w hr ih => rw [togglePause_water]; exact ih
  | installFilter w hr ih => exact installWaterFilter_WF w ih
  | toggleFilterEnabled w hr ih => exact toggleWaterFilterEnabled_WF w ih
  | maintainFilter w hr ih => exact maintainWaterFilter_WF w ih
  | setFishCount w count r hr ih => rw [setFishCount_water]; exact ih
  | resize w width height r hr ih => rw [resize_water]; exact ih
  | flushEvents w hr ih => rw [flushEvents_water]; exact ih

/-- C7: in every World reachable through installWaterFilter,
maintainWaterFilter, toggleWaterFilterEnabled, update ticks and the
other public operations, at most one of the three filter timers —
install progress, maintenance progress, post-maintenance cooldown — is
non-zero at any time. -/
theorem filter_timers_mutually_exclusive (ext : Ext) (w : World)
    (hw : Reachable ext w) :
    ¬(w.water.installProgress01 ≠ 0 ∧ w.water.maintenanceProgress01 ≠ 0) ∧
    ¬(w.water.installProgress01 ≠ 0 ∧ w.water.maintenanceCooldownSec ≠ 0) ∧
    ¬(w.water.maintenanceProgress01 ≠ 0 ∧ w.water.maintenanceCooldownSec ≠ 0) := by
  obtain ⟨h1, h2, h3, h4, h5, h6⟩ := reachable_waterWF ext w hw
  have hni : w.water.installProgress01 ≠ 0 → w.water.filterInstalled = false := by
    intro hip
    cases hin : w.water.filterInstalled with
    | false => rfl
    | true => exact absurd (h4 hin) hip
  refine ⟨?_, ?_, ?_⟩
  · intro hc
    exact hc.2 ((h5 (hni hc.1)).1)
  · intro hc
    exact hc.2 ((h5 (hni hc.1)).2)
  · intro hc
    exact h6 ⟨lt_of_le_of_ne h2 (Ne.symm hc.1), lt_of_le_of_ne h3 (Ne.symm hc.2)⟩

theorem filter_timers_mutually_exclusive_witness :
    ¬((World.create ext0 800 500 4 rs0).1.water.installProgress01 ≠ 0 ∧
      (World.create ext0 800 500 4 rs0).1.water.maintenanceProgress01 ≠ 0) := by
  exact (filter_timers_mutually_exclusive ext0 _
    (Reachable.create 800 500 4 rs0)).1


/-! Claim C9 machinery: a dead, user-retained fish is eventually evicted
by the corpse sweep.  A generic per-fish predicate chain tracks an
arbitrary property through one update tick. -/

/-- The anchored death record of the tracked corpse. -/
def DeadAnchored (d0 : ℚ) (f : Fish) : Prop :=
  f.lifeState = LState.DEAD ∧ f.deadAtSec = some d0 ∧ f.corpseRemoved = false

/-- A fish-to-fish map preserves identity and an established death
record (it may still kill a living fish). -/
def KeepsDead (h : Fish → Fish) : Prop :=
  ∀ f, (h f).id = f.id ∧ (f.lifeState = LState.DEAD →
    (h f).lifeState = LState.DEAD ∧ (h f).deadAtSec = f.deadAtSec ∧
    (h f).corpseRemoved = f.corpseRemoved)

/-- The abstracted fish.js phases preserve identity and death records. -/
def ExtKeepsDead (ext : Ext) : Prop :=
  (∀ t, KeepsDead (ext.updateLifeCycle t)) ∧
  (∀ t, KeepsDead (ext.updatePlayState t)) ∧
  (∀ d w, KeepsDead (ext.updateMetabolism d w)) ∧
  (∀ w d, KeepsDead (ext.decideBehavior w d)) ∧
  (∀ d, KeepsDead (ext.applySteering d)) ∧
  (∀ w, KeepsDead (fun f => (ext.tryConsumeFood w f).1))

/-- Closure facts letting a per-fish property survive one update tick:
closure under the abstracted phases, the play-field setters, any
reproduction-record rewrite, the death-time stamp, the corpse-dirt
stamp and the spawn-time reset, plus the property outright for fish
born with a fresh id. -/
structure PF (ext : Ext) (X : ℕ) (P : Fish → Prop) : Prop where
  lifeCycle : ∀ t f, P f → P (ext.updateLifeCycle t f)
  playState : ∀ t f, P f → P (ext.updatePlayState t f)
  metabolism : ∀ d w f, P f → P (ext.updateMetabolism d w f)
  behavior : ∀ w d f, P f → P (ext.decideBehavior w d f)
  steering : ∀ d f, P f → P (ext.applySteering d f)
  consume : ∀ w f, P f → P (ext.tryConsumeFood w f).1
  startPlay : ∀ f sid ro u tid, P f → P (f.startPlay sid ro u tid)
  stopPlay : ∀ f, P f → P f.stopPlay
  setRole : ∀ f ro, P f → P (f.setPlayRole ro)
  setTarget : ∀ f tid, P f → P (f.setPlayTargetFish tid)
  delay : ∀ f t, P f → P (f.delayPlayEligibility t)
  reproAny : ∀ f rep anim, P f → P { f with repro := rep, matingAnim := anim }
  deadStamp : ∀ f t, f.deadAtSec = none → P f → P { f with deadAtSec := some t }
  corpseDirt : ∀ f v, P f → P { f with corpseDirtApplied01 := v }
  spawnSet : ∀ f s, P f → P { f with spawnTimeSec := s }
  babyId : ∀ (w : World) sex ia hs pos tr r, X < w.nextFishId →
    P ((World.createFish ext w sex ia hs pos tr r).1)

/-- The World-level form the chain threads: every fish satisfies P and
the tracked id is in the already-used range. -/
def PInv (X : ℕ) (P : Fish → Prop) (w : World) : Prop :=
  (∀ f ∈ w.fish, P f) ∧ X < w.nextFishId

theorem pf_mem_set {P : Fish → Prop} {l : List Fish} {i : ℕ} {x : Fish}
    (hl : ∀ f ∈ l, P f) (hx : P x) : ∀ f ∈ l.set i x, P f := by
  intro f hf
  rcases List.mem_or_eq_of_mem_set hf with h | h
  · exact hl f h
  · exact h ▸ hx

theorem pf_modifyFirst {P : Fish → Prop} {p : Fish → Bool} {g : Fish → Fish}
    (hg : ∀ f, P f → P (g f)) :
    ∀ {l : List Fish}, (∀ f ∈ l, P f) → ∀ f ∈ modifyFirst p g l, P f := by
  intro l
  induction l with
  | nil => intro _ f hf; simp [modifyFirst] at hf
  | cons x xs ih =>
      intro hl f hf
      unfold modifyFirst at hf
      split_ifs at hf with hp
      · rcases List.mem_cons.mp hf with h | h
        · exact h ▸ hg x (hl x (List.mem_cons_self _ _))
        · exact hl f (List.mem_cons_of_mem _ h)
      · rcases List.mem_cons.mp hf with h | h
        · exact h ▸ hl x (List.mem_cons_self _ _)
        · exact ih (fun f hf => hl f (List.mem_cons_of_mem _ hf)) f h

theorem pf_applyFishAtId {P : Fish → Prop} {w : World} {fid : ℕ}
    {g : Fish → Fish} (hg : ∀ f, P f → P (g f))
    (hw : ∀ f ∈ w.fish, P f) : ∀ f ∈ (applyFishAtId w fid g).fish, P f :=
  fun f hf => pf_modifyFirst hg hw f hf

theorem pf_foldl {P : Fish → Prop} {α : Type} (step : World → α → World)
    (hstep : ∀ w a, (∀ f ∈ w.fish, P f) → ∀ f ∈ (step w a).fish, P f)
    (l : List α) (w : World) (hw : ∀ f ∈ w.fish, P f) :
    ∀ f ∈ (l.foldl step w).fish, P f := by
  induction l generalizing w with
  | nil => exact hw
  | cons a as ih => exact ih (step w a) (hstep w a hw)

theorem playSessionStep_pf {ext : Ext} {X : ℕ} {P : Fish → Prop}
    (hpf : PF ext X P) (w : World) (s : PlaySession)
    (hw : ∀ f ∈ w.fish, P f) : ∀ f ∈ (playSessionStep w s).2.2.fish, P f := by
  unfold playSessionStep
  cases hr : w.fish.find? (fun f => f.id = s.runnerFishId) with
  | none =>
      dsimp only
      exact pf_foldl _
        (fun w2 c h2 => pf_applyFishAtId (fun f => hpf.stopPlay f) h2) _ w hw
  | some runner =>
      dsimp only
      split_ifs with h1 h2
      · exact pf_foldl _
          (fun w2 c h2 => pf_applyFishAtId (fun f => hpf.stopPlay f) h2)
          _ _ (pf_applyFishAtId (fun f => hpf.stopPlay f) hw)
      · exact pf_foldl _
          (fun w2 c h2 => pf_applyFishAtId (fun f => hpf.stopPlay f) h2)
          _ w hw
      · exact pf_foldl _
          (fun w2 c h2 =>
            pf_applyFishAtId (fun f => hpf.setTarget f _)
              (pf_applyFishAtId (fun f => hpf.setRole f _) h2))
          _ _
          (pf_applyFishAtId (fun f => hpf.setTarget f _)
            (pf_applyFishAtId (fun f => hpf.setRole f _) hw))

theorem updatePlaySessionsGo_pf {ext : Ext} {X : ℕ} {P : Fish → Prop}
    (hpf : PF ext X P) (ss : List PlaySession) (w : World)
    (hw : ∀ f ∈ w.fish, P f) :
    ∀ f ∈ (updatePlaySessionsGo ss w).2.fish, P f := by
  induction ss generalizing w with
  | nil => exact hw
  | cons s rest ih =>
      unfold updatePlaySessionsGo
      dsimp only
      split_ifs
      · exact ih _ (playSessionStep_pf hpf w s hw)
      · exact ih _ (playSessionStep_pf hpf w s hw)

theorem updatePlaySessions_pf {ext : Ext} {X : ℕ} {P : Fish → Prop}
    (hpf : PF ext X P) (w : World) (hw : ∀ f ∈ w.fish, P f) :
    ∀ f ∈ w.updatePlaySessions.fish, P f := by
  intro f hf
  exact updatePlaySessionsGo_pf hpf w.playSessions w hw f hf


theorem expandCandGo_pf {ext : Ext} {X : ℕ} {P : Fish → Prop}
    (hpf : PF ext X P) (t : ℚ) (sid rid : ℕ) (us ax ay : ℚ)
    (fuel i : ℕ) (w : World) (r : RS) (acc : List ℕ)
    (hw : ∀ f ∈ w.fish, P f) :
    ∀ f ∈ (expandCandGo t sid rid us ax ay fuel i w r acc).1.fish, P f := by
  induction fuel generalizing i w r acc with
  | zero => exact hw
  | succ fuel ih =>
      unfold expandCandGo
      cases hg : w.fish.get? i with
      | none => exact hw
      | some cand =>
          dsimp only [RS.next]
          have hcand : P cand := hw cand (List.get?_mem hg)
          split_ifs
          · exact ih _ _ _ _ hw
          · exact ih _ _ _ _ hw
          · exact ih _ _ _ _
              (fun f hf => pf_mem_set hw
                (hpf.startPlay cand sid PlayRole.CHASER us rid hcand) f hf)
          · exact ih _ _ _ _ hw

theorem expandSessionStep_pf {ext : Ext} {X : ℕ} {P : Fish → Prop}
    (hpf : PF ext X P) (t : ℚ) (si : ℕ) (w : World) (r : RS)
    (hw : ∀ f ∈ w.fish, P f) :
    ∀ f ∈ (expandSessionStep t si w r).1.fish, P f := by
  unfold expandSessionStep
  cases hs : w.playSessions.get? si with
  | none => exact hw
  | some s =>
      dsimp only
      cases hr : w.fish.find? (fun f => f.id = s.runnerFishId) with
      | none => exact hw
      | some runner =>
          dsimp only
          split_ifs
          · exact expandCandGo_pf hpf _ _ _ _ _ _ _ _ _ _ _ hw
          · exact hw

theorem expandSessGo_pf {ext : Ext} {X : ℕ} {P : Fish → Prop}
    (hpf : PF ext X P) (t : ℚ) (fuel si : ℕ) (w : World) (r : RS)
    (hw : ∀ f ∈ w.fish, P f) :
    ∀ f ∈ (expandSessGo t fuel si w r).1.fish, P f := by
  induction fuel generalizing si w r with
  | zero => exact hw
  | succ fuel ih =>
      unfold expandSessGo
      dsimp only
      exact ih _ _ _ (expandSessionStep_pf hpf t si w r hw)

theorem tryExpandPlaySessions_pf {ext : Ext} {X : ℕ} {P : Fish → Prop}
    (hpf : PF ext X P) (w : World) (r : RS) (hw : ∀ f ∈ w.fish, P f) :
    ∀ f ∈ (w.tryExpandPlaySessions r).1.fish, P f :=
  expandSessGo_pf hpf _ _ _ _ _ hw

theorem startCandGo_pf {ext : Ext} {X : ℕ} {P : Fish → Prop}
    (hpf : PF ext X P) (t : ℚ) (sid rid icid : ℕ) (us mx my : ℚ)
    (fuel i : ℕ) (w : World) (r : RS) (acc : List ℕ)
    (hw : ∀ f ∈ w.fish, P f) :
    ∀ f ∈ (startCandGo t sid rid icid us mx my fuel i w r acc).1.fish, P f := by
  induction fuel generalizing i w r acc with
  | zero => exact hw
  | succ fuel ih =>
      unfold startCandGo
      split_ifs with hfull
      · exact hw
      · cases hg : w.fish.get? i with
        | none => exact hw
        | some cand =>
            dsimp only [RS.next]
            have hcand : P cand := hw cand (List.get?_mem hg)
            split_ifs
            · exact ih _ _ _ _ hw
            · exact ih _ _ _ _ hw
            · exact ih _ _ _ _ hw
            · exact ih _ _ _ _
                (fun f hf => pf_mem_set hw
                  (hpf.startPlay cand sid PlayRole.CHASER us rid hcand) f hf)
            · exact ih _ _ _ _ hw

theorem startSessionFor_pf {ext : Ext} {X : ℕ} {P : Fish → Prop}
    (hpf : PF ext X P) (t : ℚ) (i j : ℕ) (w : World) (r : RS)
    (hw : ∀ f ∈ w.fish, P f) :
    ∀ f ∈ (startSessionFor t i j w r).1.fish, P f := by
  unfold startSessionFor
  rcases hi : w.fish.get? i with _ | a <;> rcases hj : w.fish.get? j with _ | b
  · exact hw
  · exact hw
  · exact hw
  · dsimp only
    have ha : P a := hw a (List.get?_mem hi)
    have hb : P b := hw b (List.get?_mem hj)
    intro f hf
    refine startCandGo_pf hpf _ _ _ _ _ _ _ _ _ _ _ _ ?_ f hf
    intro g hg
    refine pf_mem_set (l := _) ?_ ?_ g hg
    · intro g2 hg2
      refine pf_mem_set (fun f2 hf2 => hw f2 hf2) ?_ g2 hg2
      split_ifs
      · exact hpf.startPlay _ _ _ _ _ ha
      · exact hpf.startPlay _ _ _ _ _ hb
    · split_ifs
      · exact hpf.startPlay _ _ _ _ _ hb
      · exact hpf.startPlay _ _ _ _ _ ha

theorem delayPairAt_pf {ext : Ext} {X : ℕ} {P : Fish → Prop}
    (hpf : PF ext X P) (t : ℚ) (i j : ℕ) (w : World)
    (hw : ∀ f ∈ w.fish, P f) : ∀ f ∈ (delayPairAt t i j w).fish, P f := by
  unfold delayPairAt
  rcases hi : w.fish.get? i with _ | a <;> rcases hj : w.fish.get? j with _ | b
  · exact hw
  · exact hw
  · exact hw
  · have ha : P a := hw a (List.get?_mem hi)
    have hb : P b := hw b (List.get?_mem hj)
    intro f hf
    refine pf_mem_set (l := _) ?_ (hpf.delay b t hb) f hf
    intro g hg
    exact pf_mem_set hw (hpf.delay a t ha) g hg

theorem startInnerGo_pf {ext : Ext} {X : ℕ} {P : Fish → Prop}
    (hpf : PF ext X P) (t : ℚ) (i fuel j : ℕ) (w : World) (r : RS)
    (hw : ∀ f ∈ w.fish, P f) :
    ∀ f ∈ (startInnerGo t i fuel j w r).1.fish, P f := by
  induction fuel generalizing j w r with
  | zero => exact hw
  | succ fuel ih =>
      unfold startInnerGo
      rcases hi : w.fish.get? i with _ | a <;> rcases hj : w.fish.get? j with _ | b
      · exact hw
      · exact hw
      · exact hw
      · dsimp only [RS.next]
        split_ifs
        · exact ih _ _ _ hw
        · exact ih _ _ _ (delayPairAt_pf hpf _ _ _ _ hw)
        · exact startSessionFor_pf hpf _ _ _ _ _ hw
        · exact ih _ _ _ hw

theorem startOuterGo_pf {ext : Ext} {X : ℕ} {P : Fish → Prop}
    (hpf : PF ext X P) (t : ℚ) (fuel i : ℕ) (w : World) (r : RS)
    (hw : ∀ f ∈ w.fish, P f) :
    ∀ f ∈ (startOuterGo t fuel i w r).1.fish, P f := by
  induction fuel generalizing i w r with
  | zero => exact hw
  | succ fuel ih =>
      unfold startOuterGo
      rcases hi : w.fish.get? i with _ | a
      · exact hw
      · dsimp only
        split_ifs
        · exact startInnerGo_pf hpf _ _ _ _ _ _ hw
        · exact ih _ _ _ (startInnerGo_pf hpf _ _ _ _ _ _ hw)
        · exact ih _ _ _ hw

theorem tryStartPlaySessions_pf {ext : Ext} {X : ℕ} {P : Fish → Prop}
    (hpf : PF ext X P) (w : World) (r : RS) (hw : ∀ f ∈ w.fish, P f) :
    ∀ f ∈ (w.tryStartPlaySessions r).1.fish, P f := by
  unfold World.tryStartPlaySessions
  split_ifs
  · exact hw
  · exact startOuterGo_pf hpf _ _ _ _ _ hw


theorem pf_pair_set {P : Fish → Prop} {l : List Fish}
    (hl : ∀ f ∈ l, P f) {i j : ℕ} {x y : Fish} (hx : P x) (hy : P y) :
    ∀ f ∈ (l.set i x).set j y, P f :=
  fun f hf => pf_mem_set (fun g hg => pf_mem_set hl hx g hg) hy f hf

theorem tryMatePair_pf {ext : Ext} {X : ℕ} {P : Fish → Prop}
    (hpf : PF ext X P) (w : World) (i j : ℕ) (t : ℚ) (r : RS)
    (hw : ∀ f ∈ w.fish, P f) : ∀ f ∈ (w.tryMatePair i j t r).1.fish, P f := by
  unfold World.tryMatePair
  rcases hi : w.fish.get? i with _ | a <;> rcases hj : w.fish.get? j with _ | b
  · exact hw
  · exact hw
  · exact hw
  · have ha : P a := hw a (List.get?_mem hi)
    have hb : P b := hw b (List.get?_mem hj)
    dsimp only [RS.next, randRangeQ, randQ]
    split_ifs <;> try exact hw
    all_goals refine pf_pair_set (fun f2 hf2 => hw f2 hf2) ?_ ?_
    all_goals first
      | exact hpf.reproAny _ _ _ ha
      | exact hpf.reproAny _ _ _ hb

theorem mateInnerGo_pf {ext : Ext} {X : ℕ} {P : Fish → Prop}
    (hpf : PF ext X P) (t : ℚ) (i fuel j : ℕ) (w : World) (r : RS) :
    (∀ f ∈ w.fish, P f) → ∀ f ∈ (mateInnerGo t i fuel j w r).1.fish, P f := by
  induction fuel, j, w, r using mateInnerGo.induct t i with
  | case1 j w r => exact fun hw => hw
  | case2 fuel j w r a b hj hi w2 r2 hsplit ih =>
      intro hw
      have h2 : ∀ f ∈ w2.fish, P f := by
        have he : w2 = (if b.lifeState = LState.ALIVE ∧
            sqDistLe (a.x - b.x) (a.y - b.y) MATE_ENCOUNTER_RADIUS_PX then
            w.tryMatePair i j t r else (w, r)).1 := by rw [hsplit]
        rw [he]
        split_ifs
        · exact tryMatePair_pf hpf w i j t r hw
        · exact hw
      unfold mateInnerGo
      rw [hi, hj]
      dsimp only
      rw [hsplit]
      dsimp only
      exact ih h2
  | case3 fuel j w r h =>
      intro hw
      unfold mateInnerGo
      rcases hi : w.fish.get? i with _ | a <;> rcases hj : w.fish.get? j with _ | b
      · exact hw
      · exact hw
      · exact hw
      · exact (h a b hi hj).elim

theorem mateOuterGo_pf {ext : Ext} {X : ℕ} {P : Fish → Prop}
    (hpf : PF ext X P) (t : ℚ) (fuel i : ℕ) (w : World) (r : RS) :
    (∀ f ∈ w.fish, P f) → ∀ f ∈ (mateOuterGo t fuel i w r).1.fish, P f := by
  induction fuel, i, w, r using mateOuterGo.induct t with
  | case1 i w r => exact fun hw => hw
  | case2 fuel i w r hi =>
      intro hw
      unfold mateOuterGo
      rw [hi]
      exact hw
  | case3 fuel i w r a hi w2 r2 hsplit ih =>
      intro hw
      have h2 : ∀ f ∈ w2.fish, P f := by
        have he : w2 = (if a.lifeState = LState.ALIVE
            then mateInnerGo t i (w.fish.length - (i + 1)) (i + 1) w r
            else (w, r)).1 := by rw [hsplit]
        rw [he]
        split_ifs
        · exact mateInnerGo_pf hpf t i _ _ w r hw
        · exact hw
      unfold mateOuterGo
      rw [hi]
      dsimp only
      rw [hsplit]
      dsimp only
      exact ih h2

theorem layEggClutch_pf {ext : Ext} {X : ℕ} {P : Fish → Prop}
    (hpf : PF ext X P) (w : World) (i : ℕ) (t : ℚ) (r : RS)
    (hw : ∀ f ∈ w.fish, P f) : ∀ f ∈ (w.layEggClutch i t r).1.fish, P f := by
  unfold World.layEggClutch
  cases hi : w.fish.get? i with
  | none => exact hw
  | some female =>
      dsimp only [RS.next, randRangeQ, randQ, randIntInclusiveQ]
      obtain ⟨eg2, n2, hgo⟩ := clutchGo_frame female.x female.y female.id
        female.repro.fatherId female.traits
        (match w.fish.find? (fun f => some f.id = female.repro.fatherId) with
         | some f => f.traits
         | none => female.traits) t _ w _
      rw [hgo]
      intro f hf
      refine pf_mem_set (fun f2 hf2 => hw f2 hf2) ?_ f hf
      exact hpf.reproAny _ _ _ (hw female (List.get?_mem hi))

theorem reproGravidStep_pf {ext : Ext} {X : ℕ} {P : Fish → Prop}
    (hpf : PF ext X P) (t ly : ℚ) (i : ℕ) (w : World) (r : RS)
    (hw : ∀ f ∈ w.fish, P f) :
    ∀ f ∈ (reproGravidStep t ly i w r).1.fish, P f := by
  unfold reproGravidStep
  cases hg : w.fish.get? i with
  | none => exact hw
  | some fish =>
      dsimp only [randQ, RS.next]
      split_ifs
      · intro f hf
        refine pf_mem_set (fun f2 hf2 => hw f2 hf2) ?_ f hf
        exact hpf.reproAny _ _ _ (hw fish (List.get?_mem hg))
      · exact hw

theorem reproLayingStep_pf {ext : Ext} {X : ℕ} {P : Fish → Prop}
    (hpf : PF ext X P) (t ly : ℚ) (i : ℕ) (w : World) (r : RS)
    (hw : ∀ f ∈ w.fish, P f) :
    ∀ f ∈ (reproLayingStep t ly i w r).1.fish, P f := by
  unfold reproLayingStep
  cases hg : w.fish.get? i with
  | none => exact hw
  | some f1 =>
      dsimp only
      split_ifs
      · exact layEggClutch_pf hpf w i t r hw
      · exact hw
      · exact hw

theorem reproCooldownStep_pf {ext : Ext} {X : ℕ} {P : Fish → Prop}
    (hpf : PF ext X P) (t : ℚ) (i : ℕ) (w : World)
    (hw : ∀ f ∈ w.fish, P f) : ∀ f ∈ (reproCooldownStep t i w).fish, P f := by
  unfold reproCooldownStep
  cases hg : w.fish.get? i with
  | none => exact hw
  | some f2 =>
      dsimp only
      split_ifs
      · intro f hf
        refine pf_mem_set (fun g hg2 => hw g hg2) ?_ f hf
        exact hpf.reproAny _ _ _ (hw f2 (List.get?_mem hg))
      · exact hw

theorem reproStageGo_pf {ext : Ext} {X : ℕ} {P : Fish → Prop}
    (hpf : PF ext X P) (t ly : ℚ) (fuel i : ℕ) (w : World) (r : RS)
    (hw : ∀ f ∈ w.fish, P f) :
    ∀ f ∈ (reproStageGo t ly fuel i w r).1.fish, P f := by
  induction fuel generalizing i w r with
  | zero => exact hw
  | succ fuel ih =>
      unfold reproStageGo
      cases hg : w.fish.get? i with
      | none => exact hw
      | some fish =>
          dsimp only
          split_ifs
          · exact ih _ _ _
              (reproCooldownStep_pf hpf _ _ _
                (reproLayingStep_pf hpf _ _ _ _ _
                  (reproGravidStep_pf hpf _ _ _ _ _ hw)))
          · exact ih _ _ _ hw

theorem updateReproduction_pf {ext : Ext} {X : ℕ} {P : Fish → Prop}
    (hpf : PF ext X P) (w : World) (dt : ℚ) (r : RS)
    (hw : ∀ f ∈ w.fish, P f) :
    ∀ f ∈ (w.updateReproduction dt r).1.fish, P f := by
  unfold World.updateReproduction
  split_ifs
  · exact reproStageGo_pf hpf _ _ _ _ _ _ (mateOuterGo_pf hpf _ _ _ _ _ hw)
  · exact hw


theorem consumeGo_pf {ext : Ext} {X : ℕ} {P : Fish → Prop}
    (hpf : PF ext X P) (fs : List Fish) (w : World)
    (hfs : ∀ f ∈ fs, P f) : ∀ f ∈ (consumeGo ext fs w).1, P f := by
  induction fs generalizing w with
  | nil => intro f hf; simp [consumeGo] at hf
  | cons x rest ih =>
      intro f hf
      unfold consumeGo at hf
      dsimp only at hf
      rcases List.mem_cons.mp hf with h | h
      · exact h ▸ hpf.consume w x (hfs x (List.mem_cons_self _ _))
      · exact ih _ (fun g hg => hfs g (List.mem_cons_of_mem _ hg)) f h

theorem consumePhase_pf {ext : Ext} {X : ℕ} {P : Fish → Prop}
    (hpf : PF ext X P) (w : World) (hw : ∀ f ∈ w.fish, P f) :
    ∀ f ∈ (w.consumePhase ext).fish, P f := by
  intro f hf
  exact consumeGo_pf hpf w.fish w hw f hf

theorem fishPhase_pf {P : Fish → Prop} (g : Fish → Fish)
    (hg : ∀ f, P f → P (g f)) (w : World) (hw : ∀ f ∈ w.fish, P f) :
    ∀ f ∈ (fishPhase g w).fish, P f := by
  intro f hf
  rcases List.mem_map.mp hf with ⟨x, hx, rfl⟩
  exact hg x (hw x hx)

theorem updateFishLifeState_pf {ext : Ext} {X : ℕ} {P : Fish → Prop}
    (hpf : PF ext X P) (w : World) (hw : ∀ f ∈ w.fish, P f) :
    ∀ f ∈ w.updateFishLifeState.fish, P f := by
  intro f hf
  rcases List.mem_map.mp hf with ⟨x, hx, rfl⟩
  have hx2 := hw x hx
  split_ifs with hc
  · exact hpf.deadStamp _ _ hc.2 hx2
  · exact hx2

theorem updateEggsGo_pf {ext : Ext} {X : ℕ} {P : Fish → Prop}
    (hpf : PF ext X P) (t h01 : ℚ) (eggs : List Egg) (w : World) (r : RS)
    (hw : ∀ f ∈ w.fish, P f) (hX : X < w.nextFishId) :
    ∀ f ∈ (updateEggsGo ext t h01 eggs w r).2.1.fish, P f := by
  induction eggs generalizing w r with
  | nil => exact hw
  | cons egg rest ih =>
      unfold updateEggsGo
      dsimp only
      split_ifs
      · exact ih w r hw hX
      · intro f hf
        rcases List.mem_append.mp hf with h | h
        · exact ih w r hw hX f h
        · rw [List.mem_singleton.mp h]
          refine hpf.spawnSet _ _ ?_
          refine hpf.babyId _ none 0 false _ _ _ ?_
          exact lt_of_lt_of_le hX (updateEggsGo_nfi_le ext t h01 rest w r)
      · exact ih w r hw hX

theorem updateEggs_pf {ext : Ext} {X : ℕ} {P : Fish → Prop}
    (hpf : PF ext X P) (w : World) (dt : ℚ) (r : RS)
    (hw : ∀ f ∈ w.fish, P f) (hX : X < w.nextFishId) :
    ∀ f ∈ (w.updateEggs ext dt r).1.fish, P f := by
  unfold World.updateEggs
  split_ifs
  · exact updateEggsGo_pf hpf _ _ _ _ _ hw hX
  · exact hw

theorem corpseSweepGo_pf {ext : Ext} {X : ℕ} {P : Fish → Prop}
    (hpf : PF ext X P) (simT : ℚ) (fs : List Fish) (wa : Water)
    (sel : Option ℕ) (hfs : ∀ f ∈ fs, P f) :
    ∀ g ∈ (corpseSweepGo simT fs wa sel).1, P g := by
  induction fs generalizing wa sel with
  | nil => intro g hg; simp [corpseSweepGo] at hg
  | cons f rest ih =>
      have hf : P f := hfs f (List.mem_cons_self _ _)
      have hrest := fun g hg => hfs g (List.mem_cons_of_mem _ hg)
      intro g hg
      unfold corpseSweepGo at hg
      dsimp only at hg
      split_ifs at hg
      all_goals
        first
          | exact ih wa sel hrest g hg
          | (rcases List.mem_cons.mp hg with h | h
             · subst h
               first
                 | exact hf
                 | exact hpf.deadStamp _ _ (by assumption) hf
                 | exact hpf.corpseDirt _ _ hf
                 | exact hpf.corpseDirt _ _
                     (hpf.deadStamp _ _ (by assumption) hf)
             · exact ih wa sel hrest g h)

theorem updateWaterHygiene_pf {ext : Ext} {X : ℕ} {P : Fish → Prop}
    (hpf : PF ext X P) (w : World) (dt : ℚ) (hw : ∀ f ∈ w.fish, P f) :
    ∀ f ∈ (w.updateWaterHygiene dt).fish, P f := by
  unfold World.updateWaterHygiene
  dsimp only
  split_ifs
  · intro g hg
    exact corpseSweepGo_pf hpf w.simTimeSec w.fish w.water w.selectedFishId
      hw g hg
  · intro g hg
    exact corpseSweepGo_pf hpf w.simTimeSec w.fish w.water w.selectedFishId
      hw g hg
  · exact hw

theorem pfish_of_fishEq {P : Fish → Prop} {w w2 : World}
    (he : w2.fish = w.fish) (hw : ∀ f ∈ w.fish, P f) :
    ∀ f ∈ w2.fish, P f := fun f hf => hw f (he ▸ hf)

theorem update_pinv {ext : Ext} {X : ℕ} {P : Fish → Prop}
    (hpf : PF ext X P) (w : World) (raw : ℚ) (r : RS)
    (hinv : PInv X P w) : PInv X P (w.update ext raw r).1 := by
  obtain ⟨hw, hX⟩ := hinv
  refine ⟨?_, lt_of_lt_of_le hX (update_nfi_le w ext raw r)⟩
  by_cases hp : w.paused = true
  · unfold World.update
    rw [if_pos hp]
    exact hw
  · unfold World.update
    rw [if_neg hp]
    dsimp only
    refine pfish_of_fishEq (updateBubbles_fish _ _ _ _) ?_
    refine pfish_of_fishEq (updateFxParticles_fish _ _) ?_
    refine updateWaterHygiene_pf hpf _ _ ?_
    refine updateEggs_pf hpf _ _ _ ?_ ?_
    · refine pfish_of_fishEq (updateFood_fish _ _) ?_
      refine updateFishLifeState_pf hpf _ ?_
      refine consumePhase_pf hpf _ ?_
      refine fishPhase_pf _ (hpf.steering _) _ ?_
      refine fishPhase_pf _ (hpf.behavior _ _) _ ?_
      refine fishPhase_pf _ (hpf.metabolism _ _) _ ?_
      refine updateReproduction_pf hpf _ _ _ ?_
      refine tryStartPlaySessions_pf hpf _ _ ?_
      refine tryExpandPlaySessions_pf hpf _ _ ?_
      refine updatePlaySessions_pf hpf _ ?_
      refine fishPhase_pf _ (hpf.playState _) _ ?_
      refine fishPhase_pf _ (hpf.lifeCycle _) _ ?_
      exact hw
    · simp only [updateFood_nfi, updateFishLifeState_nfi, consumePhase_nfi,
        fishPhase_nfi, updateReproduction_nfi, tryStartPlaySessions_nfi,
        tryExpandPlaySessions_nfi, updatePlaySessions_nfi]
      exact hX

/-! Saturation arithmetic: once a corpse has been dead for the grace
period plus five dirt steps, its target contribution is pinned at the
maximum, so the sweep evicts it. -/

theorem corpseTarget_max (age : ℚ)
    (h : CORPSE_GRACE_SEC + 5 * CORPSE_DIRT_STEP_SEC ≤ age) :
    corpseTargetContribution age = CORPSE_DIRT_MAX01 := by
  have hg : CORPSE_GRACE_SEC ≤ age := by
    simp only [CORPSE_GRACE_SEC, CORPSE_DIRT_STEP_SEC] at h ⊢
    linarith
  have h5 : (5 : ℤ) ≤ ⌊(age - CORPSE_GRACE_SEC) / CORPSE_DIRT_STEP_SEC⌋ := by
    rw [Int.le_floor]
    simp only [CORPSE_GRACE_SEC, CORPSE_DIRT_STEP_SEC] at h ⊢
    rw [le_div_iff₀ (by norm_num)]
    push_cast
    linarith
  have h5q : (5 : ℚ) ≤ ((⌊(age - CORPSE_GRACE_SEC) / CORPSE_DIRT_STEP_SEC⌋ : ℤ) : ℚ) := by
    exact_mod_cast h5
  unfold corpseTargetContribution
  rw [if_pos hg]
  dsimp only
  unfold clampQ
  rw [min_eq_left (by unfold CORPSE_DIRT_MAX01 CORPSE_DIRT_INITIAL01 CORPSE_DIRT_STEP01; linarith),
    max_eq_right (by unfold CORPSE_DIRT_MAX01; norm_num)]

/-- createFish hands out exactly the current id counter, provided the
abstract lifecycle refresh preserves ids. -/
theorem createFish_id {ext : Ext}
    (hlc : ∀ t, KeepsDead (ext.updateLifeCycle t)) (w : World)
    (sex : Option Sex) (ia : ℚ) (hs : Bool) (pos : Option (ℚ × ℚ))
    (tr : Option Traits) (r : RS) :
    (World.createFish ext w sex ia hs pos tr r).1.id = w.nextFishId := by
  refine ((hlc _ _).1).trans ?_
  exact createFishPre_id w sex ia hs pos tr ext.piQ r

/-- Any fish carrying the tracked id has the anchored death record. -/
def Tracked (X : ℕ) (d0 : ℚ) (f : Fish) : Prop :=
  f.id = X → DeadAnchored d0 f

theorem keepsDead_tracked {X : ℕ} {d0 : ℚ} {h : Fish → Fish}
    (hk : KeepsDead h) (f : Fish) (ht : Tracked X d0 f) :
    Tracked X d0 (h f) := by
  intro hid
  have hid2 : f.id = X := by rw [← (hk f).1]; exact hid
  obtain ⟨hd1, hd2, hd3⟩ := ht hid2
  obtain ⟨hk1, hk2, hk3⟩ := (hk f).2 hd1
  exact ⟨hk1, hk2.trans hd2, hk3.trans hd3⟩

theorem pf_tracked {ext : Ext} (hext : ExtKeepsDead ext) (X : ℕ) (d0 : ℚ) :
    PF ext X (Tracked X d0) :=
  { lifeCycle := fun t f ht => keepsDead_tracked (hext.1 t) f ht
    playState := fun t f ht => keepsDead_tracked (hext.2.1 t) f ht
    metabolism := fun d w f ht => keepsDead_tracked (hext.2.2.1 d w) f ht
    behavior := fun w d f ht => keepsDead_tracked (hext.2.2.2.1 w d) f ht
    steering := fun d f ht => keepsDead_tracked (hext.2.2.2.2.1 d) f ht
    consume := fun w f ht => keepsDead_tracked (hext.2.2.2.2.2 w) f ht
    startPlay := fun f sid ro u tid ht => ht
    stopPlay := fun f ht => ht
    setRole := fun f ro ht => ht
    setTarget := fun f tid ht => ht
    delay := fun f t ht => ht
    reproAny := fun f rep anim ht => ht
    deadStamp := fun f t hn ht hid =>
      absurd ((ht hid).2.1) (by rw [hn]; exact fun hc => Option.noConfusion hc)
    corpseDirt := fun f v ht => ht
    spawnSet := fun f s ht => ht
    babyId := fun w sex ia hs pos tr r hX hid =>
      absurd ((createFish_id hext.1 w sex ia hs pos tr r).symm.trans hid)
        (ne_of_gt hX) }

theorem keepsDead_gone {X : ℕ} {h : Fish → Fish} (hk : KeepsDead h)
    (f : Fish) (hne : f.id ≠ X) : (h f).id ≠ X :=
  fun hid => hne (((hk f).1).symm.trans hid)

theorem pf_gone {ext : Ext} (hext : ExtKeepsDead ext) (X : ℕ) :
    PF ext X (fun f => f.id ≠ X) :=
  { lifeCycle := fun t f hne => keepsDead_gone (hext.1 t) f hne
    playState := fun t f hne => keepsDead_gone (hext.2.1 t) f hne
    metabolism := fun d w f hne => keepsDead_gone (hext.2.2.1 d w) f hne
    behavior := fun w d f hne => keepsDead_gone (hext.2.2.2.1 w d) f hne
    steering := fun d f hne => keepsDead_gone (hext.2.2.2.2.1 d) f hne
    consume := fun w f hne => keepsDead_gone (hext.2.2.2.2.2 w) f hne
    startPlay := fun f sid ro u tid hne => hne
    stopPlay := fun f hne => hne
    setRole := fun f ro hne => hne
    setTarget := fun f tid hne => hne
    delay := fun f t hne => hne
    reproAny := fun f rep anim hne => hne
    deadStamp := fun f t hn hne => hne
    corpseDirt := fun f v hne => hne
    spawnSet := fun f s hne => hne
    babyId := fun w sex ia hs pos tr r hX hid =>
      absurd ((createFish_id hext.1 w sex ia hs pos tr r).symm.trans hid)
        (ne_of_gt hX) }

/-- The sweep evicts every anchored corpse once the simulated clock is
past its saturation age. -/
theorem corpseSweepGo_evict (X : ℕ) (d0 simT : ℚ)
    (hage : CORPSE_GRACE_SEC + 5 * CORPSE_DIRT_STEP_SEC ≤ simT - d0) :
    ∀ (fs : List Fish) (wa : Water) (sel : Option ℕ),
      (∀ f ∈ fs, f.id = X → DeadAnchored d0 f) →
      ∀ g ∈ (corpseSweepGo simT fs wa sel).1, g.id ≠ X := by
  intro fs
  induction fs with
  | nil =>
      intro wa sel hfs g hg
      simp [corpseSweepGo] at hg
  | cons f rest ih =>
      intro wa sel hfs g hg
      have hrest : ∀ f2 ∈ rest, f2.id = X → DeadAnchored d0 f2 :=
        fun f2 h2 => hfs f2 (List.mem_cons_of_mem _ h2)
      unfold corpseSweepGo at hg
      dsimp only at hg
      by_cases hidX : f.id = X
      · obtain ⟨hdead, hstamp, hrm⟩ := hfs f (List.mem_cons_self _ _) hidX
        have hge : CORPSE_DIRT_MAX01 ≤
            corpseTargetContribution (max 0 (simT - d0)) := by
          rw [corpseTarget_max _ (le_trans hage (le_max_right _ _))]
        simp [hdead, hstamp, hrm] at hg
        split_ifs at hg
        all_goals
          first
            | exact ih wa sel hrest g hg
            | (exfalso
               first
                 | exact absurd hge (by assumption)
                 | (have h2 : corpseTargetContribution (max 0 (simT - d0)) ≤
                       clampQ f.corpseDirtApplied01 0 CORPSE_DIRT_MAX01 :=
                     not_lt.mp (by assumption)
                    have h3 : CORPSE_DIRT_MAX01 ≤
                        clampQ f.corpseDirtApplied01 0 CORPSE_DIRT_MAX01 :=
                      le_trans hge h2
                    unfold clampQ at h3
                    rcases le_max_iff.mp h3 with h4 | h4
                    · exact absurd h4 (by norm_num [CORPSE_DIRT_MAX01])
                    · exact absurd (le_min_iff.mp h4).2 (by assumption)))
      · split_ifs at hg
        all_goals
          first
            | exact ih wa sel hrest g hg
            | (rcases List.mem_cons.mp hg with h | h
               · subst h
                 exact hidX
               · exact ih wa sel hrest g h)

theorem updateWaterHygiene_evict (X : ℕ) (d0 : ℚ) (w : World) (dt : ℚ)
    (hdt : 0 < dt)
    (hfs : ∀ f ∈ w.fish, f.id = X → DeadAnchored d0 f)
    (hage : CORPSE_GRACE_SEC + 5 * CORPSE_DIRT_STEP_SEC ≤ w.simTimeSec - d0) :
    ∀ g ∈ (w.updateWaterHygiene dt).fish, g.id ≠ X := by
  unfold World.updateWaterHygiene
  dsimp only
  rw [if_neg (not_not_intro hdt)]
  exact corpseSweepGo_evict X d0 w.simTimeSec hage w.fish w.water
    w.selectedFishId hfs

/-! Per-stage simulated-clock preservation, extracted from the clock
lemmas for the age bound at the hygiene stage. -/

theorem fishPhase_simTime (g : Fish → Fish) (w : World) :
    (fishPhase g w).simTimeSec = w.simTimeSec := rfl

theorem updatePlaySessions_simTime (w : World) :
    w.updatePlaySessions.simTimeSec = w.simTimeSec :=
  clockView_simTime (updatePlaySessions_clock w)

theorem tryExpandPlaySessions_simTime (w : World) (r : RS) :
    (w.tryExpandPlaySessions r).1.simTimeSec = w.simTimeSec :=
  clockView_simTime (tryExpandPlaySessions_clock w r)

theorem tryStartPlaySessions_simTime (w : World) (r : RS) :
    (w.tryStartPlaySessions r).1.simTimeSec = w.simTimeSec :=
  clockView_simTime (tryStartPlaySessions_clock w r)

theorem updateReproduction_simTime (w : World) (dt : ℚ) (r : RS) :
    (w.updateReproduction dt r).1.simTimeSec = w.simTimeSec :=
  clockView_simTime (updateReproduction_clock w dt r)

theorem consumePhase_simTime (w : World) (ext : Ext) :
    (w.consumePhase ext).simTimeSec = w.simTimeSec :=
  clockView_simTime (consumePhase_clock w ext)

theorem updateFishLifeState_simTime (w : World) :
    w.updateFishLifeState.simTimeSec = w.simTimeSec :=
  clockView_simTime (updateFishLifeState_clock w)

theorem updateFood_simTime (w : World) (d : ℚ) :
    (w.updateFood d).simTimeSec = w.simTimeSec :=
  clockView_simTime (updateFood_clock w d)

theorem updateEggs_simTime (w : World) (ext : Ext) (dt : ℚ) (r : RS) :
    (w.updateEggs ext dt r).1.simTimeSec = w.simTimeSec :=
  clockView_simTime (updateEggs_clock w ext dt r)

/-- One running update tick evicts every anchored corpse whose
saturation age has passed by the end of the tick. -/
theorem update_evict {ext : Ext} (hext : ExtKeepsDead ext) (X : ℕ) (d0 : ℚ)
    (w : World) (raw : ℚ) (r : RS)
    (hp : w.paused = false)
    (hdt : 0 < raw * w.speedMultiplier)
    (hinv : PInv X (Tracked X d0) w)
    (hage : CORPSE_GRACE_SEC + 5 * CORPSE_DIRT_STEP_SEC ≤
      w.simTimeSec + raw * w.speedMultiplier - d0) :
    ∀ g ∈ (w.update ext raw r).1.fish, g.id ≠ X := by
  obtain ⟨hw, hX⟩ := hinv
  unfold World.update
  rw [if_neg (by rw [hp]; exact fun hc => Bool.noConfusion hc)]
  dsimp only
  refine pfish_of_fishEq (updateBubbles_fish _ _ _ _) ?_
  refine pfish_of_fishEq (updateFxParticles_fish _ _) ?_
  refine updateWaterHygiene_evict X d0 _ _ hdt ?_ ?_
  · refine updateEggs_pf (pf_tracked hext X d0) _ _ _ ?_ ?_
    · refine pfish_of_fishEq (updateFood_fish _ _) ?_
      refine updateFishLifeState_pf (pf_tracked hext X d0) _ ?_
      refine consumePhase_pf (pf_tracked hext X d0) _ ?_
      refine fishPhase_pf _ ((pf_tracked hext X d0).steering _) _ ?_
      refine fishPhase_pf _ ((pf_tracked hext X d0).behavior _ _) _ ?_
      refine fishPhase_pf _ ((pf_tracked hext X d0).metabolism _ _) _ ?_
      refine updateReproduction_pf (pf_tracked hext X d0) _ _ _ ?_
      refine tryStartPlaySessions_pf (pf_tracked hext X d0) _ _ ?_
      refine tryExpandPlaySessions_pf (pf_tracked hext X d0) _ _ ?_
      refine updatePlaySessions_pf (pf_tracked hext X d0) _ ?_
      refine fishPhase_pf _ ((pf_tracked hext X d0).playState _) _ ?_
      refine fishPhase_pf _ ((pf_tracked hext X d0).lifeCycle _) _ ?_
      exact hw
    · simp only [updateFood_nfi, updateFishLifeState_nfi, consumePhase_nfi,
        fishPhase_nfi, updateReproduction_nfi, tryStartPlaySessions_nfi,
        tryExpandPlaySessions_nfi, updatePlaySessions_nfi]
      exact hX
  · simp only [updateEggs_simTime, updateFood_simTime,
      updateFishLifeState_simTime, consumePhase_simTime, fishPhase_simTime,
      updateReproduction_simTime, tryStartPlaySessions_simTime,
      tryExpandPlaySessions_simTime, updatePlaySessions_simTime]
    exact hage

/-- n update ticks with raw delta d, tick k drawing its stream from rs k. -/
def updateIter (ext : Ext) (d : ℚ) (rs : ℕ → RS) : ℕ → World → World
  | 0, w => w
  | n + 1, w => ((updateIter ext d rs n w).update ext d (rs n)).1

theorem updateIter_paused (ext : Ext) (d : ℚ) (rs : ℕ → RS) (w : World)
    (hp : w.paused = false) :
    ∀ n, (updateIter ext d rs n w).paused = false := by
  intro n
  induction n with
  | zero => exact hp
  | succ n ih => exact update_paused _ ext d (rs n) ih

theorem updateIter_speed (ext : Ext) (d : ℚ) (rs : ℕ → RS) (w : World)
    (hp : w.paused = false) :
    ∀ n, (updateIter ext d rs n w).speedMultiplier = w.speedMultiplier := by
  intro n
  induction n with
  | zero => rfl
  | succ n ih =>
      exact (update_speed _ ext d (rs n)
        (updateIter_paused ext d rs w hp n)).trans ih

theorem updateIter_simTime (ext : Ext) (d : ℚ) (rs : ℕ → RS) (w : World)
    (hp : w.paused = false) :
    ∀ n, (updateIter ext d rs n w).simTimeSec =
      w.simTimeSec + n * (d * w.speedMultiplier) := by
  intro n
  induction n with
  | zero =>
      show w.simTimeSec = w.simTimeSec + ((0 : ℕ) : ℚ) * (d * w.speedMultiplier)
      push_cast
      ring
  | succ n ih =>
      show ((updateIter ext d rs n w).update ext d (rs n)).1.simTimeSec = _
      rw [update_simTime _ ext d (rs n) (updateIter_paused ext d rs w hp n),
        ih, updateIter_speed ext d rs w hp n]
      push_cast
      ring

theorem updateIter_pinv {ext : Ext} {X : ℕ} {P : Fish → Prop}
    (hpf : PF ext X P) (d : ℚ) (rs : ℕ → RS) (w : World)
    (hinv : PInv X P w) : ∀ n, PInv X P (updateIter ext d rs n w) := by
  intro n
  induction n with
  | zero => exact hinv
  | succ n ih => exact update_pinv hpf _ d (rs n) ih

/-- C9: a fish whose life state is DEAD, whose death time is stamped,
and which the user has not explicitly removed, never persists: running
the simulation unpaused with any fixed positive raw delta, there is a
tick index past which no fish in the collection carries the corpse's id
— the sweep stage eventually evicts it for good. -/
theorem corpse_eventually_evicted (ext : Ext) (X : ℕ) (d0 : ℚ) (w : World)
    (d : ℚ) (rs : ℕ → RS)
    (hext : ExtKeepsDead ext)
    (hp : w.paused = false)
    (hd : 0 < d * w.speedMultiplier)
    (hX : X < w.nextFishId)
    (hdead : ∀ f ∈ w.fish, f.id = X → DeadAnchored d0 f) :
    ∃ n, ∀ m, n ≤ m → ∀ g ∈ (updateIter ext d rs m w).fish, g.id ≠ X := by
  obtain ⟨k, hk⟩ := exists_nat_gt
    ((CORPSE_GRACE_SEC + 5 * CORPSE_DIRT_STEP_SEC + d0 - w.simTimeSec) /
      (d * w.speedMultiplier))
  have hinvk : ∀ n, PInv X (Tracked X d0) (updateIter ext d rs n w) :=
    updateIter_pinv (pf_tracked hext X d0) d rs w ⟨hdead, hX⟩
  have hgone : ∀ g ∈ (updateIter ext d rs (k + 1) w).fish, g.id ≠ X := by
    show ∀ g ∈ ((updateIter ext d rs k w).update ext d (rs k)).1.fish, g.id ≠ X
    refine update_evict hext X d0 _ d (rs k)
      (updateIter_paused ext d rs w hp k) ?_ (hinvk k) ?_
    · rw [updateIter_speed ext d rs w hp k]
      exact hd
    · rw [updateIter_simTime ext d rs w hp k, updateIter_speed ext d rs w hp k]
      have h2 := (div_lt_iff₀ hd).mp hk
      linarith
  have hpers : ∀ j, ∀ g ∈ (updateIter ext d rs (k + 1 + j) w).fish, g.id ≠ X := by
    intro j
    induction j with
    | zero => exact hgone
    | succ j ih =>
        show ∀ g ∈ ((updateIter ext d rs (k + 1 + j) w).update ext d
          (rs (k + 1 + j))).1.fish, g.id ≠ X
        exact (update_pinv (pf_gone hext X) _ d (rs (k + 1 + j))
          ⟨ih, (hinvk (k + 1 + j)).2⟩).1
  refine ⟨k + 1, ?_⟩
  intro m hm
  obtain ⟨j, rfl⟩ := Nat.exists_eq_add_of_le hm
  exact hpers j

/-- A concrete anchored corpse for the C9 witness. -/
def c9Dead : Fish :=
  { mkFish 1 with lifeState := LState.DEAD, deadAtSec := some 0 }

/-- The witness world: a single anchored corpse, unpaused, speed 1. -/
def c9World : World := mkWorld [c9Dead]

/-- C9 witness: the identity-phased extension keeps death records, the
fixture world is unpaused at speed 1 with the corpse anchored, and the
corpse with id 1 is eventually evicted forever. -/
theorem corpse_eventually_evicted_witness :
    ExtKeepsDead ext0 ∧ c9World.paused = false ∧
      (0 : ℚ) < 1 * c9World.speedMultiplier ∧ 1 < c9World.nextFishId ∧
      (∀ f ∈ c9World.fish, f.id = 1 → DeadAnchored 0 f) ∧
      ∃ n, ∀ m, n ≤ m →
        ∀ g ∈ (updateIter ext0 1 (fun _ => rs0) m c9World).fish, g.id ≠ 1 := by
  have hext : ExtKeepsDead ext0 :=
    ⟨fun t f => ⟨rfl, fun hd2 => ⟨hd2, rfl, rfl⟩⟩,
     fun t f => ⟨rfl, fun hd2 => ⟨hd2, rfl, rfl⟩⟩,
     fun d w f => ⟨rfl, fun hd2 => ⟨hd2, rfl, rfl⟩⟩,
     fun w d f => ⟨rfl, fun hd2 => ⟨hd2, rfl, rfl⟩⟩,
     fun d f => ⟨rfl, fun hd2 => ⟨hd2, rfl, rfl⟩⟩,
     fun w f => ⟨rfl, fun hd2 => ⟨hd2, rfl, rfl⟩⟩⟩
  have hp : c9World.paused = false := rfl
  have hd : (0 : ℚ) < 1 * c9World.speedMultiplier := by
    with_unfolding_all decide
  have hX : 1 < c9World.nextFishId := by decide
  have hdead : ∀ f ∈ c9World.fish, f.id = 1 → DeadAnchored 0 f := by
    intro f hf hid
    have hfe : f = c9Dead := List.mem_singleton.mp hf
    subst hfe
    exact ⟨rfl, rfl, rfl⟩
  exact ⟨hext, hp, hd, hX, hdead,
    corpse_eventually_evicted ext0 1 0 c9World 1 (fun _ => rs0)
      hext hp hd hX hdead⟩

end Aquatab
